import Mathlib

/-!
Shallow embedding of the pjsekai extended chart converter
(sekai/lib/converter.py) and verification of its specification.

Numeric chart fields (beats, lanes, sizes, alphas) are modelled as `Rat`:
the converter only copies, compares and orders them, never performs float
arithmetic. Index-valued fields are also `Rat` values (Python numbers),
interpreted as container keys the way Python does (`1.0` indexes like `1`).

Python object identity and mutation are modelled by an arena (`St`): every
constructed entity object gets a fresh numeric id, `ref()` is the id, and
attribute assignment is an update of the arena entry. Fallible operations
(`dict[k]` / `list[i]` lookups that can raise `KeyError`/`IndexError`, and
the potentially non-terminating timescale chain walk) live in `Option`.
-/

namespace Converter

/-- Modelled from the spec: the engine-side enumerations `ConnectorKind`,
`EaseType`, `FlickDirection` and `TimescaleEase` are defined outside the
converter source. The spec only requires that their members are distinct
values, none of which equals the unset sentinel `-1`; we fix them as
distinct non-negative integers. -/
def FlickDirection.UP_LEFT : Int := 0

def FlickDirection.UP_OMNI : Int := 1

def FlickDirection.UP_RIGHT : Int := 2

def EaseType.OUT_IN_QUAD : Int := 0

def EaseType.OUT_QUAD : Int := 1

def EaseType.LINEAR : Int := 2

def EaseType.IN_QUAD : Int := 3

def EaseType.IN_OUT_QUAD : Int := 4

def ConnectorKind.ACTIVE_NORMAL : Int := 0

def ConnectorKind.ACTIVE_CRITICAL : Int := 1

def ConnectorKind.GUIDE_NEUTRAL : Int := 2

def ConnectorKind.GUIDE_RED : Int := 3

def ConnectorKind.GUIDE_GREEN : Int := 4

def ConnectorKind.GUIDE_BLUE : Int := 5

def ConnectorKind.GUIDE_YELLOW : Int := 6

def ConnectorKind.GUIDE_PURPLE : Int := 7

def ConnectorKind.GUIDE_CYAN : Int := 8

def ConnectorKind.GUIDE_BLACK : Int := 9

def TimescaleEase.NONE : Int := 0

/-- `note_type_mapping`: archetype name to note class name. -/
def note_type_mapping (a : String) : Option String :=
  if a = "NormalTapNote" then some "NormalTapNote"
  else if a = "CriticalTapNote" then some "CriticalTapNote"
  else if a = "NormalFlickNote" then some "NormalFlickNote"
  else if a = "CriticalFlickNote" then some "CriticalFlickNote"
  else if a = "NormalSlideStartNote" then some "NormalHeadTapNote"
  else if a = "CriticalSlideStartNote" then some "CriticalHeadTapNote"
  else if a = "NormalSlideEndNote" then some "NormalTailReleaseNote"
  else if a = "CriticalSlideEndNote" then some "CriticalTailReleaseNote"
  else if a = "NormalSlideEndFlickNote" then some "NormalTailFlickNote"
  else if a = "CriticalSlideEndFlickNote" then some "CriticalTailFlickNote"
  else if a = "IgnoredSlideTickNote" then some "TransientHiddenTickNote"
  else if a = "NormalSlideTickNote" then some "NormalTickNote"
  else if a = "CriticalSlideTickNote" then some "CriticalTickNote"
  else if a = "HiddenSlideTickNote" then some "AnchorNote"
  else if a = "NormalAttachedSlideTickNote" then some "NormalTickNote"
  else if a = "CriticalAttachedSlideTickNote" then some "CriticalTickNote"
  else if a = "NormalTraceNote" then some "NormalTraceNote"
  else if a = "CriticalTraceNote" then some "CriticalTraceNote"
  else if a = "DamageNote" then some "DamageNote"
  else if a = "NormalTraceFlickNote" then some "NormalTraceFlickNote"
  else if a = "CriticalTraceFlickNote" then some "CriticalTraceFlickNote"
  else if a = "NonDirectionalTraceFlickNote" then some "NormalTraceFlickNote"
  else if a = "HiddenSlideStartNote" then some "AnchorNote"
  else if a = "NormalTraceSlideStartNote" then some "NormalHeadTraceNote"
  else if a = "CriticalTraceSlideStartNote" then some "CriticalHeadTraceNote"
  else if a = "NormalTraceSlideEndNote" then some "NormalTailTraceNote"
  else if a = "CriticalTraceSlideEndNote" then some "CriticalTailTraceNote"
  else none

/-- `active_connector_kind_mapping`. -/
def active_connector_kind_mapping (a : String) : Option Int :=
  if a = "NormalSlideConnector" then some ConnectorKind.ACTIVE_NORMAL
  else if a = "CriticalSlideConnector" then some ConnectorKind.ACTIVE_CRITICAL
  else none

/-- `flick_direction_mapping` (a Python dict indexed with a numeric key;
a key outside {-1, 0, 1} raises `KeyError`). -/
def flick_direction_mapping (v : Rat) : Option Int :=
  if v = -1 then some FlickDirection.UP_LEFT
  else if v = 0 then some FlickDirection.UP_OMNI
  else if v = 1 then some FlickDirection.UP_RIGHT
  else none

/-- `ease_type_mapping`. -/
def ease_type_mapping (v : Rat) : Option Int :=
  if v = -2 then some EaseType.OUT_IN_QUAD
  else if v = -1 then some EaseType.OUT_QUAD
  else if v = 0 then some EaseType.LINEAR
  else if v = 1 then some EaseType.IN_QUAD
  else if v = 2 then some EaseType.IN_OUT_QUAD
  else none

/-- `fade_alpha_mapping`: fade mode to (start alpha, end alpha). -/
def fade_alpha_mapping (v : Rat) : Option (Rat × Rat) :=
  if v = 0 then some (1, 0)
  else if v = 1 then some (1, 1)
  else if v = 2 then some (0, 1)
  else none

/-- `guide_kind_mapping`: guide color code to guide connector kind. -/
def guide_kind_mapping (v : Rat) : Option Int :=
  if v = 0 then some ConnectorKind.GUIDE_NEUTRAL
  else if v = 1 then some ConnectorKind.GUIDE_RED
  else if v = 2 then some ConnectorKind.GUIDE_GREEN
  else if v = 3 then some ConnectorKind.GUIDE_BLUE
  else if v = 4 then some ConnectorKind.GUIDE_YELLOW
  else if v = 5 then some ConnectorKind.GUIDE_PURPLE
  else if v = 6 then some ConnectorKind.GUIDE_CYAN
  else if v = 7 then some ConnectorKind.GUIDE_BLACK
  else none

/-- A raw input entity: archetype tag plus a field mapping. -/
structure ExternalEntityData where
  archetype : String
  data : List (String × Rat)
deriving DecidableEq

/-- `entity.data.get(k)` semantics returning `none` when the key is absent
(used where Python would raise `KeyError` on `entity.data[k]`). -/
def ExternalEntityData.get (e : ExternalEntityData) (k : String) : Option Rat :=
  (e.data.find? (fun p => p.1 = k)).map (fun p => p.2)

/-- `entity.data.get(k, d)` with a default. -/
def ExternalEntityData.getD (e : ExternalEntityData) (k : String) (d : Rat) : Rat :=
  (e.get k).getD d

/-- Python list indexing `data[v]` with a numeric index: a non-integer index
is a `TypeError`, a negative integer wraps from the end, out of range is an
`IndexError`; all failures are `none`. -/
def pyListGet (l : List ExternalEntityData) (v : Rat) : Option ExternalEntityData :=
  if v.den = 1 then
    let n : Int := if v.num < 0 then v.num + l.length else v.num
    if h : 0 ≤ n ∧ n < l.length then some (l.get ⟨n.toNat, by omega⟩) else none
  else none

/-- `enumerate_by_archetype`: index-preserving view filtered by archetype
(the store appends into per-archetype lists in input order). -/
def byArchetype (l : List ExternalEntityData) (a : String) :
    List (Nat × ExternalEntityData) :=
  l.enum.filter (fun p => p.2.archetype = a)

/-- `iter_note_archetypes`: entities whose archetype is in `note_type_mapping`. -/
def noteEntities (l : List ExternalEntityData) : List (Nat × ExternalEntityData) :=
  l.enum.filter (fun p => (note_type_mapping p.2.archetype).isSome)

/-- `iter_active_connector_archetypes`. -/
def connectorEntities (l : List ExternalEntityData) : List (Nat × ExternalEntityData) :=
  l.enum.filter (fun p => (active_connector_kind_mapping p.2.archetype).isSome)

/-- A constructed note object (all note classes share this field set; `cls`
records which class was instantiated). Modelled from the spec: fields not
passed to the constructor default to "unset" — sentinel `-1` for the three
mergeable attributes, absent references, `is_attached = false`. -/
structure Note where
  cls : String
  beat : Rat
  lane : Rat
  size : Rat
  direction : Int
  segment_kind : Int
  segment_alpha : Rat
  connector_ease : Int
  timescale_group : Option Nat
  attach_head_ref : Option Nat
  attach_tail_ref : Option Nat
  is_attached : Bool
  active_head_ref : Option Nat
  next_ref : Option Nat
deriving DecidableEq

/-- A constructed `Connector` object. -/
structure Connector where
  head_ref : Nat
  tail_ref : Nat
  segment_head_ref : Nat
  segment_tail_ref : Nat
  active_head_ref : Option Nat
  active_tail_ref : Option Nat
deriving DecidableEq

/-- A constructed `TimescaleChange` object. -/
structure TimescaleChangeObj where
  beat : Rat
  timescale : Rat
  timescale_skip : Rat
  timescale_group : Nat
  timescale_ease : Int
  next_ref : Option Nat
deriving DecidableEq

/-- A heap object: any mutable constructed entity. -/
inductive Obj where
  | note (n : Note)
  | conn (c : Connector)
  | group (first_ref : Option Nat)
  | tschange (c : TimescaleChangeObj)
deriving DecidableEq

/-- An element of the output entity list. Entities that are never mutated
after construction (`Initialization`, `BpmChange`, `SimLine`) are stored
inline; mutable objects are referenced by arena id. -/
inductive EntityRef where
  | initOut
  | bpmChange (beat bpm : Rat)
  | obj (id : Nat)
  | simLine (left_ref right_ref : Nat)
deriving DecidableEq

/-- The arena of constructed objects: a fresh-id counter and the heap. -/
structure St where
  nextId : Nat
  heap : List (Nat × Obj)
deriving DecidableEq

def St.lookup (s : St) (id : Nat) : Option Obj :=
  (s.heap.find? (fun p => p.1 = id)).map (fun p => p.2)

def St.alloc (s : St) (o : Obj) : Nat × St :=
  (s.nextId, ⟨s.nextId + 1, s.heap ++ [(s.nextId, o)]⟩)

def St.modify (s : St) (id : Nat) (f : Obj → Obj) : St :=
  ⟨s.nextId, s.heap.map (fun p => if p.1 = id then (p.1, f p.2) else p)⟩

/-- Attribute assignment on a note object (a no-op on non-notes, which is
unreachable: the converter only assigns note attributes through note refs). -/
def St.modifyNote (s : St) (id : Nat) (f : Note → Note) : St :=
  s.modify id (fun o => match o with | .note n => .note (f n) | o => o)

def St.getNote (s : St) (id : Nat) : Option Note :=
  match s.lookup id with | some (.note n) => some n | _ => none

def St.getConn (s : St) (id : Nat) : Option Connector :=
  match s.lookup id with | some (.conn c) => some c | _ => none

/-- Python dict lookup keyed by original entity index, with a numeric key
(`d[1.0]` finds key `1`); `none` models `KeyError`. -/
def idxLookup (m : List (Nat × Nat)) (v : Rat) : Option Nat :=
  (m.find? (fun p => ((p.1 : Int) : Rat) = v)).map (fun p => p.2)

/-- `convert_bpm_changes`. -/
def convert_bpm_changes_loop :
    List (Nat × ExternalEntityData) → List EntityRef → Option (List EntityRef)
  | [], out => some out
  | (_, e) :: rest, out => do
    let beat ← e.get "#BEAT"
    let bpm ← e.get "#BPM"
    convert_bpm_changes_loop rest (out ++ [EntityRef.bpmChange beat bpm])

def convert_bpm_changes (ents : List ExternalEntityData) : Option (List EntityRef) :=
  convert_bpm_changes_loop (byArchetype ents "#BPM_CHANGE") []

/-- `changes[-1].next_ref = change.ref()`: point a change object at its
successor (leaving any non-change object alone, which never happens). -/
def linkNext (cid : Nat) (o : Obj) : Obj :=
  match o with
  | .tschange c => .tschange { c with next_ref := some cid }
  | o => o

/-- `group.first_ref = changes[0].ref()`: point a group object at the first
change of its chain (leaving any non-group object alone, which never
happens). -/
def setFirst (c : Nat) (o : Obj) : Obj :=
  match o with
  | .group _ => .group (some c)
  | o => o

/-- The `while True` walk of `convert_timescale_groups`: build one change per
raw record, link it to its predecessor, follow `next` while positive. `fuel`
bounds the walk; exhaustion models the nontermination of the Python loop on a
cyclic `next` chain (a cycle revisits a record and hence never stops). -/
def buildChain (ents : List ExternalEntityData) (gid : Nat) :
    Nat → ExternalEntityData → St → List Nat → Option (List Nat × St)
  | 0, _, _, _ => none
  | fuel + 1, raw, st, acc => do
    let beat ← raw.get "#BEAT"
    let ts ← raw.get "timeScale"
    let (cid, st) := st.alloc (.tschange
      { beat := beat, timescale := ts, timescale_skip := 0,
        timescale_group := gid, timescale_ease := TimescaleEase.NONE,
        next_ref := none })
    let st := match acc.getLast? with
      | some prev => st.modify prev (linkNext cid)
      | none => st
    let acc := acc ++ [cid]
    if raw.getD "next" 0 ≤ 0 then
      pure (acc, st)
    else do
      let raw2 ← pyListGet ents (raw.getD "next" 0)
      buildChain ents gid fuel raw2 st acc

/-- `convert_timescale_groups` main loop: one group entity plus its chain of
changes per raw group, and the original-index-to-group-id map. -/
def convert_timescale_groups_loop (ents : List ExternalEntityData) :
    List (Nat × ExternalEntityData) → St → List (Nat × Nat) → List EntityRef →
    Option (List (Nat × Nat) × List EntityRef × St)
  | [], st, m, out => some (m, out, st)
  | (i, e) :: rest, st, m, out => do
    let (gid, st) := st.alloc (.group none)
    let firstIdx ← e.get "first"
    let raw ← pyListGet ents firstIdx
    let (chain, st) ← buildChain ents gid (ents.length + 1) raw st []
    let st := match chain.head? with
      | some c => st.modify gid (fun o => match o with
          | .group _ => .group (some c)
          | o => o)
      | none => st
    convert_timescale_groups_loop ents rest st (m ++ [(i, gid)])
      (out ++ [EntityRef.obj gid] ++ chain.map EntityRef.obj)

def convert_timescale_groups (ents : List ExternalEntityData) (st : St) :
    Option (List (Nat × Nat) × List EntityRef × St) :=
  convert_timescale_groups_loop ents (byArchetype ents "TimeScaleGroup") st [] []

/-- Note construction in pass 1 of `convert_notes`: required `#BEAT`,
defaulted `lane`/`size`/`direction`, initial `segment_kind` active-normal. -/
def buildNote (e : ExternalEntityData) : Option Note := do
  let cls ← note_type_mapping e.archetype
  let beat ← e.get "#BEAT"
  let dir ← flick_direction_mapping (e.getD "direction" 0)
  pure
    { cls := cls, beat := beat, lane := e.getD "lane" 0, size := e.getD "size" 0,
      direction := dir, segment_kind := ConnectorKind.ACTIVE_NORMAL,
      segment_alpha := -1, connector_ease := -1, timescale_group := none,
      attach_head_ref := none, attach_tail_ref := none, is_attached := false,
      active_head_ref := none, next_ref := none }

/-- Pass 1 of `convert_notes`: construct all notes, recording original index
to note id. -/
def convert_notes_p1 :
    List (Nat × ExternalEntityData) → St → List (Nat × Nat) → List EntityRef →
    Option (List (Nat × Nat) × List EntityRef × St)
  | [], st, nm, out => some (nm, out, st)
  | (i, e) :: rest, st, nm, out => do
    let n ← buildNote e
    let (nid, st) := st.alloc (.note n)
    convert_notes_p1 rest st (nm ++ [(i, nid)]) (out ++ [EntityRef.obj nid])

/-- `notes_by_original_index[entity.data[k]]`: a required raw field read
followed by the note-map lookup (either step can raise `KeyError`). -/
def resolveIdx (nm : List (Nat × Nat)) (e : ExternalEntityData) (k : String) :
    Option Nat := do
  let v ← e.get k
  idxLookup nm v

/-- Pass 2 of `convert_notes`: build each active connector and propagate its
kind onto the head, tail and segment-head notes and its ease onto the head. -/
def convert_notes_p2 (nm : List (Nat × Nat)) :
    List (Nat × ExternalEntityData) → St → List (Nat × Nat) → List EntityRef →
    Option (List (Nat × Nat) × List EntityRef × St)
  | [], st, cm, out => some (cm, out, st)
  | (i, e) :: rest, st, cm, out => do
    let hid ← resolveIdx nm e "head"
    let tid ← resolveIdx nm e "tail"
    let sid ← resolveIdx nm e "start"
    let eid ← resolveIdx nm e "end"
    let (cid, st) := st.alloc (.conn
      { head_ref := hid, tail_ref := tid, segment_head_ref := sid,
        segment_tail_ref := eid, active_head_ref := some sid,
        active_tail_ref := some eid })
    let easev ← e.get "ease"
    let easeT ← ease_type_mapping easev
    let kind ← active_connector_kind_mapping e.archetype
    let st := st.modifyNote hid (fun n => { n with connector_ease := easeT })
    let st := st.modifyNote hid (fun n => { n with segment_kind := kind })
    let st := st.modifyNote tid (fun n => { n with segment_kind := kind })
    let st := st.modifyNote sid (fun n => { n with segment_kind := kind })
    convert_notes_p2 nm rest st (cm ++ [(i, cid)]) (out ++ [EntityRef.obj cid])

/-- Pass 3 of `convert_notes`: per-note reference resolution of
`timeScaleGroup` (lenient), `attach` and `slide` (strict when positive). -/
def convert_notes_p3 (ents : List ExternalEntityData) (tsm cm : List (Nat × Nat)) :
    List (Nat × Nat) → St → Option St
  | [], st => some st
  | (i, nid) :: rest, st => do
    let e ← ents[i]?
    let st := match idxLookup tsm (e.getD "timeScaleGroup" (-1)) with
      | some gid => st.modifyNote nid (fun n => { n with timescale_group := some gid })
      | none => st
    let st ← if e.getD "attach" (-1) > 0 then do
        let acid ← idxLookup cm (e.getD "attach" (-1))
        let c ← st.getConn acid
        pure (st.modifyNote nid (fun n =>
          { n with attach_head_ref := some c.head_ref,
                   attach_tail_ref := some c.tail_ref, is_attached := true }))
      else pure st
    let st ← if e.getD "slide" (-1) > 0 then do
        let scid ← idxLookup cm (e.getD "slide" (-1))
        let c ← st.getConn scid
        pure (st.modifyNote nid (fun n => { n with active_head_ref := some c.head_ref }))
      else pure st
    convert_notes_p3 ents tsm cm rest st

/-- The `SimLine` pass of `convert_notes`. -/
def convert_sim_lines (nm : List (Nat × Nat)) :
    List (Nat × ExternalEntityData) → List EntityRef → Option (List EntityRef)
  | [], out => some out
  | (_, e) :: rest, out => do
    let aid ← resolveIdx nm e "a"
    let bid ← resolveIdx nm e "b"
    convert_sim_lines nm rest (out ++ [EntityRef.simLine aid bid])

/-- `convert_notes`. -/
def convert_notes (ents : List ExternalEntityData) (tsm : List (Nat × Nat))
    (st : St) : Option (List EntityRef × St) := do
  let (nm, out1, st) ← convert_notes_p1 (noteEntities ents) st [] []
  let (cm, out2, st) ← convert_notes_p2 nm (connectorEntities ents) st [] []
  let st ← convert_notes_p3 ents tsm cm nm st
  let out3 ← convert_sim_lines nm (byArchetype ents "SimLine") []
  pure (out1 ++ out2 ++ out3, st)

/-- The four per-control-point argument bundles of one `get_anchor` call:
key `(beat, lane, size, timescale_group)` plus the optional attributes the
point contributes. -/
structure AnchorReq where
  beat : Rat
  lane : Rat
  size : Rat
  timescale_group : Nat
  segment_kind : Option Int
  segment_alpha : Option Rat
  connector_ease : Option Int
deriving DecidableEq

/-- The reuse condition of `get_anchor`: exact key match, and every supplied
attribute is either already equal on the anchor or still the sentinel. -/
def anchorMatches (n : Note) (r : AnchorReq) : Bool :=
  n.lane = r.lane && n.size = r.size && n.timescale_group = some r.timescale_group
  && (match r.segment_kind with
      | some k => n.segment_kind = k || n.segment_kind = -1
      | none => true)
  && (match r.segment_alpha with
      | some a => n.segment_alpha = a || n.segment_alpha = -1
      | none => true)
  && (match r.connector_ease with
      | some z => n.connector_ease = z || n.connector_ease = -1
      | none => true)

/-- Fill any still-unset attribute of a reused anchor from the new point. -/
def mergeInto (n : Note) (r : AnchorReq) : Note :=
  let n1 := match r.segment_kind with
    | some k => if n.segment_kind = -1 then { n with segment_kind := k } else n
    | none => n
  let n2 := match r.segment_alpha with
    | some a => if n1.segment_alpha = -1 then { n1 with segment_alpha := a } else n1
    | none => n1
  match r.connector_ease with
  | some z => if n2.connector_ease = -1 then { n2 with connector_ease := z } else n2
  | none => n2

/-- A freshly constructed `AnchorNote` carrying the point's attributes
(unsupplied attributes start at the sentinel `-1`). -/
def newAnchor (r : AnchorReq) : Note :=
  { cls := "AnchorNote", beat := r.beat, lane := r.lane, size := r.size,
    direction := FlickDirection.UP_OMNI,
    segment_kind := r.segment_kind.getD (-1),
    segment_alpha := r.segment_alpha.getD (-1),
    connector_ease := r.connector_ease.getD (-1),
    timescale_group := some r.timescale_group, attach_head_ref := none,
    attach_tail_ref := none, is_attached := false, active_head_ref := none,
    next_ref := none }

/-- `anchors_by_beat`: buckets of anchor ids keyed by exact beat. -/
abbrev Abb := List (Rat × List Nat)

def bucketGet (abb : Abb) (b : Rat) : List Nat :=
  ((abb.find? (fun p => p.1 = b)).map (fun p => p.2)).getD []

def bucketAdd (abb : Abb) (b : Rat) (id : Nat) : Abb :=
  if (abb.find? (fun p => p.1 = b)).isSome then
    abb.map (fun p => if p.1 = b then (p.1, p.2 ++ [id]) else p)
  else abb ++ [(b, [id])]

/-- The scan of `get_anchor`: first anchor in the bucket for this beat that
matches the key and is attribute-compatible. -/
def findAnchor (st : St) (ids : List Nat) (r : AnchorReq) : Option Nat :=
  ids.find? (fun id => match st.getNote id with
    | some n => anchorMatches n r
    | none => false)

/-- `get_anchor`: reuse and fill a compatible anchor at the key, else create
a new anchor entity, register it in the beat bucket and emit it. -/
def get_anchor (st : St) (abb : Abb) (out : List EntityRef) (r : AnchorReq) :
    Nat × St × Abb × List EntityRef :=
  match findAnchor st (bucketGet abb r.beat) r with
  | some id => (id, st.modifyNote id (fun n => mergeInto n r), abb, out)
  | none =>
    let (aid, st2) := st.alloc (.note (newAnchor r))
    (aid, st2, bucketAdd abb r.beat aid, out ++ [EntityRef.obj aid])

/-- One control point of a raw `Guide`: the four `pre*` fields are required
(direct indexing), with the timescale-group index resolved through the
group map (`KeyError` when absent). -/
def controlPoint (tsm : List (Nat × Nat)) (e : ExternalEntityData)
    (pre : String) : Option (Rat × Rat × Rat × Nat) := do
  let b ← e.get (pre ++ "Beat")
  let l ← e.get (pre ++ "Lane")
  let s ← e.get (pre ++ "Size")
  let tv ← e.get (pre ++ "TimeScaleGroup")
  let tg ← idxLookup tsm tv
  pure (b, l, s, tg)

/-- Field extraction for one raw `Guide`: the four control points in the
order `get_anchor` is called (start, end, head, tail); `ease`/`fade`/`color`
are defaulted then table-mapped. -/
def guideReqs (tsm : List (Nat × Nat)) (e : ExternalEntityData) :
    Option (AnchorReq × AnchorReq × AnchorReq × AnchorReq) := do
  let s ← controlPoint tsm e "start"
  let h ← controlPoint tsm e "head"
  let t ← controlPoint tsm e "tail"
  let en ← controlPoint tsm e "end"
  let eased ← ease_type_mapping (e.getD "ease" 0)
  let fa ← fade_alpha_mapping (e.getD "fade" 1)
  let kind ← guide_kind_mapping (e.getD "color" 0)
  pure
    (⟨s.1, s.2.1, s.2.2.1, s.2.2.2, some kind, some fa.1, none⟩,
     ⟨en.1, en.2.1, en.2.2.1, en.2.2.2, none, some fa.2, none⟩,
     ⟨h.1, h.2.1, h.2.2.1, h.2.2.2, none, none, some eased⟩,
     ⟨t.1, t.2.1, t.2.2.1, t.2.2.2, none, none, none⟩)

/-- Main loop of `convert_guides`: per guide, four `get_anchor` calls then
one guide `Connector` (no active head or tail). -/
def convert_guides_loop (tsm : List (Nat × Nat)) :
    List ExternalEntityData → St → Abb → List EntityRef →
    Option (St × Abb × List EntityRef)
  | [], st, abb, out => some (st, abb, out)
  | e :: rest, st, abb, out => do
    let (rs, re, rh, rt) ← guideReqs tsm e
    let (sidA, st, abb, out) := get_anchor st abb out rs
    let (eidA, st, abb, out) := get_anchor st abb out re
    let (hidA, st, abb, out) := get_anchor st abb out rh
    let (tidA, st, abb, out) := get_anchor st abb out rt
    let (cid, st) := st.alloc (.conn
      { head_ref := hidA, tail_ref := tidA, segment_head_ref := sidA,
        segment_tail_ref := eidA, active_head_ref := none,
        active_tail_ref := none })
    convert_guides_loop tsm rest st abb (out ++ [EntityRef.obj cid])

/-- The post-pass defaults for attributes still unset on an anchor. -/
def defaultAnchor (n : Note) : Note :=
  let n1 := if n.segment_kind = -1 then { n with segment_kind := ConnectorKind.GUIDE_NEUTRAL } else n
  let n2 := if n1.segment_alpha = -1 then { n1 with segment_alpha := 1 } else n1
  if n2.connector_ease = -1 then { n2 with connector_ease := EaseType.LINEAR } else n2

def apply_guide_defaults (st : St) (abb : Abb) : St :=
  abb.foldl (fun st p => p.2.foldl (fun st id => st.modifyNote id defaultAnchor) st) st

/-- `convert_guides`. -/
def convert_guides (ents : List ExternalEntityData) (tsm : List (Nat × Nat))
    (st : St) : Option (List EntityRef × St) := do
  let (st, abb, out) ← convert_guides_loop tsm
    ((byArchetype ents "Guide").map (fun p => p.2)) st [] []
  pure (out, apply_guide_defaults st abb)

/-- `getattr(e, "beat", -1)`: beat of an output entity for sorting;
entities without a beat attribute behave as `-1`. -/
def entityBeat (st : St) (e : EntityRef) : Rat :=
  match e with
  | .initOut => -1
  | .bpmChange beat _ => beat
  | .simLine _ _ => -1
  | .obj id =>
    match st.lookup id with
    | some (.note n) => n.beat
    | some (.tschange c) => c.beat
    | _ => -1

def isInit (e : EntityRef) : Bool :=
  match e with | .initOut => true | _ => false

/-- The sort comparator: lexicographic on
`(not isinstance(e, Initialization), beat)`. -/
def entLE (st : St) (a b : EntityRef) : Bool :=
  if (!isInit a) = (!isInit b) then decide (entityBeat st a ≤ entityBeat st b)
  else decide ((!isInit a) < (!isInit b))

/-- The comparator as a decidable relation, for the stable sort. -/
def entR (st : St) (a b : EntityRef) : Prop := entLE st a b = true

instance entRDecidable (st : St) : DecidableRel (entR st) :=
  fun a b => instDecidableEqBool (entLE st a b) true

/-- `link_slide_notes`: for every `Connector` in the list, set the head
note's `next_ref` to the tail note's ref. -/
def link_slide_notes (st : St) : List EntityRef → St
  | [] => st
  | e :: rest =>
    let st2 := match e with
      | .obj id =>
        match st.lookup id with
        | some (.conn c) => st.modifyNote c.head_ref (fun n => { n with next_ref := some c.tail_ref })
        | _ => st
      | _ => st
    link_slide_notes st2 rest

/-- The final converted level: pass-through offset, ordered entity list, and
the arena holding the constructed objects. -/
structure LevelData where
  bgm_offset : Rat
  entities : List EntityRef
  state : St
deriving DecidableEq

/-- The merged pre-sort entity list of the orchestrator:
`[Initialization, *bpm_changes, *timescale_entities, *notes, *guides]`. -/
def merged_entities (ents : List ExternalEntityData) :
    Option (List EntityRef × St) := do
  let bpm ← convert_bpm_changes ents
  let (tsm, tsEnts, st) ← convert_timescale_groups ents ⟨0, []⟩
  let (notes, st) ← convert_notes ents tsm st
  let (guides, st) ← convert_guides ents tsm st
  pure (EntityRef.initOut :: (bpm ++ tsEnts ++ notes ++ guides), st)

/-- `convert_pjsekai_extended_level_data`: merge, stable-sort by
`(not Initialization, beat)`, run the slide-linking pass. Python `sorted`
is a stable sort; any two stable sorts by the same key agree, so it is
modelled by the stable `List.insertionSort`. -/
def convert_pjsekai_extended_level_data (bgm_offset : Rat)
    (ents : List ExternalEntityData) : Option LevelData := do
  let (merged, st) ← merged_entities ents
  let sortedEnts := merged.insertionSort (entR st)
  let st := link_slide_notes st sortedEnts
  pure ⟨bgm_offset, sortedEnts, st⟩

/-! Observers used to state the verified properties. -/

/-- The `next_ref` assignment one linking step performs, at object level. -/
def setNoteNextObj (t : Nat) (o : Obj) : Obj :=
  match o with | .note n => .note { n with next_ref := some t } | o => o

/-- The `(head id, tail id)` write one linking step performs for an entity
(`none` when the entity is not a `Connector`). -/
def writeOf (st : St) (e : EntityRef) : Option (Nat × Nat) :=
  match e with
  | .obj id =>
    match st.lookup id with
    | some (.conn c) => some (c.head_ref, c.tail_ref)
    | _ => none
  | _ => none

/-- The `(head id, tail id)` write performed for each `Connector` of the
list, in list order. -/
def connWrites (st : St) (es : List EntityRef) : List (Nat × Nat) :=
  es.filterMap (writeOf st)

/-- Apply an optional linking write to the arena. -/
def applyWriteOpt (st : St) : Option (Nat × Nat) → St
  | some (h, t) => st.modify h (setNoteNextObj t)
  | none => st

/-- The value left at key `k` after performing all writes in order. -/
def lastWriteTo : List (Nat × Nat) → Nat → Option Nat
  | [], _ => none
  | w :: ws, k =>
    match lastWriteTo ws k with
    | some t => some t
    | none => if w.1 = k then some w.2 else none

/-- The cumulative effect of the linking writes on one object stored at
key `k`. -/
def applyWObj (ws : List (Nat × Nat)) (k : Nat) (o : Obj) : Obj :=
  match lastWriteTo ws k with
  | some t => setNoteNextObj t o
  | none => o

/-- The cumulative effect of the linking writes on one heap entry. -/
def applyWNE (ws : List (Nat × Nat)) (p : Nat × Obj) : Nat × Obj :=
  (p.1, applyWObj ws p.1 p.2)

/-- Follow `first_ref` then `next_ref` through the heap, recording visited
change ids; `none` when `fuel` runs out before the chain terminates. -/
def chainWalkF (st : St) : Nat → Option Nat → Option (List Nat)
  | _, none => some []
  | 0, some _ => none
  | fuel + 1, some id =>
    (chainWalkF st fuel (match st.lookup id with
      | some (.tschange c) => c.next_ref
      | _ => none)).map (fun l => id :: l)

/-- The shape the timescale builder leaves a chain in: each listed id holds
a change of group `gid` whose `next_ref` points at the following listed id,
the last at `none`. -/
def ChainLinked (st : St) (gid : Nat) : List Nat → Prop
  | [] => True
  | [c] => ∃ ch, st.lookup c = some (Obj.tschange ch)
      ∧ ch.timescale_group = gid ∧ ch.next_ref = none
  | c :: c2 :: rest => (∃ ch, st.lookup c = some (Obj.tschange ch)
      ∧ ch.timescale_group = gid ∧ ch.next_ref = some c2)
      ∧ ChainLinked st gid (c2 :: rest)

/-- An anchor dedup key `(beat, lane, size, timescale_group)`. -/
abbrev AnchorKey := Rat × Rat × Rat × Nat

def reqKey (r : AnchorReq) : AnchorKey := (r.beat, r.lane, r.size, r.timescale_group)

def noteKeyIs (n : Note) (K : AnchorKey) : Bool :=
  n.beat = K.1 && n.lane = K.2.1 && n.size = K.2.2.1 && n.timescale_group = some K.2.2.2

/-- The ids of note entities at key `K` among the emitted entities, in
emission order. -/
def anchorsAtKey (st : St) (es : List EntityRef) (K : AnchorKey) : List Nat :=
  es.filterMap (fun e => match e with
    | .obj id =>
      match st.getNote id with
      | some n => if noteKeyIs n K then some id else none
      | none => none
    | _ => none)

/-- Two control points contribute pairwise-compatible attributes when no
attribute is set by both to different values. -/
def Compatible (r1 r2 : AnchorReq) : Prop :=
  (∀ k1 k2, r1.segment_kind = some k1 → r2.segment_kind = some k2 → k1 = k2) ∧
  (∀ a1 a2, r1.segment_alpha = some a1 → r2.segment_alpha = some a2 → a1 = a2) ∧
  (∀ z1 z2, r1.connector_ease = some z1 → r2.connector_ease = some z2 → z1 = z2)

/-- The flat list of control-point requests of a guide list, in processing
order (start, end, head, tail per guide). -/
def guideReqList (tsm : List (Nat × Nat)) :
    List ExternalEntityData → Option (List AnchorReq)
  | [] => some []
  | e :: rest => do
    let (rs, re, rh, rt) ← guideReqs tsm e
    let l ← guideReqList tsm rest
    pure (rs :: re :: rh :: rt :: l)

/-- What one guide-pass write may do to a note: the dedup key fields are
fixed, and an attribute already set (not the sentinel `-1`) keeps its
value — only a sentinel is ever overwritten. -/
def AttrMono (n n2 : Note) : Prop :=
  n2.beat = n.beat ∧ n2.lane = n.lane ∧ n2.size = n.size
  ∧ n2.timescale_group = n.timescale_group
  ∧ (n.segment_kind ≠ -1 → n2.segment_kind = n.segment_kind)
  ∧ (n.segment_alpha ≠ -1 → n2.segment_alpha = n.segment_alpha)
  ∧ (n.connector_ease ≠ -1 → n2.connector_ease = n.connector_ease)

/-- Pointwise `AttrMono` between two arenas: every note survives, with key
fixed and set attributes kept. -/
def MonoSt (st st2 : St) : Prop :=
  ∀ j n, st.getNote j = some n → ∃ n2, st2.getNote j = some n2 ∧ AttrMono n n2

/-- The first set value in a list of contributed optional attributes
(default `d` when no point contributed one). -/
def firstContrib {α : Type} (d : α) (l : List (Option α)) : α :=
  (l.filterMap id).headD d

/-- The single-key invariant of the guide pass, for a fixed key `K` and the
list `P` of already-processed control points at `K`: emitted ids stay below
the counter, buckets index emitted notes of their beat, and the emitted
anchors at `K` are none (before any point at `K`) or exactly one, reachable
by the bucket scan, whose mergeable attributes hold the first contributed
values. -/
def GInv (K : AnchorKey) (P : List AnchorReq) (st : St) (abb : Abb)
    (out : List EntityRef) : Prop :=
  (∀ id, EntityRef.obj id ∈ out → id < st.nextId)
  ∧ (∀ b id, id ∈ bucketGet abb b →
      ∃ n, st.getNote id = some n ∧ n.beat = b ∧ EntityRef.obj id ∈ out)
  ∧ (P = [] → anchorsAtKey st out K = [])
  ∧ (P ≠ [] → ∃ aid n, anchorsAtKey st out K = [aid]
      ∧ aid ∈ bucketGet abb K.1
      ∧ st.getNote aid = some n ∧ noteKeyIs n K = true
      ∧ n.segment_kind = firstContrib (-1) (P.map (fun r => r.segment_kind))
      ∧ n.segment_alpha = firstContrib (-1) (P.map (fun r => r.segment_alpha))
      ∧ n.connector_ease
          = firstContrib (-1) (P.map (fun r => r.connector_ease)))

/-- The attributes a control point built by `guideReqs` can supply are
never the sentinel `-1` (the mapping tables contain no `-1`). -/
def ReqOk (r : AnchorReq) : Prop :=
  (∀ k, r.segment_kind = some k → k ≠ -1)
  ∧ (∀ a, r.segment_alpha = some a → a ≠ -1)
  ∧ (∀ z, r.connector_ease = some z → z ≠ -1)

/-- Processing a list of control-point requests through `get_anchor`,
dropping the returned ids (the anchor-side effect of one guide). -/
def processReqs : List AnchorReq → St → Abb → List EntityRef →
    St × Abb × List EntityRef
  | [], st, abb, out => (st, abb, out)
  | r :: rl, st, abb, out =>
    let (_, st, abb, out) := get_anchor st abb out r
    processReqs rl st abb out

/-! Concrete example charts used as witnesses and counterexamples. -/

/-- One BPM marker (spec scenario A). -/
def exA : List ExternalEntityData :=
  [⟨"#BPM_CHANGE", [("#BEAT", 0), ("#BPM", 120)]⟩]

/-- Two slide notes joined by one active connector (spec scenario B). -/
def exB : List ExternalEntityData :=
  [⟨"NormalSlideStartNote", [("#BEAT", 0), ("lane", 0)]⟩,
   ⟨"NormalSlideEndNote", [("#BEAT", 4), ("lane", 0)]⟩,
   ⟨"NormalSlideConnector", [("head", 0), ("tail", 1), ("start", 0), ("end", 1), ("ease", 0)]⟩]

/-- A guide whose start and head control points coincide at
`(beat 0, lane 0, size 1, group 0)` and whose tail and end coincide at
`(beat 1, lane 0, size 1, group 0)`. -/
def guideData : List (String × Rat) :=
  [("startBeat", 0), ("startLane", 0), ("startSize", 1), ("startTimeScaleGroup", 0),
   ("headBeat", 0), ("headLane", 0), ("headSize", 1), ("headTimeScaleGroup", 0),
   ("tailBeat", 1), ("tailLane", 0), ("tailSize", 1), ("tailTimeScaleGroup", 0),
   ("endBeat", 1), ("endLane", 0), ("endSize", 1), ("endTimeScaleGroup", 0)]

/-- One timescale group with a single change record, plus one guide. -/
def ex2 : List ExternalEntityData :=
  [⟨"TimeScaleGroup", [("first", 1)]⟩,
   ⟨"RawTimescalePoint", [("#BEAT", 0), ("timeScale", 1)]⟩,
   ⟨"Guide", guideData⟩]

/-- As `ex2` plus a second guide with the same control points but a
conflicting color (guide kind red against the first guide's neutral). -/
def ex3 : List ExternalEntityData :=
  ex2 ++ [⟨"Guide", guideData ++ [("color", 1)]⟩]

/-- Three notes and two active connectors sharing the same head note. -/
def ex4 : List ExternalEntityData :=
  [⟨"NormalSlideStartNote", [("#BEAT", 0)]⟩,
   ⟨"NormalSlideEndNote", [("#BEAT", 1)]⟩,
   ⟨"NormalSlideEndNote", [("#BEAT", 2)]⟩,
   ⟨"NormalSlideConnector", [("head", 0), ("tail", 1), ("start", 0), ("end", 1), ("ease", 0)]⟩,
   ⟨"NormalSlideConnector", [("head", 0), ("tail", 2), ("start", 0), ("end", 2), ("ease", 0)]⟩]

/-- As `ex2` but the guide omits its `startTimeScaleGroup` field. -/
def ex6 : List ExternalEntityData :=
  [⟨"TimeScaleGroup", [("first", 1)]⟩,
   ⟨"RawTimescalePoint", [("#BEAT", 0), ("timeScale", 1)]⟩,
   ⟨"Guide", guideData.filter (fun p => p.1 != "startTimeScaleGroup")⟩]

/-- The arena entering the guide pass of the `ex2`/`ex3` pipelines: the
timescale group and its single change. -/
def exPreSt : St :=
  ⟨2, [(0, Obj.group (some 1)), (1, Obj.tschange ⟨0, 1, 0, 0, 0, none⟩)]⟩

/-- The second guide of `ex3` (same control points, conflicting color). -/
def exG2 : ExternalEntityData := ⟨"Guide", guideData ++ [("color", 1)]⟩

/-- The guide-pass output for `ex3`: two anchors 2 and 5 share the key
`(beat 0, lane 0, size 1, group 0)` because their colors conflict. -/
def ex3GOut : List EntityRef :=
  [.obj 2, .obj 3, .obj 4, .obj 5, .obj 6]

def ex3GSt : St :=
  ⟨7, [(0, .group (some 1)), (1, .tschange ⟨0, 1, 0, 0, 0, none⟩),
       (2, .note ⟨"AnchorNote", 0, 0, 1, 1, 2, 1, 2, some 0, none, none, false, none, none⟩),
       (3, .note ⟨"AnchorNote", 1, 0, 1, 1, 2, 1, 2, some 0, none, none, false, none, none⟩),
       (4, .conn ⟨2, 3, 2, 3, none, none⟩),
       (5, .note ⟨"AnchorNote", 0, 0, 1, 1, 3, 1, 2, some 0, none, none, false, none, none⟩),
       (6, .conn ⟨2, 3, 5, 3, none, none⟩)]⟩

/-- The guide-loop state of the `ex3` run after its first guide (before
defaults): anchor 3 still has sentinel kind and ease. -/
def exMidSt : St :=
  ⟨5, [(0, .group (some 1)), (1, .tschange ⟨0, 1, 0, 0, 0, none⟩),
       (2, .note ⟨"AnchorNote", 0, 0, 1, 1, 2, 1, 2, some 0, none, none, false, none, none⟩),
       (3, .note ⟨"AnchorNote", 1, 0, 1, 1, -1, 1, -1, some 0, none, none, false, none, none⟩),
       (4, .conn ⟨2, 3, 2, 3, none, none⟩)]⟩

def exMidAbb : Abb := [(0, [2]), (1, [3])]

def exMidOut : List EntityRef := [.obj 2, .obj 3, .obj 4]

/-- The guide-loop result of running the remaining guide of `ex3` from the
mid-run state: the conflicting start point created the fresh anchor 5. -/
def exMidRes : St × Abb × List EntityRef :=
  (⟨7, [(0, .group (some 1)), (1, .tschange ⟨0, 1, 0, 0, 0, none⟩),
        (2, .note ⟨"AnchorNote", 0, 0, 1, 1, 2, 1, 2, some 0, none, none, false, none, none⟩),
        (3, .note ⟨"AnchorNote", 1, 0, 1, 1, -1, 1, -1, some 0, none, none, false, none, none⟩),
        (4, .conn ⟨2, 3, 2, 3, none, none⟩),
        (5, .note ⟨"AnchorNote", 0, 0, 1, 1, 3, 1, -1, some 0, none, none, false, none, none⟩),
        (6, .conn ⟨2, 3, 5, 3, none, none⟩)]⟩,
   [(0, [2, 5]), (1, [3])],
   [.obj 2, .obj 3, .obj 4, .obj 5, .obj 6])

/-- The flat control-point request list of `ex2`'s single guide
(start, end, head, tail). -/
def exReqs : List AnchorReq :=
  [⟨0, 0, 1, 0, some 2, some 1, none⟩, ⟨1, 0, 1, 0, none, some 1, none⟩,
   ⟨0, 0, 1, 0, none, none, some 2⟩, ⟨1, 0, 1, 0, none, none, none⟩]

/-- The merged (pre-link) arena of `ex2`: group 0, change 1, the two merged
anchors 2 and 3, and the guide connector 4. -/
def ex2Anchor : Note :=
  ⟨"AnchorNote", 0, 0, 1, 1, 2, 1, 2, some 0, none, none, false, none, none⟩

def ex2AnchorTail : Note :=
  ⟨"AnchorNote", 1, 0, 1, 1, 2, 1, 2, some 0, none, none, false, none, none⟩

def ex2Conn : Connector := ⟨2, 3, 2, 3, none, none⟩

def ex2St : St :=
  ⟨5, [(0, .group (some 1)), (1, .tschange ⟨0, 1, 0, 0, 0, none⟩),
       (2, .note ex2Anchor), (3, .note ex2AnchorTail), (4, .conn ex2Conn)]⟩

def ex2Merged : List EntityRef :=
  [.initOut, .obj 0, .obj 1, .obj 2, .obj 3, .obj 4]

def ex2Sorted : List EntityRef :=
  [.initOut, .obj 0, .obj 4, .obj 1, .obj 2, .obj 3]

/-- The merged (pre-link) arena of `exB`: head note 0, tail note 1, active
connector 2. -/
def exBHead : Note :=
  ⟨"NormalHeadTapNote", 0, 0, 0, 1, 0, -1, 2, none, none, none, false, none, none⟩

def exBTail : Note :=
  ⟨"NormalTailReleaseNote", 4, 0, 0, 1, 0, -1, -1, none, none, none, false, none, none⟩

def exBConn : Connector := ⟨0, 1, 0, 1, some 0, some 1⟩

def exBSt : St :=
  ⟨3, [(0, .note exBHead), (1, .note exBTail), (2, .conn exBConn)]⟩

def exBMerged : List EntityRef := [.initOut, .obj 0, .obj 1, .obj 2]

def exBSorted : List EntityRef := [.initOut, .obj 2, .obj 0, .obj 1]

/-- The full conversion result for `exA`. -/
def exALD : LevelData :=
  ⟨0, [EntityRef.initOut, EntityRef.bpmChange 0 120], ⟨0, []⟩⟩

/-- The arena entering pass 2 for `exB` (spec scenario B): the two slide
notes as pass 1 builds them, `connector_ease` still the sentinel. -/
def exBPreHead : Note :=
  ⟨"NormalHeadTapNote", 0, 0, 0, 1, 0, -1, -1, none, none, none, false, none, none⟩

def exBPreSt : St :=
  ⟨2, [(0, .note exBPreHead), (1, .note exBTail)]⟩

/-- Scenario B's raw active connector: its head coincides with its segment
head (`head:0, start:0`). -/
def exBConnRaw : ExternalEntityData :=
  ⟨"NormalSlideConnector",
   [("head", 0), ("tail", 1), ("start", 0), ("end", 1), ("ease", 0)]⟩

/-- Heap ids are always below the allocation counter. -/
def StWF (s : St) : Prop := ∀ p ∈ s.heap, p.1 < s.nextId

/-- One timescale group whose chain has two records: the first record's
`next` points at the second, which terminates the chain. -/
def exT : List ExternalEntityData :=
  [⟨"TimeScaleGroup", [("first", 1)]⟩,
   ⟨"RawTimescalePoint", [("#BEAT", 0), ("timeScale", 1), ("next", 2)]⟩,
   ⟨"RawTimescalePoint", [("#BEAT", 4), ("timeScale", 2)]⟩]

/-- The arena the timescale builder produces for `exT`: group 0 pointing at
change 1, which points at change 2. -/
def exTSt : St :=
  ⟨3, [(0, .group (some 1)), (1, .tschange ⟨0, 1, 0, 0, 0, some 2⟩),
       (2, .tschange ⟨4, 2, 0, 0, 0, none⟩)]⟩

/-- The invariant the timescale-group loop maintains on its arena and
output list: every group object present has a nonempty, duplicate-free,
linked chain covering exactly the changes of its group, and the group and
all its changes have been emitted; every change belongs to some group. -/
def TsInv (st : St) (out : List EntityRef) : Prop :=
  StWF st
  ∧ (∀ gid fr, st.lookup gid = some (Obj.group fr) →
      ∃ L : List Nat, L ≠ [] ∧ fr = L.head? ∧ L.Nodup
        ∧ ChainLinked st gid L
        ∧ (∀ j ch, st.lookup j = some (Obj.tschange ch) →
            ch.timescale_group = gid → j ∈ L)
        ∧ EntityRef.obj gid ∈ out ∧ ∀ j ∈ L, EntityRef.obj j ∈ out)
  ∧ (∀ j ch, st.lookup j = some (Obj.tschange ch) →
      ∃ fr, st.lookup ch.timescale_group = some (Obj.group fr))

/-! Basic arena lemmas. -/

theorem find?_map_of_keyfix (f : Nat × Obj → Nat × Obj)
    (hf : ∀ x, (f x).1 = x.1) (j : Nat) :
    ∀ l : List (Nat × Obj),
      (l.map f).find? (fun p => p.1 = j) = (l.find? (fun p => p.1 = j)).map f
  | [] => rfl
  | x :: l => by
    by_cases h : x.1 = j
    · rw [List.map_cons, List.find?_cons_of_pos, List.find?_cons_of_pos] <;>
        simp [hf, h]
    · rw [List.map_cons, List.find?_cons_of_neg, List.find?_cons_of_neg,
        find?_map_of_keyfix f hf j l] <;> simp [hf, h]

theorem St.lookup_modify (s : St) (id : Nat) (f : Obj → Obj) (j : Nat) :
    (s.modify id f).lookup j
      = if j = id then (s.lookup j).map f else s.lookup j := by
  unfold St.lookup St.modify
  rw [find?_map_of_keyfix _ (fun x => by by_cases hx : x.1 = id <;> simp [hx]) j]
  rcases hfind : s.heap.find? (fun p => p.1 = j) with _ | p
  · rw [hfind]
    by_cases h : j = id <;> simp [h]
  · rw [hfind]
    have hp : p.1 = j := by simpa using List.find?_some hfind
    by_cases h : j = id
    · have hpid : p.1 = id := by omega
      simp [hpid, h]
    · have hpid : ¬p.1 = id := by omega
      simp [hpid, h]

theorem St.lookup_alloc (s : St) (o : Obj) (j : Nat) (hwf : StWF s) :
    (s.alloc o).2.lookup j
      = if j = s.nextId then some o else s.lookup j := by
  unfold St.lookup St.alloc
  rw [List.find?_append]
  by_cases h : j = s.nextId
  · have hnone : s.heap.find? (fun p : Nat × Obj => p.1 = j) = none := by
      apply List.find?_eq_none.mpr
      intro p hp
      have := hwf p hp
      simp only [decide_eq_true_eq]
      omega
    rw [hnone]
    simp [List.find?, h]
  · rcases hfind : s.heap.find? (fun p : Nat × Obj => p.1 = j) with _ | p
    · have hne : ¬s.nextId = j := by omega
      simp [List.find?, hne, h]
    · simp [h]

theorem StWF.modify {s : St} (h : StWF s) (id : Nat) (f : Obj → Obj) :
    StWF (s.modify id f) := by
  intro p hp
  simp only [St.modify, List.mem_map] at hp
  obtain ⟨q, hq, hpq⟩ := hp
  have h1 := h q hq
  simp only [St.modify]
  by_cases hqi : q.1 = id
  · simp only [hqi, if_pos] at hpq
    subst hpq
    show id < s.nextId
    omega
  · rw [if_neg hqi] at hpq
    subst hpq
    exact h1

theorem StWF.alloc {s : St} (h : StWF s) (o : Obj) : StWF (s.alloc o).2 := by
  intro p hp
  simp only [St.alloc, List.mem_append, List.mem_singleton] at hp
  simp only [St.alloc]
  rcases hp with hp | hp
  · have := h p hp
    omega
  · subst hp
    simp

theorem filterMap_congr_fn {α β : Type} (f g : α → Option β) :
    ∀ l : List α, (∀ a ∈ l, f a = g a) → l.filterMap f = l.filterMap g
  | [], _ => rfl
  | a :: l, h => by
    have ha := h a (by simp)
    have hrec := filterMap_congr_fn f g l (fun x hx => h x (by simp [hx]))
    rcases hg : g a with _ | b
    · rw [List.filterMap_cons_none (by rw [ha, hg]),
        List.filterMap_cons_none hg, hrec]
    · rw [List.filterMap_cons_some (by rw [ha, hg]),
        List.filterMap_cons_some hg, hrec]

/-! Characterization of the slide-linking pass. -/

theorem setNoteNextObj_idem (t t2 : Nat) (o : Obj) :
    setNoteNextObj t (setNoteNextObj t2 o) = setNoteNextObj t o := by
  cases o <;> rfl

theorem applyWNE_key (ws : List (Nat × Nat)) (p : Nat × Obj) :
    (applyWNE ws p).1 = p.1 := rfl

theorem lastWriteTo_cons (w : Nat × Nat) (ws : List (Nat × Nat)) (k : Nat) :
    lastWriteTo (w :: ws) k
      = match lastWriteTo ws k with
        | some t => some t
        | none => if w.1 = k then some w.2 else none := rfl

theorem modifyNote_next_eq_modify_set (s : St) (id t : Nat) :
    s.modifyNote id (fun n => { n with next_ref := some t })
      = s.modify id (setNoteNextObj t) := by
  unfold St.modifyNote
  congr 1

theorem writeOf_modify_set (s : St) (id t : Nat) (e : EntityRef) :
    writeOf (s.modify id (setNoteNextObj t)) e = writeOf s e := by
  rcases e with _ | ⟨b, p⟩ | i | ⟨l, r⟩ <;> try rfl
  show (match (s.modify id (setNoteNextObj t)).lookup i with
      | some (Obj.conn c) => some (c.head_ref, c.tail_ref)
      | _ => none)
    = (match s.lookup i with
      | some (Obj.conn c) => some (c.head_ref, c.tail_ref)
      | _ => none)
  rw [St.lookup_modify]
  by_cases h : i = id
  · rw [if_pos h]
    rcases s.lookup i with _ | o
    · rfl
    · cases o <;> rfl
  · rw [if_neg h]

theorem connWrites_modify_set (s : St) (id t : Nat) (es : List EntityRef) :
    connWrites (s.modify id (setNoteNextObj t)) es = connWrites s es := by
  unfold connWrites
  exact filterMap_congr_fn _ _ es (fun e _ => writeOf_modify_set s id t e)

theorem applyWObj_cons (h t0 : Nat) (ws : List (Nat × Nat)) (k : Nat) (o : Obj) :
    applyWObj ((h, t0) :: ws) k o
      = applyWObj ws k (if k = h then setNoteNextObj t0 o else o) := by
  unfold applyWObj
  rw [lastWriteTo_cons]
  rcases hl : lastWriteTo ws k with _ | t
  · by_cases hk : k = h
    · simp [hl, hk]
    · have hk2 : ¬h = k := fun hh => hk hh.symm
      simp [hl, hk, hk2]
  · by_cases hk : k = h <;> simp [hl, hk, setNoteNextObj_idem]

theorem applyWNE_cons (h t0 : Nat) (ws : List (Nat × Nat)) (p : Nat × Obj) :
    applyWNE ((h, t0) :: ws) p
      = applyWNE ws (if p.1 = h then (p.1, setNoteNextObj t0 p.2) else p) := by
  by_cases hp : p.1 = h
  · rw [if_pos hp]
    show (p.1, applyWObj ((h, t0) :: ws) p.1 p.2)
      = (p.1, applyWObj ws p.1 (setNoteNextObj t0 p.2))
    rw [applyWObj_cons, if_pos hp]
  · rw [if_neg hp]
    show (p.1, applyWObj ((h, t0) :: ws) p.1 p.2) = (p.1, applyWObj ws p.1 p.2)
    rw [applyWObj_cons, if_neg hp]

theorem applyWObj_idem (ws : List (Nat × Nat)) (k : Nat) (o : Obj) :
    applyWObj ws k (applyWObj ws k o) = applyWObj ws k o := by
  unfold applyWObj
  rcases hl : lastWriteTo ws k with _ | t <;> simp [hl, setNoteNextObj_idem]

theorem applyWNE_idem (ws : List (Nat × Nat)) (p : Nat × Obj) :
    applyWNE ws (applyWNE ws p) = applyWNE ws p := by
  show (p.1, applyWObj ws p.1 (applyWObj ws p.1 p.2)) = (p.1, applyWObj ws p.1 p.2)
  rw [applyWObj_idem]

theorem link_slide_notes_step (st : St) (e : EntityRef) (rest : List EntityRef) :
    link_slide_notes st (e :: rest)
      = link_slide_notes (applyWriteOpt st (writeOf st e)) rest := by
  show (let st2 := match e with
      | .obj id =>
        match st.lookup id with
        | some (.conn c) => st.modifyNote c.head_ref (fun n => { n with next_ref := some c.tail_ref })
        | _ => st
      | _ => st
    link_slide_notes st2 rest) = _
  rcases e with _ | ⟨b, p⟩ | i | ⟨l, r⟩ <;> try rfl
  rcases hl : st.lookup i with _ | o
  · show link_slide_notes (match st.lookup i with
      | some (.conn c) => st.modifyNote c.head_ref (fun n => { n with next_ref := some c.tail_ref })
      | _ => st) rest = link_slide_notes (applyWriteOpt st (match st.lookup i with
      | some (.conn c) => some (c.head_ref, c.tail_ref)
      | _ => none)) rest
    rw [hl]
    rfl
  · show link_slide_notes (match st.lookup i with
      | some (.conn c) => st.modifyNote c.head_ref (fun n => { n with next_ref := some c.tail_ref })
      | _ => st) rest = link_slide_notes (applyWriteOpt st (match st.lookup i with
      | some (.conn c) => some (c.head_ref, c.tail_ref)
      | _ => none)) rest
    rw [hl]
    cases o with
    | conn c =>
      show link_slide_notes (st.modifyNote c.head_ref
        (fun n => { n with next_ref := some c.tail_ref })) rest = _
      rw [modifyNote_next_eq_modify_set]
      rfl
    | note n => rfl
    | group fr => rfl
    | tschange c => rfl

theorem link_slide_notes_heap : ∀ (es : List EntityRef) (st : St),
    (link_slide_notes st es).nextId = st.nextId ∧
    (link_slide_notes st es).heap = st.heap.map (applyWNE (connWrites st es))
  | [], st => by
    refine ⟨rfl, ?_⟩
    show st.heap = st.heap.map (applyWNE [])
    rw [List.map_id'' (fun p => by simp [applyWNE, applyWObj, lastWriteTo])]
  | e :: rest, st => by
    rw [link_slide_notes_step]
    rcases hw : writeOf st e with _ | ⟨h, t⟩
    · have hcw : connWrites st (e :: rest) = connWrites st rest := by
        unfold connWrites
        rw [List.filterMap_cons_none hw]
      rw [show applyWriteOpt st none = st from rfl, hcw]
      exact link_slide_notes_heap rest st
    · have hcw : connWrites st (e :: rest) = (h, t) :: connWrites st rest := by
        unfold connWrites
        rw [List.filterMap_cons_some hw]
      obtain ⟨ih1, ih2⟩ := link_slide_notes_heap rest (st.modify h (setNoteNextObj t))
      rw [show applyWriteOpt st (some (h, t)) = st.modify h (setNoteNextObj t) from rfl]
      refine ⟨by rw [ih1]; rfl, ?_⟩
      rw [ih2, connWrites_modify_set, hcw]
      rw [show (st.modify h (setNoteNextObj t)).heap
          = st.heap.map (fun p => if p.1 = h then (p.1, setNoteNextObj t p.2) else p) from rfl]
      rw [List.map_map]
      apply List.map_congr_left
      intro p _
      show applyWNE (connWrites st rest) (if p.1 = h then (p.1, setNoteNextObj t p.2) else p)
        = applyWNE ((h, t) :: connWrites st rest) p
      rw [applyWNE_cons]

theorem St.eq_of_parts {a b : St} (h1 : a.nextId = b.nextId)
    (h2 : a.heap = b.heap) : a = b := by
  cases a
  cases b
  cases h1
  cases h2
  rfl

theorem link_slide_notes_lookup (es : List EntityRef) (st : St) (j : Nat) :
    (link_slide_notes st es).lookup j
      = (st.lookup j).map (applyWObj (connWrites st es) j) := by
  unfold St.lookup
  rw [(link_slide_notes_heap es st).2,
    find?_map_of_keyfix _ (fun p => applyWNE_key _ p) j]
  rcases hfind : st.heap.find? (fun p => p.1 = j) with _ | p
  · rw [hfind]
    rfl
  · rw [hfind]
    have hp : p.1 = j := by simpa using List.find?_some hfind
    show some (applyWNE (connWrites st es) p).2
      = some (applyWObj (connWrites st es) j p.2)
    rw [show (applyWNE (connWrites st es) p).2
      = applyWObj (connWrites st es) p.1 p.2 from rfl, hp]

theorem writeOf_obj (st : St) (i : Nat) :
    writeOf st (EntityRef.obj i)
      = match st.lookup i with
        | some (Obj.conn c) => some (c.head_ref, c.tail_ref)
        | _ => none := rfl

theorem applyWObj_conn (ws : List (Nat × Nat)) (k : Nat) (c : Connector) :
    applyWObj ws k (.conn c) = .conn c := by
  unfold applyWObj
  rcases lastWriteTo ws k <;> rfl

theorem writeOf_link (st : St) (es : List EntityRef) (e : EntityRef) :
    writeOf (link_slide_notes st es) e = writeOf st e := by
  rcases e with _ | ⟨b, p⟩ | i | ⟨l, r⟩ <;> try rfl
  show (match (link_slide_notes st es).lookup i with
      | some (Obj.conn c) => some (c.head_ref, c.tail_ref)
      | _ => none)
    = (match st.lookup i with
      | some (Obj.conn c) => some (c.head_ref, c.tail_ref)
      | _ => none)
  rw [link_slide_notes_lookup]
  rcases hl : st.lookup i with _ | o
  · rfl
  · cases o with
    | conn c =>
      show (match some (applyWObj (connWrites st es) i (.conn c)) with
        | some (Obj.conn c) => some (c.head_ref, c.tail_ref)
        | _ => none) = _
      rw [applyWObj_conn]
    | note n =>
      show (match some (applyWObj (connWrites st es) i (.note n)) with
        | some (Obj.conn c) => some (c.head_ref, c.tail_ref)
        | _ => none) = _
      unfold applyWObj
      rcases lastWriteTo (connWrites st es) i <;> rfl
    | group fr =>
      show (match some (applyWObj (connWrites st es) i (.group fr)) with
        | some (Obj.conn c) => some (c.head_ref, c.tail_ref)
        | _ => none) = _
      unfold applyWObj
      rcases lastWriteTo (connWrites st es) i <;> rfl
    | tschange c =>
      show (match some (applyWObj (connWrites st es) i (.tschange c)) with
        | some (Obj.conn c) => some (c.head_ref, c.tail_ref)
        | _ => none) = _
      unfold applyWObj
      rcases lastWriteTo (connWrites st es) i <;> rfl

theorem connWrites_link (st : St) (es es2 : List EntityRef) :
    connWrites (link_slide_notes st es) es2 = connWrites st es2 :=
  filterMap_congr_fn _ _ es2 (fun e _ => writeOf_link st es e)

theorem lastWriteTo_is_some_of_mem (ws : List (Nat × Nat)) (k t0 : Nat)
    (h : (k, t0) ∈ ws) : ∃ t, lastWriteTo ws k = some t := by
  induction ws with
  | nil => cases h
  | cons w2 ws ih =>
    rw [lastWriteTo_cons]
    rcases hl : lastWriteTo ws k with _ | t
    · rcases List.mem_cons.mp h with h1 | h1
      · exact ⟨w2.2, by rw [← h1]; simp⟩
      · obtain ⟨t, ht⟩ := ih h1
        rw [ht] at hl
        cases hl
    · exact ⟨t, rfl⟩

theorem lastWriteTo_mem (ws : List (Nat × Nat)) (k t : Nat)
    (h : lastWriteTo ws k = some t) : (k, t) ∈ ws := by
  induction ws with
  | nil => cases h
  | cons w ws ih =>
    rw [lastWriteTo_cons] at h
    rcases hl : lastWriteTo ws k with _ | t2
    · rw [hl] at h
      by_cases hw : w.1 = k
      · rw [if_pos hw] at h
        cases h
        have : w = (k, w.2) := by
          rw [← hw]
        rw [← hw]
        exact List.mem_cons_self w ws
      · rw [if_neg hw] at h
        cases h
    · rw [hl] at h
      cases h
      exact List.mem_cons_of_mem _ (ih hl)

theorem connWrites_mem (st : St) (es : List EntityRef) (w : Nat × Nat)
    (h : w ∈ connWrites st es) :
    ∃ id c, EntityRef.obj id ∈ es ∧ st.lookup id = some (.conn c)
      ∧ c.head_ref = w.1 ∧ c.tail_ref = w.2 := by
  unfold connWrites at h
  obtain ⟨e, he, hw⟩ := List.mem_filterMap.mp h
  rcases e with _ | ⟨b, p⟩ | i | ⟨l, r⟩
  · cases hw
  · cases hw
  · rw [writeOf_obj] at hw
    rcases hl : st.lookup i with _ | o
    · rw [hl] at hw
      cases hw
    · rw [hl] at hw
      cases o with
      | conn c =>
        refine ⟨i, c, he, hl, ?_, ?_⟩ <;> cases hw <;> rfl
      | note n => cases hw
      | group fr => cases hw
      | tschange c => cases hw
  · cases hw

theorem mem_connWrites (st : St) (es : List EntityRef) (id : Nat) (c : Connector)
    (hmem : EntityRef.obj id ∈ es) (hc : st.lookup id = some (.conn c)) :
    (c.head_ref, c.tail_ref) ∈ connWrites st es := by
  unfold connWrites
  refine List.mem_filterMap.mpr ⟨.obj id, hmem, ?_⟩
  rw [writeOf_obj, hc]

theorem link_getNote (st : St) (es : List EntityRef) (j : Nat) (n : Note)
    (h : st.getNote j = some n) :
    (link_slide_notes st es).getNote j
      = some (match lastWriteTo (connWrites st es) j with
              | some t => { n with next_ref := some t }
              | none => n) := by
  unfold St.getNote at h ⊢
  rcases hl : st.lookup j with _ | o
  · rw [hl] at h
    cases h
  · rw [hl] at h
    cases o with
    | note n2 =>
      have hn : n2 = n := by
        cases h
        rfl
      subst hn
      rw [link_slide_notes_lookup, hl]
      unfold applyWObj
      rcases lastWriteTo (connWrites st es) j <;> rfl
    | conn c => cases h
    | group fr => cases h
    | tschange c => cases h

/-- Claim C9: running the final slide-linking pass twice over the same
entity list produces exactly the same state — hence the same `next_ref`
assignments — as running it once: the pass is idempotent. -/
theorem link_slide_notes_idempotent (st : St) (es : List EntityRef) :
    link_slide_notes (link_slide_notes st es) es = link_slide_notes st es := by
  apply St.eq_of_parts
  · rw [(link_slide_notes_heap es (link_slide_notes st es)).1,
      (link_slide_notes_heap es st).1]
  · rw [(link_slide_notes_heap es (link_slide_notes st es)).2, connWrites_link,
      (link_slide_notes_heap es st).2, List.map_map]
    apply List.map_congr_left
    intro p _
    exact applyWNE_idem _ p

/-- Claim C2 (amended): the guide connector IS subject to the slide-linking
pass, which treats all `Connector` entities uniformly: for every connector
in the entity list — the guide connectors included — the pass assigns the
head note's `next_ref` (to the tail of the last connector in list order
sharing that head). -/
theorem guide_connectors_subject_to_linking (st : St) (es : List EntityRef)
    (id : Nat) (c : Connector) (n : Note)
    (hmem : EntityRef.obj id ∈ es) (hc : st.lookup id = some (.conn c))
    (hn : st.getNote c.head_ref = some n) :
    ∃ t, lastWriteTo (connWrites st es) c.head_ref = some t ∧
      (link_slide_notes st es).getNote c.head_ref
        = some { n with next_ref := some t } := by
  have hw := mem_connWrites st es id c hmem hc
  obtain ⟨t, ht⟩ := lastWriteTo_is_some_of_mem _ _ _ hw
  refine ⟨t, ht, ?_⟩
  rw [link_getNote st es _ n hn, ht]

/-- Witness for the amended claim C2, on the concrete chart `ex2`: the
pipeline produces arena `ex2St` and sorted list `ex2Sorted`; the guide
connector (id 4, head anchor 2, tail anchor 3) is in the list, and the
linking pass sets anchor 2's `next_ref`. -/
theorem guide_connectors_subject_to_linking_witness :
    merged_entities ex2 = some (ex2Merged, ex2St)
      ∧ ex2Merged.insertionSort (entR ex2St) = ex2Sorted
      ∧ EntityRef.obj 4 ∈ ex2Sorted
      ∧ ex2St.lookup 4 = some (.conn ex2Conn)
      ∧ ex2St.getNote ex2Conn.head_ref = some ex2Anchor
      ∧ ∃ t, lastWriteTo (connWrites ex2St ex2Sorted) ex2Conn.head_ref = some t
          ∧ (link_slide_notes ex2St ex2Sorted).getNote ex2Conn.head_ref
            = some { ex2Anchor with next_ref := some t } :=
  ⟨by rfl, by rfl, by decide, by rfl, by rfl,
   guide_connectors_subject_to_linking ex2St ex2Sorted 4 ex2Conn ex2Anchor
     (by decide) (by rfl) (by rfl)⟩

/-- Counterexample to claim C2 as stated: converting `ex2`, the guide emits
connector 4 with head anchor 2 and tail anchor 3; anchor 2's `next_ref` is
unset before the linking pass and resolves to anchor 3 after the full
conversion — the linking pass did modify a guide anchor's `next_ref` on
account of a guide connector. -/
theorem guide_connector_not_linked_cex :
    ((merged_entities ex2).bind (fun p => p.2.getNote 2)).map Note.next_ref
        = some none
      ∧ ((convert_pjsekai_extended_level_data 0 ex2).bind
          (fun ld => ld.state.getConn 4)).map
            (fun c => (c.head_ref, c.tail_ref)) = some (2, 3)
      ∧ ((convert_pjsekai_extended_level_data 0 ex2).bind
          (fun ld => ld.state.getNote 2)).map Note.next_ref = some (some 3) :=
  ⟨by rfl, by rfl, by rfl⟩

/-- Claim C4 (amended): the linking pass applies uniformly to every
`Connector` in the final list and unconditionally overwrites `next_ref`,
with the last connector in list order winning per head note; consequently,
whenever all connectors sharing a connector's head agree on the tail, that
head note's `next_ref` resolves to the connector's tail note. -/
theorem linking_pass_uniform_last_wins (st : St) (es : List EntityRef)
    (id : Nat) (c : Connector) (n : Note)
    (hmem : EntityRef.obj id ∈ es) (hc : st.lookup id = some (.conn c))
    (hn : st.getNote c.head_ref = some n)
    (huniq : ∀ id2 c2, EntityRef.obj id2 ∈ es → st.lookup id2 = some (.conn c2) →
      c2.head_ref = c.head_ref → c2.tail_ref = c.tail_ref) :
    (link_slide_notes st es).getNote c.head_ref
      = some { n with next_ref := some c.tail_ref } := by
  have hw := mem_connWrites st es id c hmem hc
  obtain ⟨t, ht⟩ := lastWriteTo_is_some_of_mem _ _ _ hw
  have htm := lastWriteTo_mem _ _ _ ht
  obtain ⟨id2, c2, hm2, hc2, hh2, ht2⟩ := connWrites_mem st es _ htm
  have hh2a : c2.head_ref = c.head_ref := hh2
  have ht2a : c2.tail_ref = t := ht2
  have htc : t = c.tail_ref := by
    rw [← ht2a]
    exact huniq id2 c2 hm2 hc2 hh2a
  rw [link_getNote st es _ n hn, ht, htc]

/-- Witness for the amended claim C4, on the concrete chart `exB`: its only
connector has head note 0 and tail note 1, and after the pass note 0's
`next_ref` resolves to note 1. -/
theorem linking_pass_uniform_last_wins_witness :
    merged_entities exB = some (exBMerged, exBSt)
      ∧ exBMerged.insertionSort (entR exBSt) = exBSorted
      ∧ (link_slide_notes exBSt exBSorted).getNote exBConn.head_ref
        = some { exBHead with next_ref := some exBConn.tail_ref } :=
  ⟨by rfl, by rfl,
   linking_pass_uniform_last_wins exBSt exBSorted 2 exBConn exBHead
     (by decide) (by rfl) (by rfl)
     (by
       intro id2 c2 hm hl hh
       have hm2 : id2 = 2 ∨ id2 = 0 ∨ id2 = 1 := by
         simpa [exBSorted] using hm
       rcases hm2 with h | h | h <;> subst h <;>
         simp [exBSt, St.lookup, List.find?] at hl
       rw [← hl])⟩

/-! Ordering of the final entity list. -/

theorem entLE_total (st : St) (a b : EntityRef) :
    entLE st a b = true ∨ entLE st b a = true := by
  unfold entLE
  cases ha : !isInit a <;> cases hb : !isInit b <;> simp [ha, hb] <;>
    exact le_total _ _

theorem entLE_trans (st : St) (a b c : EntityRef) (h1 : entLE st a b = true)
    (h2 : entLE st b c = true) : entLE st a c = true := by
  unfold entLE at h1 h2 ⊢
  cases ha : !isInit a <;> cases hb : !isInit b <;> cases hc : !isInit c <;>
    simp [ha, hb, hc] at h1 h2 ⊢ <;>
    first
    | exact le_trans h1 h2
    | exact absurd h1 (by decide)
    | exact absurd h2 (by decide)

theorem entR_init_least (st : St) (b : EntityRef) :
    entR st EntityRef.initOut b := by
  rcases b <;> simp [entR, entLE, isInit, entityBeat]

theorem entityBeat_link (st : St) (es : List EntityRef) (e : EntityRef) :
    entityBeat (link_slide_notes st es) e = entityBeat st e := by
  rcases e with _ | ⟨b, p⟩ | i | ⟨l, r⟩ <;> try rfl
  show (match (link_slide_notes st es).lookup i with
      | some (Obj.note n) => n.beat
      | some (Obj.tschange c) => c.beat
      | _ => (-1 : Rat))
    = (match st.lookup i with
      | some (Obj.note n) => n.beat
      | some (Obj.tschange c) => c.beat
      | _ => (-1 : Rat))
  rw [link_slide_notes_lookup]
  rcases st.lookup i with _ | o
  · rfl
  · cases o <;> unfold applyWObj <;>
      rcases lastWriteTo (connWrites st es) i <;> rfl

theorem get_anchor_out_mem (st : St) (abb : Abb) (out : List EntityRef)
    (r : AnchorReq) :
    ∀ e ∈ (get_anchor st abb out r).2.2.2, e ∈ out ∨ ∃ i, e = EntityRef.obj i := by
  intro e he
  unfold get_anchor at he
  rcases hf : findAnchor st (bucketGet abb r.beat) r with _ | id <;> rw [hf] at he
  · simp only [List.mem_append, List.mem_singleton] at he
    rcases he with h | h
    · exact Or.inl h
    · exact Or.inr ⟨_, h⟩
  · exact Or.inl he

theorem convert_bpm_changes_loop_no_init :
    ∀ (l : List (Nat × ExternalEntityData)) (out res : List EntityRef),
      convert_bpm_changes_loop l out = some res →
      (∀ e ∈ out, e ≠ EntityRef.initOut) → ∀ e ∈ res, e ≠ EntityRef.initOut
  | [], out, res, h, hout => by
    cases h
    exact hout
  | (i, e0) :: rest, out, res, h, hout => by
    rw [convert_bpm_changes_loop] at h
    rcases hbeat : e0.get "#BEAT" with _ | beat <;> rw [hbeat] at h
    · simp at h
    rcases hbpm : e0.get "#BPM" with _ | bpm <;> rw [hbpm] at h
    · simp at h
    refine convert_bpm_changes_loop_no_init rest _ res h ?_
    intro e he
    rcases List.mem_append.mp he with h1 | h1
    · exact hout e h1
    · rw [List.mem_singleton.mp h1]
      simp

theorem convert_timescale_groups_loop_no_init (ents : List ExternalEntityData) :
    ∀ (l : List (Nat × ExternalEntityData)) (st : St) (m : List (Nat × Nat))
      (out : List EntityRef) (m2 : List (Nat × Nat)) (res : List EntityRef)
      (st2 : St),
      convert_timescale_groups_loop ents l st m out = some (m2, res, st2) →
      (∀ e ∈ out, e ≠ EntityRef.initOut) → ∀ e ∈ res, e ≠ EntityRef.initOut
  | [], st, m, out, m2, res, st2, h, hout => by
    cases h
    exact hout
  | (i, e0) :: rest, st, m, out, m2, res, st2, h, hout => by
    rw [convert_timescale_groups_loop] at h
    simp only [Option.bind_eq_bind, Option.bind_eq_some] at h
    obtain ⟨fi, hfi, raw, hraw, ⟨chain, st3⟩, hbc, h⟩ := h
    refine convert_timescale_groups_loop_no_init ents rest _ _ _ m2 res st2 h ?_
    intro e he
    rcases List.mem_append.mp he with h1 | h1
    · rcases List.mem_append.mp h1 with h2 | h2
      · exact hout e h2
      · rw [List.mem_singleton.mp h2]
        simp
    · obtain ⟨c, _, hc⟩ := List.mem_map.mp h1
      rw [← hc]
      simp

theorem convert_notes_p1_no_init :
    ∀ (l : List (Nat × ExternalEntityData)) (st : St) (nm : List (Nat × Nat))
      (out : List EntityRef) (nm2 : List (Nat × Nat)) (res : List EntityRef)
      (st2 : St),
      convert_notes_p1 l st nm out = some (nm2, res, st2) →
      (∀ e ∈ out, e ≠ EntityRef.initOut) → ∀ e ∈ res, e ≠ EntityRef.initOut
  | [], st, nm, out, nm2, res, st2, h, hout => by
    cases h
    exact hout
  | (i, e0) :: rest, st, nm, out, nm2, res, st2, h, hout => by
    rw [convert_notes_p1] at h
    rcases hn : buildNote e0 with _ | n <;> rw [hn] at h
    · simp at h
    refine convert_notes_p1_no_init rest _ _ _ nm2 res st2 h ?_
    intro e he
    rcases List.mem_append.mp he with h1 | h1
    · exact hout e h1
    · rw [List.mem_singleton.mp h1]
      simp

theorem convert_notes_p2_no_init (nm : List (Nat × Nat)) :
    ∀ (l : List (Nat × ExternalEntityData)) (st : St) (cm : List (Nat × Nat))
      (out : List EntityRef) (cm2 : List (Nat × Nat)) (res : List EntityRef)
      (st2 : St),
      convert_notes_p2 nm l st cm out = some (cm2, res, st2) →
      (∀ e ∈ out, e ≠ EntityRef.initOut) → ∀ e ∈ res, e ≠ EntityRef.initOut
  | [], st, cm, out, cm2, res, st2, h, hout => by
    cases h
    exact hout
  | (i, e0) :: rest, st, cm, out, cm2, res, st2, h, hout => by
    rw [convert_notes_p2] at h
    simp only [Option.bind_eq_bind, Option.bind_eq_some] at h
    obtain ⟨hid, h1, tid, h2, sid, h3, eid, h4, easev, h5, easeT, h6, kind, h7, h⟩ := h
    refine convert_notes_p2_no_init nm rest _ _ _ cm2 res st2 h ?_
    intro e he
    rcases List.mem_append.mp he with hm | hm
    · exact hout e hm
    · rw [List.mem_singleton.mp hm]
      simp

theorem convert_sim_lines_no_init (nm : List (Nat × Nat)) :
    ∀ (l : List (Nat × ExternalEntityData)) (out res : List EntityRef),
      convert_sim_lines nm l out = some res →
      (∀ e ∈ out, e ≠ EntityRef.initOut) → ∀ e ∈ res, e ≠ EntityRef.initOut
  | [], out, res, h, hout => by
    cases h
    exact hout
  | (i, e0) :: rest, out, res, h, hout => by
    rw [convert_sim_lines] at h
    rcases h1 : resolveIdx nm e0 "a" with _ | aid <;> rw [h1] at h
    · simp at h
    rcases h2 : resolveIdx nm e0 "b" with _ | bid <;> rw [h2] at h
    · simp at h
    refine convert_sim_lines_no_init nm rest _ res h ?_
    intro e he
    rcases List.mem_append.mp he with hm | hm
    · exact hout e hm
    · rw [List.mem_singleton.mp hm]
      simp

theorem convert_guides_loop_no_init (tsm : List (Nat × Nat)) :
    ∀ (l : List ExternalEntityData) (st : St) (abb : Abb)
      (out : List EntityRef) (st2 : St) (abb2 : Abb) (res : List EntityRef),
      convert_guides_loop tsm l st abb out = some (st2, abb2, res) →
      (∀ e ∈ out, e ≠ EntityRef.initOut) → ∀ e ∈ res, e ≠ EntityRef.initOut
  | [], st, abb, out, st2, abb2, res, h, hout => by
    cases h
    exact hout
  | e0 :: rest, st, abb, out, st2, abb2, res, h, hout => by
    rw [convert_guides_loop] at h
    simp only [Option.bind_eq_bind, Option.bind_eq_some] at h
    obtain ⟨⟨rs, re, rh, rt⟩, h1, h⟩ := h
    rcases hga1 : get_anchor st abb out rs with ⟨sidA, st_1, abb_1, out_1⟩
    rw [hga1] at h
    rcases hga2 : get_anchor st_1 abb_1 out_1 re with ⟨eidA, st_2, abb_2, out_2⟩
    rw [hga2] at h
    rcases hga3 : get_anchor st_2 abb_2 out_2 rh with ⟨hidA, st_3, abb_3, out_3⟩
    rw [hga3] at h
    rcases hga4 : get_anchor st_3 abb_3 out_3 rt with ⟨tidA, st_4, abb_4, out_4⟩
    rw [hga4] at h
    refine convert_guides_loop_no_init tsm rest _ _ _ st2 abb2 res h ?_
    intro e he
    rcases List.mem_append.mp he with hm | hm
    · have s1 := get_anchor_out_mem st abb out rs
      rw [hga1] at s1
      have s2 := get_anchor_out_mem st_1 abb_1 out_1 re
      rw [hga2] at s2
      have s3 := get_anchor_out_mem st_2 abb_2 out_2 rh
      rw [hga3] at s3
      have s4 := get_anchor_out_mem st_3 abb_3 out_3 rt
      rw [hga4] at s4
      rcases s4 e hm with h4 | ⟨i4, h4⟩
      · rcases s3 e h4 with h3 | ⟨i3, h3⟩
        · rcases s2 e h3 with hh2 | ⟨i2, hh2⟩
          · rcases s1 e hh2 with hh1 | ⟨i1, hh1⟩
            · exact hout e hh1
            · rw [hh1]
              simp
          · rw [hh2]
            simp
        · rw [h3]
          simp
      · rw [h4]
        simp
    · rw [List.mem_singleton.mp hm]
      simp

theorem convert_notes_no_init (ents : List ExternalEntityData)
    (tsm : List (Nat × Nat)) (st : St) (notes : List EntityRef) (st2 : St)
    (h : convert_notes ents tsm st = some (notes, st2)) :
    ∀ e ∈ notes, e ≠ EntityRef.initOut := by
  rw [convert_notes] at h
  simp only [Option.bind_eq_bind, Option.bind_eq_some] at h
  obtain ⟨⟨nm, out1, stA⟩, h1, ⟨cm, out2, stB⟩, h2, stC, h3, out3, h4, hp⟩ := h
  cases hp
  intro e he
  rcases List.mem_append.mp he with hm | hm
  · rcases List.mem_append.mp hm with hm1 | hm1
    · exact convert_notes_p1_no_init _ _ _ _ _ _ _ h1 (by simp) e hm1
    · exact convert_notes_p2_no_init nm _ _ _ _ _ _ _ h2 (by simp) e hm1
  · exact convert_sim_lines_no_init nm _ _ _ h4 (by simp) e hm

theorem convert_guides_no_init (ents : List ExternalEntityData)
    (tsm : List (Nat × Nat)) (st : St) (guides : List EntityRef) (st2 : St)
    (h : convert_guides ents tsm st = some (guides, st2)) :
    ∀ e ∈ guides, e ≠ EntityRef.initOut := by
  rw [convert_guides] at h
  simp only [Option.bind_eq_bind, Option.bind_eq_some] at h
  obtain ⟨⟨stA, abb, out⟩, hl, hp⟩ := h
  cases hp
  intro e he
  exact convert_guides_loop_no_init tsm _ _ _ _ _ _ _ hl (by simp) e he

theorem merged_entities_shape (ents : List ExternalEntityData)
    (merged : List EntityRef) (st : St)
    (h : merged_entities ents = some (merged, st)) :
    ∃ rest, merged = EntityRef.initOut :: rest
      ∧ ∀ e ∈ rest, e ≠ EntityRef.initOut := by
  rw [merged_entities] at h
  simp only [Option.bind_eq_bind, Option.bind_eq_some] at h
  obtain ⟨bpm, hbpm, ⟨tsm, tsEnts, st1⟩, hts, ⟨notes, st2⟩, hn, ⟨guides, st3⟩,
    hg, hp⟩ := h
  cases hp
  refine ⟨bpm ++ tsEnts ++ notes ++ guides, rfl, ?_⟩
  intro e he
  rw [convert_bpm_changes] at hbpm
  rw [convert_timescale_groups] at hts
  rcases List.mem_append.mp he with hm | hm
  · rcases List.mem_append.mp hm with hm1 | hm1
    · rcases List.mem_append.mp hm1 with hm2 | hm2
      · exact convert_bpm_changes_loop_no_init _ _ _ hbpm (by simp) e hm2
      · exact convert_timescale_groups_loop_no_init ents _ _ _ _ _ _ _ hts
          (by simp) e hm2
    · exact convert_notes_no_init ents tsm st1 notes st2 hn e hm1
  · exact convert_guides_no_init ents tsm st2 guides st3 hg e hm

theorem entR_beat_le (st : St) (a b : EntityRef) (ha : a ≠ EntityRef.initOut)
    (h : entR st a b) : entityBeat st a ≤ entityBeat st b := by
  have ha2 : isInit a = false := by
    rcases a <;> first
    | exact absurd rfl ha
    | simp [isInit]
  unfold entR entLE at h
  cases hb : isInit b
  · rw [ha2, hb] at h
    simpa using h
  · rw [ha2, hb] at h
    simp at h
    exact absurd h (by decide)

/-- Claim C5: for every successfully converted input, the output entity list
has the Initialization entity at position 0; every adjacent pair of entities
after position 0 is in non-decreasing beat order, an entity without a beat
behaving as beat −1; and the sort is stable with respect to the merge order
of the builders' outputs: the output is exactly the stable insertion sort of
the merged list, and any comparator-ordered pair that is a sublist of the
merged list remains a sublist of the output. -/
theorem conversion_output_ordering (bgm : Rat) (ents : List ExternalEntityData)
    (ld : LevelData)
    (h : convert_pjsekai_extended_level_data bgm ents = some ld) :
    ld.entities.head? = some EntityRef.initOut
      ∧ List.Chain' (fun a b => entityBeat ld.state a ≤ entityBeat ld.state b)
          ld.entities.tail
      ∧ ∃ merged st, merged_entities ents = some (merged, st)
          ∧ ld.entities = merged.insertionSort (entR st)
          ∧ ∀ a b : EntityRef, entR st a b → List.Sublist [a, b] merged →
              List.Sublist [a, b] ld.entities := by
  rw [convert_pjsekai_extended_level_data] at h
  simp only [Option.bind_eq_bind, Option.bind_eq_some] at h
  obtain ⟨⟨merged, st⟩, hm, hp⟩ := h
  simp only [Option.some.injEq] at hp
  obtain ⟨rest, hrest, hni⟩ := merged_entities_shape ents merged st hm
  subst hrest
  cases hp
  have hsorted : (EntityRef.initOut :: rest).insertionSort (entR st)
      = EntityRef.initOut :: rest.insertionSort (entR st) :=
    List.insertionSort_cons (entR st) (fun b _ => entR_init_least st b)
  refine ⟨?_, ?_, EntityRef.initOut :: rest, st, hm, rfl, ?_⟩
  · show ((EntityRef.initOut :: rest).insertionSort (entR st)).head?
      = some EntityRef.initOut
    rw [hsorted]
    rfl
  · show List.Chain'
      (fun a b => entityBeat (link_slide_notes st
          ((EntityRef.initOut :: rest).insertionSort (entR st))) a
        ≤ entityBeat (link_slide_notes st
          ((EntityRef.initOut :: rest).insertionSort (entR st))) b)
      ((EntityRef.initOut :: rest).insertionSort (entR st)).tail
    rw [hsorted]
    letI : IsTotal EntityRef (entR st) := ⟨entLE_total st⟩
    letI : IsTrans EntityRef (entR st) := ⟨entLE_trans st⟩
    have hpair : List.Pairwise (entR st) (rest.insertionSort (entR st)) :=
      List.sorted_insertionSort (entR st) rest
    have hpair2 : List.Pairwise
        (fun a b => entityBeat st a ≤ entityBeat st b)
        (rest.insertionSort (entR st)) := by
      refine hpair.imp_of_mem ?_
      intro a b hma hmb hr
      exact entR_beat_le st a b
        (hni a ((List.mem_insertionSort (entR st)).mp hma)) hr
    have hchain : List.Chain' (fun a b => entityBeat st a ≤ entityBeat st b)
        (rest.insertionSort (entR st)) := by
      letI : IsTrans EntityRef
          (fun a b : EntityRef => entityBeat st a ≤ entityBeat st b) :=
        ⟨fun x y z h1 h2 => le_trans h1 h2⟩
      exact List.chain'_iff_pairwise.mpr hpair2
    show List.Chain' _ (rest.insertionSort (entR st))
    refine hchain.imp ?_
    intro a b hr
    rw [entityBeat_link, entityBeat_link]
    exact hr
  · intro a b hr hsub
    exact List.pair_sublist_insertionSort hr hsub

/-- Witness for claim C5 on the concrete chart `exA`. -/
theorem conversion_output_ordering_witness :
    convert_pjsekai_extended_level_data 0 exA = some exALD
      ∧ (exALD.entities.head? = some EntityRef.initOut
          ∧ List.Chain' (fun a b => entityBeat exALD.state a
              ≤ entityBeat exALD.state b) exALD.entities.tail
          ∧ ∃ merged st, merged_entities exA = some (merged, st)
              ∧ exALD.entities = merged.insertionSort (entR st)
              ∧ ∀ a b : EntityRef, entR st a b → List.Sublist [a, b] merged →
                  List.Sublist [a, b] exALD.entities) :=
  ⟨by rfl, conversion_output_ordering 0 exA exALD (by rfl)⟩

/-! Defaultable omissions and connector construction. -/

theorem idxLookup_neg_one (m : List (Nat × Nat)) : idxLookup m (-1) = none := by
  unfold idxLookup
  rw [List.find?_eq_none.mpr]
  · rfl
  · intro p _
    simp only [decide_eq_true_eq]
    intro h
    have : (p.1 : Int) = -1 := by exact_mod_cast h
    omega

theorem St.lookup_lt_nextId {s : St} (hwf : StWF s) {j : Nat} {o : Obj}
    (h : s.lookup j = some o) : j < s.nextId := by
  unfold St.lookup at h
  rcases hf : s.heap.find? (fun p => p.1 = j) with _ | p
  · rw [hf] at h
    cases h
  · have hp : p.1 = j := by simpa using List.find?_some hf
    have := hwf p (List.mem_of_find?_eq_some hf)
    omega

theorem St.getNote_eq_some {s : St} {j : Nat} {n : Note} :
    s.getNote j = some n ↔ s.lookup j = some (.note n) := by
  unfold St.getNote
  rcases s.lookup j with _ | o
  · simp
  · cases o <;> simp

/-- Claim C6 (amended): omitting `lane`, `size`, or `direction` on a note
archetype, `timeScaleGroup`/`attach`/`slide` on a note, or `ease`, `fade`,
`color` on a Guide is resolved via the documented defaults and never causes
a failure. (The sixteen per-control-point Guide fields — the four per-guide
TimeScaleGroup fields among them — are required instead; omitting one is a
fatal integrity error, see the counterexample.) -/
theorem defaultable_omissions (e g : ExternalEntityData)
    (tsm : List (Nat × Nat)) (cls : String)
    (hcls : note_type_mapping e.archetype = some cls)
    (b : Rat) (hb : e.get "#BEAT" = some b)
    (hlane : e.get "lane" = none) (hsize : e.get "size" = none)
    (hdir : e.get "direction" = none)
    (s h t en : Rat × Rat × Rat × Nat)
    (hs : controlPoint tsm g "start" = some s)
    (hh : controlPoint tsm g "head" = some h)
    (ht : controlPoint tsm g "tail" = some t)
    (he : controlPoint tsm g "end" = some en)
    (hease : g.get "ease" = none) (hfade : g.get "fade" = none)
    (hcolor : g.get "color" = none) :
    buildNote e = some
      { cls := cls, beat := b, lane := 0, size := 0,
        direction := FlickDirection.UP_OMNI,
        segment_kind := ConnectorKind.ACTIVE_NORMAL, segment_alpha := -1,
        connector_ease := -1, timescale_group := none, attach_head_ref := none,
        attach_tail_ref := none, is_attached := false, active_head_ref := none,
        next_ref := none }
      ∧ guideReqs tsm g = some
          (⟨s.1, s.2.1, s.2.2.1, s.2.2.2, some ConnectorKind.GUIDE_NEUTRAL,
            some 1, none⟩,
           ⟨en.1, en.2.1, en.2.2.1, en.2.2.2, none, some 1, none⟩,
           ⟨h.1, h.2.1, h.2.2.1, h.2.2.2, none, none, some EaseType.LINEAR⟩,
           ⟨t.1, t.2.1, t.2.2.1, t.2.2.2, none, none, none⟩)
      ∧ ∀ (ents2 : List ExternalEntityData) (cm rest : List (Nat × Nat))
          (i nid : Nat) (st : St), ents2[i]? = some e →
          e.get "timeScaleGroup" = none → e.get "attach" = none →
          e.get "slide" = none →
          convert_notes_p3 ents2 tsm cm ((i, nid) :: rest) st
            = convert_notes_p3 ents2 tsm cm rest st := by
  refine ⟨?_, ?_, ?_⟩
  · rw [buildNote]
    rw [hb]
    simp only [Option.bind_eq_bind, Option.some_bind, hcls]
    have hd : e.getD "direction" 0 = 0 := by
      unfold ExternalEntityData.getD
      rw [hdir]
      rfl
    have hl : e.getD "lane" 0 = 0 := by
      unfold ExternalEntityData.getD
      rw [hlane]
      rfl
    have hsz : e.getD "size" 0 = 0 := by
      unfold ExternalEntityData.getD
      rw [hsize]
      rfl
    rw [hd, hl, hsz]
    rfl
  · rw [guideReqs]
    have h1 : g.getD "ease" 0 = 0 := by
      unfold ExternalEntityData.getD
      rw [hease]
      rfl
    have h2 : g.getD "fade" 1 = 1 := by
      unfold ExternalEntityData.getD
      rw [hfade]
      rfl
    have h3 : g.getD "color" 0 = 0 := by
      unfold ExternalEntityData.getD
      rw [hcolor]
      rfl
    rw [hs, h1, h2, h3]
    simp only [Option.bind_eq_bind, Option.some_bind, hh, ht, he]
    rfl
  · intro ents2 cm rest i nid st hi htsg hatt hsl
    rw [convert_notes_p3]
    rw [hi]
    simp only [Option.bind_eq_bind, Option.some_bind]
    have h1 : e.getD "timeScaleGroup" (-1) = -1 := by
      unfold ExternalEntityData.getD
      rw [htsg]
      rfl
    have h2 : e.getD "attach" (-1) = -1 := by
      unfold ExternalEntityData.getD
      rw [hatt]
      rfl
    have h3 : e.getD "slide" (-1) = -1 := by
      unfold ExternalEntityData.getD
      rw [hsl]
      rfl
    rw [h1, h2, h3, idxLookup_neg_one tsm]
    norm_num

/-- Witness for the amended claim C6: a bare NormalTapNote and the guide of
`ex2` (which carries no ease/fade/color field). -/
theorem defaultable_omissions_witness :
    buildNote ⟨"NormalTapNote", [("#BEAT", 0)]⟩ = some
      { cls := "NormalTapNote", beat := 0, lane := 0, size := 0,
        direction := FlickDirection.UP_OMNI,
        segment_kind := ConnectorKind.ACTIVE_NORMAL, segment_alpha := -1,
        connector_ease := -1, timescale_group := none, attach_head_ref := none,
        attach_tail_ref := none, is_attached := false, active_head_ref := none,
        next_ref := none }
      ∧ guideReqs [(0, 0)] ⟨"Guide", guideData⟩ = some
          (⟨0, 0, 1, 0, some ConnectorKind.GUIDE_NEUTRAL, some 1, none⟩,
           ⟨1, 0, 1, 0, none, some 1, none⟩,
           ⟨0, 0, 1, 0, none, none, some EaseType.LINEAR⟩,
           ⟨1, 0, 1, 0, none, none, none⟩)
      ∧ ∀ (cm rest : List (Nat × Nat)) (nid : Nat) (st : St),
          convert_notes_p3 [⟨"NormalTapNote", [("#BEAT", 0)]⟩] [(0, 0)] cm
              ((0, nid) :: rest) st
            = convert_notes_p3 [⟨"NormalTapNote", [("#BEAT", 0)]⟩] [(0, 0)] cm
                rest st := by
  have h := defaultable_omissions ⟨"NormalTapNote", [("#BEAT", 0)]⟩
    ⟨"Guide", guideData⟩ [(0, 0)] "NormalTapNote" (by rfl) 0 (by rfl) (by rfl)
    (by rfl) (by rfl) (0, 0, 1, 0) (0, 0, 1, 0) (1, 0, 1, 0) (1, 0, 1, 0)
    (by rfl) (by rfl) (by rfl) (by rfl) (by rfl) (by rfl) (by rfl)
  exact ⟨h.1, h.2.1, fun cm rest nid st =>
    h.2.2 [⟨"NormalTapNote", [("#BEAT", 0)]⟩] cm rest 0 nid st (by rfl)
      (by rfl) (by rfl) (by rfl)⟩

/-- Claim C7: for every active-connector raw entity, pass 2 constructs a
Connector whose head/tail/segment-head/segment-tail (and active head/tail)
resolve to the notes at the raw head/tail/start/end indices, sets
`segment_kind` on exactly the head, tail, and segment-head notes to the
connector's kind, sets the head note's `connector_ease` from the `ease`
field, and changes nothing else in the arena. The indices may coincide
(as in spec scenario B, where head = segment head): the pointwise
characterisation orders the writes head-first, so a coinciding tail or
segment head shows the head's merged value. -/
theorem active_connector_construction (nm : List (Nat × Nat))
    (i : Nat) (e : ExternalEntityData) (rest : List (Nat × ExternalEntityData))
    (st : St) (cm : List (Nat × Nat)) (out : List EntityRef)
    (hid tid sid eid : Nat)
    (h1 : resolveIdx nm e "head" = some hid)
    (h2 : resolveIdx nm e "tail" = some tid)
    (h3 : resolveIdx nm e "start" = some sid)
    (h4 : resolveIdx nm e "end" = some eid)
    (easev : Rat) (h5 : e.get "ease" = some easev)
    (easeT : Int) (h6 : ease_type_mapping easev = some easeT)
    (kind : Int) (h7 : active_connector_kind_mapping e.archetype = some kind)
    (nh nt ns : Note)
    (hnh : st.getNote hid = some nh) (hnt : st.getNote tid = some nt)
    (hns : st.getNote sid = some ns)
    (hwf : StWF st) :
    ∃ st2,
      convert_notes_p2 nm ((i, e) :: rest) st cm out
        = convert_notes_p2 nm rest st2 (cm ++ [(i, st.nextId)])
            (out ++ [EntityRef.obj st.nextId])
      ∧ (∀ j, st2.lookup j
          = if j = st.nextId then
              some (Obj.conn ⟨hid, tid, sid, eid, some sid, some eid⟩)
            else if j = hid then
              some (Obj.note
                { nh with connector_ease := easeT, segment_kind := kind })
            else if j = tid then
              some (Obj.note { nt with segment_kind := kind })
            else if j = sid then
              some (Obj.note { ns with segment_kind := kind })
            else st.lookup j)
      ∧ st2.lookup st.nextId
          = some (Obj.conn ⟨hid, tid, sid, eid, some sid, some eid⟩)
      ∧ st2.getNote hid
          = some { nh with connector_ease := easeT, segment_kind := kind }
      ∧ (∃ nt2, st2.getNote tid = some nt2 ∧ nt2.segment_kind = kind)
      ∧ (∃ ns2, st2.getNote sid = some ns2 ∧ ns2.segment_kind = kind)
      ∧ ∀ j, j ≠ hid → j ≠ tid → j ≠ sid → j ≠ st.nextId →
          st2.lookup j = st.lookup j := by
  have hhlt : hid < st.nextId :=
    St.lookup_lt_nextId hwf (St.getNote_eq_some.mp hnh)
  have htlt : tid < st.nextId :=
    St.lookup_lt_nextId hwf (St.getNote_eq_some.mp hnt)
  have hslt : sid < st.nextId :=
    St.lookup_lt_nextId hwf (St.getNote_eq_some.mp hns)
  have hpt : ∀ j,
      (((((st.alloc
          (.conn ⟨hid, tid, sid, eid, some sid, some eid⟩)).2.modifyNote
        hid (fun n => { n with connector_ease := easeT })).modifyNote
        hid (fun n => { n with segment_kind := kind })).modifyNote
        tid (fun n => { n with segment_kind := kind })).modifyNote
        sid (fun n => { n with segment_kind := kind })).lookup j
      = if j = st.nextId then
          some (Obj.conn ⟨hid, tid, sid, eid, some sid, some eid⟩)
        else if j = hid then
          some (Obj.note
            { nh with connector_ease := easeT, segment_kind := kind })
        else if j = tid then
          some (Obj.note { nt with segment_kind := kind })
        else if j = sid then
          some (Obj.note { ns with segment_kind := kind })
        else st.lookup j := by
    intro j
    simp only [St.modifyNote, St.lookup_modify, St.lookup_alloc st _ _ hwf]
    by_cases hjc : j = st.nextId
    · have f1 : (j = hid) = False := eq_false (by omega)
      have f2 : (j = tid) = False := eq_false (by omega)
      have f3 : (j = sid) = False := eq_false (by omega)
      simp only [eq_true hjc, f1, f2, f3, if_true, if_false]
    · have hbh : j = hid → st.lookup j = some (Obj.note nh) := fun h => by
        rw [h]
        exact St.getNote_eq_some.mp hnh
      have hbt : j = tid → st.lookup j = some (Obj.note nt) := fun h => by
        rw [h]
        exact St.getNote_eq_some.mp hnt
      have hbs : j = sid → st.lookup j = some (Obj.note ns) := fun h => by
        rw [h]
        exact St.getNote_eq_some.mp hns
      by_cases hjh : j = hid
      · by_cases hjt : j = tid <;> by_cases hjs : j = sid
        · simp only [eq_false hjc, eq_true hjh, eq_true hjt, eq_true hjs,
            if_true, if_false, hbh hjh]
          rfl
        · simp only [eq_false hjc, eq_true hjh, eq_true hjt, eq_false hjs,
            if_true, if_false, hbh hjh]
          rfl
        · simp only [eq_false hjc, eq_true hjh, eq_false hjt, eq_true hjs,
            if_true, if_false, hbh hjh]
          rfl
        · simp only [eq_false hjc, eq_true hjh, eq_false hjt, eq_false hjs,
            if_true, if_false, hbh hjh]
          rfl
      · by_cases hjt : j = tid
        · by_cases hjs : j = sid
          · simp only [eq_false hjc, eq_false hjh, eq_true hjt, eq_true hjs,
              if_true, if_false, hbt hjt]
            rfl
          · simp only [eq_false hjc, eq_false hjh, eq_true hjt, eq_false hjs,
              if_true, if_false, hbt hjt]
            rfl
        · by_cases hjs : j = sid
          · simp only [eq_false hjc, eq_false hjh, eq_false hjt, eq_true hjs,
              if_true, if_false, hbs hjs]
            rfl
          · simp only [eq_false hjc, eq_false hjh, eq_false hjt,
              eq_false hjs, if_true, if_false]
  refine ⟨_, ?_, hpt, ?_, ?_, ?_, ?_, ?_⟩
  · rw [convert_notes_p2, h1]
    simp only [Option.bind_eq_bind, Option.some_bind]
    rw [h2]
    simp only [Option.bind_eq_bind, Option.some_bind]
    rw [h3]
    simp only [Option.bind_eq_bind, Option.some_bind]
    rw [h4]
    simp only [Option.bind_eq_bind, Option.some_bind]
    rw [h5]
    simp only [Option.bind_eq_bind, Option.some_bind]
    rw [h6]
    simp only [Option.bind_eq_bind, Option.some_bind]
    rw [h7]
    simp only [Option.bind_eq_bind, Option.some_bind]
    rfl
  · rw [hpt st.nextId, if_pos rfl]
  · unfold St.getNote
    rw [hpt hid, if_neg (by omega), if_pos rfl]
  · by_cases hth : tid = hid
    · refine ⟨{ nh with connector_ease := easeT, segment_kind := kind },
        ?_, rfl⟩
      unfold St.getNote
      rw [hpt tid, if_neg (by omega), if_pos hth]
    · refine ⟨{ nt with segment_kind := kind }, ?_, rfl⟩
      unfold St.getNote
      rw [hpt tid, if_neg (by omega), if_neg hth, if_pos rfl]
  · by_cases hsh : sid = hid
    · refine ⟨{ nh with connector_ease := easeT, segment_kind := kind },
        ?_, rfl⟩
      unfold St.getNote
      rw [hpt sid, if_neg (by omega), if_pos hsh]
    · by_cases hst : sid = tid
      · refine ⟨{ nt with segment_kind := kind }, ?_, rfl⟩
        unfold St.getNote
        rw [hpt sid, if_neg (by omega), if_neg hsh, if_pos hst]
      · refine ⟨{ ns with segment_kind := kind }, ?_, rfl⟩
        unfold St.getNote
        rw [hpt sid, if_neg (by omega), if_neg hsh, if_neg hst, if_pos rfl]
  · intro j hj1 hj2 hj3 hj4
    rw [hpt j, if_neg hj4, if_neg hj1, if_neg hj2, if_neg hj3]

/-- Witness for claim C7, on spec scenario B itself: two slide notes and
the raw connector `head:0, tail:1, start:0, end:1` whose head coincides
with its segment head. -/
theorem active_connector_construction_witness :
    ∃ st2,
      convert_notes_p2 [(0, 0), (1, 1)] [(2, exBConnRaw)] exBPreSt [] []
        = convert_notes_p2 [(0, 0), (1, 1)] [] st2 [(2, exBPreSt.nextId)]
            ([] ++ [EntityRef.obj exBPreSt.nextId])
      ∧ (∀ j, st2.lookup j
          = if j = exBPreSt.nextId then
              some (Obj.conn ⟨0, 1, 0, 1, some 0, some 1⟩)
            else if j = 0 then
              some (Obj.note { exBPreHead with connector_ease := EaseType.LINEAR, segment_kind := ConnectorKind.ACTIVE_NORMAL })
            else if j = 1 then
              some (Obj.note { exBTail with segment_kind := ConnectorKind.ACTIVE_NORMAL })
            else if j = 0 then
              some (Obj.note { exBPreHead with segment_kind := ConnectorKind.ACTIVE_NORMAL })
            else exBPreSt.lookup j)
      ∧ st2.lookup exBPreSt.nextId
          = some (Obj.conn ⟨0, 1, 0, 1, some 0, some 1⟩)
      ∧ st2.getNote 0 = some { exBPreHead with connector_ease := EaseType.LINEAR, segment_kind := ConnectorKind.ACTIVE_NORMAL }
      ∧ (∃ nt2, st2.getNote 1 = some nt2
          ∧ nt2.segment_kind = ConnectorKind.ACTIVE_NORMAL)
      ∧ (∃ ns2, st2.getNote 0 = some ns2
          ∧ ns2.segment_kind = ConnectorKind.ACTIVE_NORMAL)
      ∧ ∀ j, j ≠ 0 → j ≠ 1 → j ≠ 0 → j ≠ exBPreSt.nextId →
          st2.lookup j = exBPreSt.lookup j :=
  active_connector_construction [(0, 0), (1, 1)] 2 exBConnRaw [] exBPreSt
    [] [] 0 1 0 1 (by rfl) (by rfl) (by rfl) (by rfl) 0 (by rfl)
    EaseType.LINEAR (by rfl) ConnectorKind.ACTIVE_NORMAL (by rfl)
    exBPreHead exBTail exBPreHead (by rfl) (by rfl) (by rfl)
    (by intro p hp; fin_cases hp <;> decide)

/-- Counterexample to claim C6 as stated: the guide of `ex6` omits only its
`startTimeScaleGroup` field, and the conversion fails (returns none), while
the identical chart with the field present (`ex2`) converts successfully. -/
theorem guide_tsg_omission_fails_cex :
    ex6[2]?.map (fun e => e.get "startTimeScaleGroup") = some none
      ∧ convert_pjsekai_extended_level_data 0 ex6 = none
      ∧ (convert_pjsekai_extended_level_data 0 ex2).isSome = true :=
  ⟨by rfl, by rfl, by rfl⟩

/-- Counterexample to claim C4 as stated: converting `ex4`, connector 3
(head note 0, tail note 1) is in the final list, but note 0's `next_ref`
resolves to note 2 — the tail of the later connector 4 sharing the same
head — not to connector 3's tail note 1. -/
theorem linking_pass_per_connector_cex :
    (convert_pjsekai_extended_level_data 0 ex4).map (fun ld => ld.entities)
        = some [.initOut, .obj 3, .obj 4, .obj 0, .obj 1, .obj 2]
      ∧ ((convert_pjsekai_extended_level_data 0 ex4).bind
          (fun ld => ld.state.getConn 3)).map
            (fun c => (c.head_ref, c.tail_ref)) = some (0, 1)
      ∧ ((convert_pjsekai_extended_level_data 0 ex4).bind
          (fun ld => ld.state.getNote 0)).map Note.next_ref = some (some 2)
      ∧ (2 : Nat) ≠ 1 :=
  ⟨by rfl, by rfl, by rfl, by decide⟩

/-! Timescale chain integrity. -/

theorem chainWalkF_of_chainLinked (st : St) (gid : Nat) :
    ∀ (L : List Nat), ChainLinked st gid L →
      ∀ fuel, L.length ≤ fuel → chainWalkF st fuel L.head? = some L
  | [], _, fuel, _ => by
    cases fuel <;> rfl
  | [c], hl, fuel, hf => by
    obtain ⟨ch, hch, hg, hn⟩ := hl
    match fuel, hf with
    | fuel + 1, _ =>
      show (chainWalkF st fuel (match st.lookup c with
        | some (Obj.tschange c) => c.next_ref
        | _ => none)).map (fun l => c :: l) = some [c]
      rw [hch]
      show (chainWalkF st fuel ch.next_ref).map (fun l => c :: l) = some [c]
      rw [hn]
      cases fuel <;> rfl
  | c :: c2 :: rest, hl, fuel, hf => by
    obtain ⟨⟨ch, hch, hg, hn⟩, hrest⟩ := hl
    match fuel, hf with
    | fuel + 1, hf =>
      show (chainWalkF st fuel (match st.lookup c with
        | some (Obj.tschange c) => c.next_ref
        | _ => none)).map (fun l => c :: l) = some (c :: c2 :: rest)
      rw [hch]
      show (chainWalkF st fuel ch.next_ref).map (fun l => c :: l)
        = some (c :: c2 :: rest)
      rw [hn]
      have := chainWalkF_of_chainLinked st gid (c2 :: rest) hrest fuel
        (by simpa using Nat.lt_succ_iff.mp (Nat.lt_of_lt_of_le
          (by simp) hf))
      rw [show (c2 :: rest).head? = some c2 from rfl] at this
      rw [this]
      rfl

theorem chainLinked_mem (st : St) (gid : Nat) :
    ∀ (L : List Nat), ChainLinked st gid L →
      ∀ j ∈ L, ∃ ch, st.lookup j = some (Obj.tschange ch)
        ∧ ch.timescale_group = gid
  | [], _, j, hj => by cases hj
  | [c], hl, j, hj => by
    obtain ⟨ch, hch, hg, _⟩ := hl
    rcases List.mem_singleton.mp hj with rfl
    exact ⟨ch, hch, hg⟩
  | c :: c2 :: rest, hl, j, hj => by
    obtain ⟨⟨ch, hch, hg, _⟩, hrest⟩ := hl
    rcases List.mem_cons.mp hj with rfl | hj2
    · exact ⟨ch, hch, hg⟩
    · exact chainLinked_mem st gid (c2 :: rest) hrest j hj2

theorem chainLinked_preserve (st st2 : St) (gid : Nat) :
    ∀ (L : List Nat), ChainLinked st gid L →
      (∀ j ∈ L, st2.lookup j = st.lookup j) → ChainLinked st2 gid L
  | [], _, _ => trivial
  | [c], hl, hpres => by
    obtain ⟨ch, hch, hg, hn⟩ := hl
    exact ⟨ch, by rw [hpres c (by simp)]; exact hch, hg, hn⟩
  | c :: c2 :: rest, hl, hpres => by
    obtain ⟨⟨ch, hch, hg, hn⟩, hrest⟩ := hl
    refine ⟨⟨ch, by rw [hpres c (by simp)]; exact hch, hg, hn⟩, ?_⟩
    exact chainLinked_preserve st st2 gid (c2 :: rest) hrest
      (fun j hj => hpres j (by simp [hj]))

theorem chainLinked_snoc (gid cid : Nat) :
    ∀ (acc : List Nat) (st st2 : St),
      ChainLinked st gid acc →
      (∀ a ∈ acc, acc.getLast? ≠ some a → st2.lookup a = st.lookup a) →
      (∀ prev, acc.getLast? = some prev →
        ∀ ch, st.lookup prev = some (Obj.tschange ch) →
          st2.lookup prev = some (Obj.tschange { ch with next_ref := some cid })) →
      (∃ ch2, st2.lookup cid = some (Obj.tschange ch2)
        ∧ ch2.timescale_group = gid ∧ ch2.next_ref = none) →
      acc.Nodup →
      ChainLinked st2 gid (acc ++ [cid])
  | [], st, st2, _, _, _, hcid, _ => by
    obtain ⟨ch2, h1, h2, h3⟩ := hcid
    exact ⟨ch2, h1, h2, h3⟩
  | [a], st, st2, hl, hother, hlast, hcid, hnd => by
    obtain ⟨ch, hch, hg, hn⟩ := hl
    obtain ⟨ch2, h1, h2, h3⟩ := hcid
    exact ⟨⟨{ ch with next_ref := some cid }, hlast a rfl ch hch, hg, rfl⟩,
      ch2, h1, h2, h3⟩
  | a :: b :: rest, st, st2, hl, hother, hlast, hcid, hnd => by
    obtain ⟨⟨ch, hch, hg, hn⟩, hrest⟩ := hl
    have hlne : (a :: b :: rest).getLast? ≠ some a := by
      rw [List.getLast?_cons_cons]
      intro hcon
      have hmem := List.mem_of_getLast?_eq_some hcon
      have : a ∉ b :: rest := (List.nodup_cons.mp hnd).1
      exact this hmem
    refine ⟨⟨ch, ?_, hg, hn⟩, ?_⟩
    · rw [hother a (by simp) hlne]
      exact hch
    · have step := chainLinked_snoc gid cid (b :: rest) st st2 hrest
        (fun x hx hxl => hother x (by simp [hx])
          (by rw [List.getLast?_cons_cons]; exact hxl))
        (fun prev hp => hlast prev (by rw [List.getLast?_cons_cons]; exact hp))
        hcid (List.nodup_cons.mp hnd).2
      exact step

/-- Everything one successful `buildChain` run guarantees: well-formedness,
freshness and linearity of the produced chain, and non-interference with the
rest of the arena. -/
theorem buildChain_spec (ents : List ExternalEntityData) (gid : Nat) :
    ∀ (fuel : Nat) (raw : ExternalEntityData) (st : St) (acc chain : List Nat)
      (st2 : St),
      buildChain ents gid fuel raw st acc = some (chain, st2) →
      StWF st → (∀ a ∈ acc, a < st.nextId) → acc.Nodup →
      ChainLinked st gid acc →
      StWF st2
      ∧ st.nextId ≤ st2.nextId
      ∧ (∃ newIds, chain = acc ++ newIds ∧ newIds ≠ []
          ∧ ∀ a ∈ newIds, st.nextId ≤ a ∧ a < st2.nextId)
      ∧ chain.Nodup
      ∧ ChainLinked st2 gid chain
      ∧ (∀ j, j < st.nextId → j ∉ acc → st2.lookup j = st.lookup j)
      ∧ (∀ j ch, st2.lookup j = some (Obj.tschange ch) →
          (j ∈ chain ∧ ch.timescale_group = gid)
          ∨ ∃ ch0, st.lookup j = some (Obj.tschange ch0)
              ∧ ch0.timescale_group = ch.timescale_group)
      ∧ (∀ j fr, st2.lookup j = some (Obj.group fr) →
          st.lookup j = some (Obj.group fr))
  | 0, raw, st, acc, chain, st2, h, _, _, _, _ => by cases h
  | fuel + 1, raw, st, acc, chain, st2, h, hwf, hacc, hnd, hlinked => by
    rw [buildChain] at h
    simp only [Option.bind_eq_bind, Option.bind_eq_some] at h
    obtain ⟨beat, hbeat, ts, hts, h⟩ := h
    rw [show (st.alloc
      (Obj.tschange ⟨beat, ts, 0, gid, TimescaleEase.NONE, none⟩)).1
      = st.nextId from rfl] at h
    have hcidacc : st.nextId ∉ acc := fun hmem => absurd (hacc _ hmem) (by omega)
    have hndB : (acc ++ [st.nextId]).Nodup := by
      rw [List.nodup_append]
      exact ⟨hnd, List.nodup_singleton _, by
        intro a ha hb
        rw [List.mem_singleton] at hb
        subst hb
        exact hcidacc ha⟩
    rcases hgl : acc.getLast? with _ | prev <;> rw [hgl] at h
    · -- acc is empty at the link step: no predecessor to modify
      have hBl : ∀ j, (st.alloc
          (Obj.tschange ⟨beat, ts, 0, gid, TimescaleEase.NONE, none⟩)).2.lookup j
            = if j = st.nextId
              then some (Obj.tschange ⟨beat, ts, 0, gid, TimescaleEase.NONE, none⟩)
              else st.lookup j := fun j => St.lookup_alloc st _ j hwf
      have hwfA : StWF (st.alloc
          (Obj.tschange ⟨beat, ts, 0, gid, TimescaleEase.NONE, none⟩)).2 :=
        hwf.alloc _
      have hnA : (st.alloc
          (Obj.tschange ⟨beat, ts, 0, gid, TimescaleEase.NONE, none⟩)).2.nextId
          = st.nextId + 1 := rfl
      have hlinkedB : ChainLinked (st.alloc
          (Obj.tschange ⟨beat, ts, 0, gid, TimescaleEase.NONE, none⟩)).2 gid
          (acc ++ [st.nextId]) := by
        refine chainLinked_snoc gid st.nextId acc st _ hlinked ?_ ?_ ?_ hnd
        · intro a ha _
          rw [hBl a, if_neg (by have := hacc a ha; omega)]
        · intro prev hp
          rw [hp] at hgl
          cases hgl
        · exact ⟨_, by rw [hBl st.nextId, if_pos rfl], rfl, rfl⟩
      have haccB : ∀ a ∈ acc ++ [st.nextId], a < (st.alloc
          (Obj.tschange ⟨beat, ts, 0, gid, TimescaleEase.NONE, none⟩)).2.nextId := by
        intro a ha
        rw [hnA]
        rcases List.mem_append.mp ha with h1 | h1
        · have := hacc a h1
          omega
        · rw [List.mem_singleton.mp h1]
          omega
      have hpresB : ∀ j, j < st.nextId → (st.alloc
          (Obj.tschange ⟨beat, ts, 0, gid, TimescaleEase.NONE, none⟩)).2.lookup j
            = st.lookup j := by
        intro j hj
        rw [hBl j, if_neg (by omega)]
      by_cases hnext : raw.getD "next" 0 ≤ 0
      · rw [if_pos hnext] at h
        cases h
        refine ⟨hwfA, by rw [hnA]; omega,
          ⟨[st.nextId], rfl, by simp, ?_⟩, hndB, hlinkedB, ?_, ?_, ?_⟩
        · intro a ha
          rw [List.mem_singleton.mp ha, hnA]
          omega
        · intro j hj _
          exact hpresB j hj
        · intro j ch hch
          rw [hBl j] at hch
          by_cases hj : j = st.nextId
          · rw [if_pos hj] at hch
            cases hch
            exact Or.inl ⟨by simp [hj], rfl⟩
          · rw [if_neg hj] at hch
            exact Or.inr ⟨ch, hch, rfl⟩
        · intro j fr hfr
          rw [hBl j] at hfr
          by_cases hj : j = st.nextId
          · rw [if_pos hj] at hfr
            cases hfr
          · rw [if_neg hj] at hfr
            exact hfr
      · rw [if_neg hnext] at h
        simp only [Option.bind_eq_bind, Option.bind_eq_some] at h
        obtain ⟨raw2, hraw2, h⟩ := h
        obtain ⟨ih1, ih2, ⟨new2, ihc, ihne, ihb⟩, ih4, ih5, ih6, ih7, ih8⟩ :=
          buildChain_spec ents gid fuel raw2 _ _ chain st2 h hwfA haccB hndB
            hlinkedB
        rw [hnA] at ih2
        refine ⟨ih1, by omega, ⟨st.nextId :: new2, by
            rw [ihc]
            simp, by simp, ?_⟩, ih4, ih5, ?_, ?_, ?_⟩
        · intro a ha
          rcases List.mem_cons.mp ha with rfl | h1
          · exact ⟨le_refl _, by omega⟩
          · have hb := ihb a h1
            rw [hnA] at hb
            exact ⟨by omega, hb.2⟩
        · intro j hj hjacc
          rw [ih6 j (by rw [hnA]; omega) (by
            intro hmem
            rcases List.mem_append.mp hmem with h1 | h1
            · exact hjacc h1
            · rw [List.mem_singleton.mp h1] at hj
              omega)]
          exact hpresB j hj
        · intro j ch hch
          rcases ih7 j ch hch with h1 | ⟨ch0, hch0, hg0⟩
          · exact Or.inl h1
          · rw [hBl j] at hch0
            by_cases hj : j = st.nextId
            · rw [if_pos hj] at hch0
              cases hch0
              refine Or.inl ⟨?_, by rw [← hg0]⟩
              rw [ihc, hj]
              simp
            · rw [if_neg hj] at hch0
              exact Or.inr ⟨ch0, hch0, hg0⟩
        · intro j fr hfr
          have hfr2 := ih8 j fr hfr
          rw [hBl j] at hfr2
          by_cases hj : j = st.nextId
          · rw [if_pos hj] at hfr2
            cases hfr2
          · rw [if_neg hj] at hfr2
            exact hfr2
    · -- a predecessor exists: its next_ref is linked to the fresh change
      have hprevmem : prev ∈ acc := List.mem_of_getLast?_eq_some hgl
      have hprevlt : prev < st.nextId := hacc prev hprevmem
      obtain ⟨chp, hchp, hgp⟩ := chainLinked_mem st gid acc hlinked prev hprevmem
      have hBl : ∀ j, ((st.alloc
          (Obj.tschange ⟨beat, ts, 0, gid, TimescaleEase.NONE, none⟩)).2.modify
            prev (linkNext st.nextId)).lookup j
          = if j = prev
            then some (Obj.tschange { chp with next_ref := some st.nextId })
            else if j = st.nextId
              then some (Obj.tschange ⟨beat, ts, 0, gid, TimescaleEase.NONE, none⟩)
              else st.lookup j := by
        intro j
        rw [St.lookup_modify]
        by_cases hj : j = prev
        · rw [if_pos hj, if_pos hj, St.lookup_alloc st _ j hwf,
            if_neg (by rw [hj]; omega), hj, hchp]
          rfl
        · rw [if_neg hj, if_neg hj, St.lookup_alloc st _ j hwf]
      have hwfB : StWF ((st.alloc
          (Obj.tschange ⟨beat, ts, 0, gid, TimescaleEase.NONE, none⟩)).2.modify
            prev (linkNext st.nextId)) :=
        (hwf.alloc _).modify _ _
      have hnB : ((st.alloc
          (Obj.tschange ⟨beat, ts, 0, gid, TimescaleEase.NONE, none⟩)).2.modify
            prev (linkNext st.nextId)).nextId = st.nextId + 1 := rfl
      have hlinkedB : ChainLinked ((st.alloc
          (Obj.tschange ⟨beat, ts, 0, gid, TimescaleEase.NONE, none⟩)).2.modify
            prev (linkNext st.nextId)) gid (acc ++ [st.nextId]) := by
        refine chainLinked_snoc gid st.nextId acc st _ hlinked ?_ ?_ ?_ hnd
        · intro a ha hane
          rw [hBl a, if_neg (by
              intro hap
              rw [hap] at hane
              exact hane hgl),
            if_neg (by have := hacc a ha; omega)]
        · intro prev2 hp2
          rw [hgl] at hp2
          cases hp2
          intro ch hch
          rw [hBl prev, if_pos rfl]
          rw [hchp] at hch
          cases hch
          rfl
        · refine ⟨⟨beat, ts, 0, gid, TimescaleEase.NONE, none⟩, ?_, rfl, rfl⟩
          rw [hBl st.nextId, if_neg (by omega), if_pos rfl]
      have haccB : ∀ a ∈ acc ++ [st.nextId], a < ((st.alloc
          (Obj.tschange ⟨beat, ts, 0, gid, TimescaleEase.NONE, none⟩)).2.modify
            prev (linkNext st.nextId)).nextId := by
        intro a ha
        rw [hnB]
        rcases List.mem_append.mp ha with h1 | h1
        · have := hacc a h1
          omega
        · rw [List.mem_singleton.mp h1]
          omega
      have hpresB : ∀ j, j < st.nextId → j ∉ acc → ((st.alloc
          (Obj.tschange ⟨beat, ts, 0, gid, TimescaleEase.NONE, none⟩)).2.modify
            prev (linkNext st.nextId)).lookup j = st.lookup j := by
        intro j hj hja
        rw [hBl j, if_neg (by
            intro hjp
            rw [hjp] at hja
            exact hja hprevmem),
          if_neg (by omega)]
      have htschB : ∀ j ch, ((st.alloc
          (Obj.tschange ⟨beat, ts, 0, gid, TimescaleEase.NONE, none⟩)).2.modify
            prev (linkNext st.nextId)).lookup j = some (Obj.tschange ch) →
          (j = st.nextId ∧ ch.timescale_group = gid)
          ∨ ∃ ch0, st.lookup j = some (Obj.tschange ch0)
              ∧ ch0.timescale_group = ch.timescale_group := by
        intro j ch hch
        rw [hBl j] at hch
        by_cases hjp : j = prev
        · rw [if_pos hjp] at hch
          cases hch
          exact Or.inr ⟨chp, hjp ▸ hchp, rfl⟩
        · rw [if_neg hjp] at hch
          by_cases hj : j = st.nextId
          · rw [if_pos hj] at hch
            cases hch
            exact Or.inl ⟨hj, rfl⟩
          · rw [if_neg hj] at hch
            exact Or.inr ⟨ch, hch, rfl⟩
      have hgroupB : ∀ j fr, ((st.alloc
          (Obj.tschange ⟨beat, ts, 0, gid, TimescaleEase.NONE, none⟩)).2.modify
            prev (linkNext st.nextId)).lookup j = some (Obj.group fr) →
          st.lookup j = some (Obj.group fr) := by
        intro j fr hfr
        rw [hBl j] at hfr
        by_cases hjp : j = prev
        · rw [if_pos hjp] at hfr
          cases hfr
        · rw [if_neg hjp] at hfr
          by_cases hj : j = st.nextId
          · rw [if_pos hj] at hfr
            cases hfr
          · rw [if_neg hj] at hfr
            exact hfr
      by_cases hnext : raw.getD "next" 0 ≤ 0
      · rw [if_pos hnext] at h
        cases h
        refine ⟨hwfB, by rw [hnB]; omega,
          ⟨[st.nextId], rfl, by simp, ?_⟩, hndB, hlinkedB, hpresB, ?_, hgroupB⟩
        · intro a ha
          rw [List.mem_singleton.mp ha, hnB]
          omega
        · intro j ch hch
          rcases htschB j ch hch with ⟨hj, hg⟩ | h2
          · exact Or.inl ⟨by simp [hj], hg⟩
          · exact Or.inr h2
      · rw [if_neg hnext] at h
        simp only [Option.bind_eq_bind, Option.bind_eq_some] at h
        obtain ⟨raw2, hraw2, h⟩ := h
        obtain ⟨ih1, ih2, ⟨new2, ihc, ihne, ihb⟩, ih4, ih5, ih6, ih7, ih8⟩ :=
          buildChain_spec ents gid fuel raw2 _ _ chain st2 h hwfB haccB hndB
            hlinkedB
        rw [hnB] at ih2
        refine ⟨ih1, by omega, ⟨st.nextId :: new2, by
            rw [ihc]
            simp, by simp, ?_⟩, ih4, ih5, ?_, ?_, ?_⟩
        · intro a ha
          rcases List.mem_cons.mp ha with rfl | h1
          · exact ⟨le_refl _, by omega⟩
          · have hb := ihb a h1
            rw [hnB] at hb
            exact ⟨by omega, hb.2⟩
        · intro j hj hjacc
          rw [ih6 j (by rw [hnB]; omega) (by
            intro hmem
            rcases List.mem_append.mp hmem with h1 | h1
            · exact hjacc h1
            · rw [List.mem_singleton.mp h1] at hj
              omega)]
          exact hpresB j hj hjacc
        · intro j ch hch
          rcases ih7 j ch hch with h1 | ⟨ch0, hch0, hg0⟩
          · exact Or.inl h1
          · rcases htschB j ch0 hch0 with ⟨hj, hg⟩ | ⟨ch00, hch00, hg00⟩
            · refine Or.inl ⟨?_, by rw [← hg0, hg]⟩
              rw [ihc, hj]
              simp
            · exact Or.inr ⟨ch00, hch00, by rw [hg00, hg0]⟩
        · intro j fr hfr
          exact hgroupB j fr (ih8 j fr hfr)

theorem tsInv_empty : TsInv ⟨0, []⟩ [] := by
  refine ⟨fun p hp => absurd hp (List.not_mem_nil p), ?_, ?_⟩
  · intro gid fr hg
    simp [St.lookup] at hg
  · intro j ch hj
    simp [St.lookup] at hj

/-- The timescale-group loop preserves `TsInv`. -/
theorem tsLoop_inv (ents : List ExternalEntityData) :
    ∀ (gs : List (Nat × ExternalEntityData)) (st : St) (m : List (Nat × Nat))
      (out : List EntityRef) (r : List (Nat × Nat) × List EntityRef × St),
      convert_timescale_groups_loop ents gs st m out = some r →
      TsInv st out → TsInv r.2.2 r.2.1
  | [], st, m, out, r, h, hinv => by
    rw [convert_timescale_groups_loop] at h
    cases h
    exact hinv
  | (i, e) :: rest, st, m, out, r, h, hinv => by
    obtain ⟨hwf, hinv2, hinv3⟩ := hinv
    rw [convert_timescale_groups_loop] at h
    simp only [Option.bind_eq_bind, Option.bind_eq_some] at h
    obtain ⟨firstIdx, hfi, raw, hraw, ⟨chain, st2⟩, hbc, h⟩ := h
    rw [show (st.alloc (Obj.group none)).1 = st.nextId from rfl] at hbc h
    have hwf1 : StWF (st.alloc (Obj.group none)).2 := hwf.alloc _
    obtain ⟨hwf2, hn2, ⟨newIds, hchain, hne, hbounds⟩, hnd2, hlink2, hpres2,
        htsch2, hgroup2⟩ :=
      buildChain_spec ents st.nextId (ents.length + 1) raw
        (st.alloc (Obj.group none)).2 [] chain st2 hbc hwf1
        (fun a ha => absurd ha (List.not_mem_nil a)) List.nodup_nil trivial
    rw [List.nil_append] at hchain
    have hbnd : ∀ a ∈ chain, st.nextId + 1 ≤ a ∧ a < st2.nextId := by
      intro a ha
      rw [hchain] at ha
      exact hbounds a ha
    rcases chain with _ | ⟨c, cs⟩
    · exact absurd hchain.symm hne
    have h' : convert_timescale_groups_loop ents rest
        (st2.modify st.nextId (setFirst c)) (m ++ [(i, st.nextId)])
        (out ++ [EntityRef.obj st.nextId] ++ (c :: cs).map EntityRef.obj)
        = some r := h
    have hl1 : ∀ j, (st.alloc (Obj.group none)).2.lookup j
        = if j = st.nextId then some (Obj.group none) else st.lookup j :=
      fun j => St.lookup_alloc st _ j hwf
    have hpresS : ∀ j, j < st.nextId + 1 →
        st2.lookup j = (st.alloc (Obj.group none)).2.lookup j :=
      fun j hj => hpres2 j hj (List.not_mem_nil j)
    have hst2gid : st2.lookup st.nextId = some (Obj.group none) := by
      rw [hpresS st.nextId (by omega), hl1, if_pos rfl]
    have hl3 : ∀ j, (st2.modify st.nextId (setFirst c)).lookup j
        = if j = st.nextId then (st2.lookup j).map (setFirst c)
          else st2.lookup j :=
      fun j => St.lookup_modify st2 st.nextId (setFirst c) j
    have hwf3 : StWF (st2.modify st.nextId (setFirst c)) := hwf2.modify _ _
    have holdpres : ∀ j, j < st.nextId →
        (st2.modify st.nextId (setFirst c)).lookup j = st.lookup j := by
      intro j hj
      rw [hl3 j, if_neg (by omega), hpresS j (by omega), hl1 j,
        if_neg (by omega)]
    have hchainpres : ∀ j ∈ (c :: cs),
        (st2.modify st.nextId (setFirst c)).lookup j = st2.lookup j := by
      intro j hj
      have := hbnd j hj
      rw [hl3 j, if_neg (by omega)]
    have htgrlt : ∀ j ch, st.lookup j = some (Obj.tschange ch) →
        ch.timescale_group < st.nextId := by
      intro j ch hj
      obtain ⟨fr0, hfr0⟩ := hinv3 j ch hj
      exact St.lookup_lt_nextId hwf hfr0
    have hg3gid : (st2.modify st.nextId (setFirst c)).lookup st.nextId
        = some (Obj.group (some c)) := by
      rw [hl3 st.nextId, if_pos rfl, hst2gid]
      rfl
    have hjneofts : ∀ j ch,
        (st2.modify st.nextId (setFirst c)).lookup j
          = some (Obj.tschange ch) → j ≠ st.nextId := by
      intro j ch hj hjeq
      rw [hjeq, hg3gid] at hj
      cases hj
    refine tsLoop_inv ents rest _ _ _ r h' ⟨hwf3, ?_, ?_⟩
    · intro gid' fr' hg'
      by_cases hgg : gid' = st.nextId
      · subst hgg
        have hfr : fr' = some c := by
          rw [hg3gid] at hg'
          cases hg'
          rfl
        refine ⟨c :: cs, by simp, by rw [hfr]; rfl, hnd2,
          chainLinked_preserve st2 _ st.nextId (c :: cs) hlink2 hchainpres,
          ?_, by simp, ?_⟩
        · intro j ch hj hgr
          have hjne := hjneofts j ch hj
          rw [hl3 j, if_neg hjne] at hj
          rcases htsch2 j ch hj with ⟨hjc, _⟩ | ⟨ch0, hch0, hg0c⟩
          · exact hjc
          · have hst : st.lookup j = some (Obj.tschange ch0) := by
              rw [hl1 j, if_neg hjne] at hch0
              exact hch0
            have hlt := htgrlt j ch0 hst
            rw [hg0c, hgr] at hlt
            exact absurd hlt (lt_irrefl _)
        · intro j hj
          refine List.mem_append.mpr (Or.inr ?_)
          exact List.mem_map.mpr ⟨j, hj, rfl⟩
      · have hg2 : st2.lookup gid' = some (Obj.group fr') := by
          rw [hl3 gid', if_neg hgg] at hg'
          exact hg'
        have hg1 := hgroup2 gid' fr' hg2
        have hg0 : st.lookup gid' = some (Obj.group fr') := by
          rw [hl1 gid', if_neg hgg] at hg1
          exact hg1
        obtain ⟨L, hLne, hLh, hLnd, hLlink, hLcomp, hLout, hLouts⟩ :=
          hinv2 gid' fr' hg0
        have hLpres : ∀ j ∈ L,
            (st2.modify st.nextId (setFirst c)).lookup j = st.lookup j := by
          intro j hj
          obtain ⟨chj, hchj, _⟩ := chainLinked_mem st gid' L hLlink j hj
          exact holdpres j (St.lookup_lt_nextId hwf hchj)
        refine ⟨L, hLne, hLh, hLnd,
          chainLinked_preserve st _ gid' L hLlink hLpres, ?_, ?_, ?_⟩
        · intro j ch hj hgr
          have hjne := hjneofts j ch hj
          rw [hl3 j, if_neg hjne] at hj
          rcases htsch2 j ch hj with ⟨hjc, hgj⟩ | ⟨ch0, hch0, hg0c⟩
          · exact absurd (by rw [← hgr]; exact hgj) hgg
          · have hst : st.lookup j = some (Obj.tschange ch0) := by
              rw [hl1 j, if_neg hjne] at hch0
              exact hch0
            exact hLcomp j ch0 hst (by rw [hg0c, hgr])
        · exact List.mem_append.mpr (Or.inl (List.mem_append.mpr (Or.inl hLout)))
        · intro j hj
          exact List.mem_append.mpr
            (Or.inl (List.mem_append.mpr (Or.inl (hLouts j hj))))
    · intro j ch hj
      have hjne := hjneofts j ch hj
      rw [hl3 j, if_neg hjne] at hj
      rcases htsch2 j ch hj with ⟨_, hgj⟩ | ⟨ch0, hch0, hg0c⟩
      · refine ⟨some c, ?_⟩
        rw [hgj]
        exact hg3gid
      · have hst : st.lookup j = some (Obj.tschange ch0) := by
          rw [hl1 j, if_neg hjne] at hch0
          exact hch0
        obtain ⟨fr0, hfr0⟩ := hinv3 j ch0 hst
        have hlt := St.lookup_lt_nextId hwf hfr0
        refine ⟨fr0, ?_⟩
        rw [← hg0c, hl3 _, if_neg (by omega), hpresS _ (by omega), hl1 _,
          if_neg (by omega)]
        exact hfr0

/-- C8: for each raw TimeScaleGroup the builder walks the `first`/`next`
chain emitting one change per record linked to its predecessor via
`next_ref`; in the result, for every group, following `first_ref` and then
`next_ref` terminates and visits exactly the group's changes, each once. -/
theorem timescale_chain_integrity (ents : List ExternalEntityData)
    (m : List (Nat × Nat)) (out : List EntityRef) (st : St)
    (h : convert_timescale_groups ents ⟨0, []⟩ = some (m, out, st)) :
    ∀ gid fr, st.lookup gid = some (Obj.group fr) →
      ∃ L : List Nat, fr = L.head? ∧ L.Nodup
        ∧ (∀ fuel, L.length ≤ fuel → chainWalkF st fuel fr = some L)
        ∧ (∀ j, j ∈ L ↔ ∃ ch, st.lookup j = some (Obj.tschange ch)
            ∧ ch.timescale_group = gid) := by
  have hinv := tsLoop_inv ents (byArchetype ents "TimeScaleGroup") ⟨0, []⟩
    [] [] (m, out, st) h tsInv_empty
  intro gid fr hg
  obtain ⟨L, _, hh, hnd, hlink, hcomp, _, _⟩ := hinv.2.1 gid fr hg
  refine ⟨L, hh, hnd, ?_, ?_⟩
  · intro fuel hf
    rw [hh]
    exact chainWalkF_of_chainLinked st gid L hlink fuel hf
  · intro j
    constructor
    · intro hj
      exact chainLinked_mem st gid L hlink j hj
    · rintro ⟨ch, h1, h2⟩
      exact hcomp j ch h1 h2

theorem timescale_chain_integrity_witness :
    ∃ L : List Nat, (some 1 : Option Nat) = L.head? ∧ L.Nodup
      ∧ (∀ fuel, L.length ≤ fuel → chainWalkF exTSt fuel (some 1) = some L)
      ∧ (∀ j, j ∈ L ↔ ∃ ch, exTSt.lookup j = some (Obj.tschange ch)
          ∧ ch.timescale_group = 0) :=
  timescale_chain_integrity exT [(0, 0)]
    [EntityRef.obj 0, EntityRef.obj 1, EntityRef.obj 2] exTSt (by decide) 0
    (some 1) (by decide)

/-- C10: every group the timescale builder emits has `first_ref` set to a
change of that group, and both the group and that change are emitted. -/
theorem timescale_groups_nonempty_chain (ents : List ExternalEntityData)
    (m : List (Nat × Nat)) (out : List EntityRef) (st : St)
    (h : convert_timescale_groups ents ⟨0, []⟩ = some (m, out, st)) :
    ∀ gid fr, st.lookup gid = some (Obj.group fr) →
      ∃ c1 ch, fr = some c1
        ∧ st.lookup c1 = some (Obj.tschange ch) ∧ ch.timescale_group = gid
        ∧ EntityRef.obj gid ∈ out ∧ EntityRef.obj c1 ∈ out := by
  have hinv := tsLoop_inv ents (byArchetype ents "TimeScaleGroup") ⟨0, []⟩
    [] [] (m, out, st) h tsInv_empty
  intro gid fr hg
  obtain ⟨L, hne, hh, _, hlink, _, hout, houts⟩ := hinv.2.1 gid fr hg
  rcases L with _ | ⟨c, cs⟩
  · exact absurd rfl hne
  obtain ⟨ch, hch, hgr⟩ :=
    chainLinked_mem st gid (c :: cs) hlink c (by simp)
  exact ⟨c, ch, hh, hch, hgr, hout, houts c (by simp)⟩

theorem timescale_groups_nonempty_chain_witness :
    ∃ c1 ch, (some 1 : Option Nat) = some c1
      ∧ St.lookup ⟨2, [(0, Obj.group (some 1)),
            (1, Obj.tschange ⟨0, 1, 0, 0, 0, none⟩)]⟩ c1
          = some (Obj.tschange ch)
      ∧ ch.timescale_group = 0
      ∧ EntityRef.obj 0 ∈ [EntityRef.obj 0, EntityRef.obj 1]
      ∧ EntityRef.obj c1 ∈ [EntityRef.obj 0, EntityRef.obj 1] :=
  timescale_groups_nonempty_chain ex2 [(0, 0)]
    [EntityRef.obj 0, EntityRef.obj 1]
    ⟨2, [(0, Obj.group (some 1)), (1, Obj.tschange ⟨0, 1, 0, 0, 0, none⟩)]⟩
    (by decide) 0 (some 1) (by decide)

/-! Write-once monotonicity of the guide pass's note attributes. -/

theorem attrMono_refl (n : Note) : AttrMono n n :=
  ⟨rfl, rfl, rfl, rfl, fun _ => rfl, fun _ => rfl, fun _ => rfl⟩

theorem attrMono_trans {n1 n2 n3 : Note} (h1 : AttrMono n1 n2)
    (h2 : AttrMono n2 n3) : AttrMono n1 n3 := by
  obtain ⟨a1, b1, c1, d1, e1, f1, g1⟩ := h1
  obtain ⟨a2, b2, c2, d2, e2, f2, g2⟩ := h2
  refine ⟨a2.trans a1, b2.trans b1, c2.trans c1, d2.trans d1, ?_, ?_, ?_⟩
  · intro h
    rw [e2 (by rw [e1 h]; exact h), e1 h]
  · intro h
    rw [f2 (by rw [f1 h]; exact h), f1 h]
  · intro h
    rw [g2 (by rw [g1 h]; exact h), g1 h]

theorem monoSt_refl (st : St) : MonoSt st st :=
  fun _ n hn => ⟨n, hn, attrMono_refl n⟩

theorem monoSt_trans {st st2 st3 : St} (h1 : MonoSt st st2)
    (h2 : MonoSt st2 st3) : MonoSt st st3 := by
  intro j n hn
  obtain ⟨n2, hn2, hm2⟩ := h1 j n hn
  obtain ⟨n3, hn3, hm3⟩ := h2 j n2 hn2
  exact ⟨n3, hn3, attrMono_trans hm2 hm3⟩

theorem kindFill_mono (m : Note) (k : Int) :
    AttrMono m (if m.segment_kind = -1 then { m with segment_kind := k }
      else m) := by
  by_cases h : m.segment_kind = -1
  · rw [if_pos h]
    exact ⟨rfl, rfl, rfl, rfl, fun hc => absurd h hc, fun _ => rfl,
      fun _ => rfl⟩
  · rw [if_neg h]
    exact attrMono_refl m

theorem alphaFill_mono (m : Note) (a : Rat) :
    AttrMono m (if m.segment_alpha = -1 then { m with segment_alpha := a }
      else m) := by
  by_cases h : m.segment_alpha = -1
  · rw [if_pos h]
    exact ⟨rfl, rfl, rfl, rfl, fun _ => rfl, fun hc => absurd h hc,
      fun _ => rfl⟩
  · rw [if_neg h]
    exact attrMono_refl m

theorem easeFill_mono (m : Note) (z : Int) :
    AttrMono m (if m.connector_ease = -1 then { m with connector_ease := z }
      else m) := by
  by_cases h : m.connector_ease = -1
  · rw [if_pos h]
    exact ⟨rfl, rfl, rfl, rfl, fun _ => rfl, fun _ => rfl,
      fun hc => absurd h hc⟩
  · rw [if_neg h]
    exact attrMono_refl m

theorem mergeInto_mono (n : Note) (r : AnchorReq) :
    AttrMono n (mergeInto n r) := by
  unfold mergeInto
  rcases r.segment_kind with _ | k <;> rcases r.segment_alpha with _ | a <;>
    rcases r.connector_ease with _ | z
  · exact attrMono_refl n
  · exact easeFill_mono n z
  · exact alphaFill_mono n a
  · exact attrMono_trans (alphaFill_mono n a) (easeFill_mono _ z)
  · exact kindFill_mono n k
  · exact attrMono_trans (kindFill_mono n k) (easeFill_mono _ z)
  · exact attrMono_trans (kindFill_mono n k) (alphaFill_mono _ a)
  · exact attrMono_trans (kindFill_mono n k)
      (attrMono_trans (alphaFill_mono _ a) (easeFill_mono _ z))

theorem defaultAnchor_mono (n : Note) : AttrMono n (defaultAnchor n) :=
  attrMono_trans (kindFill_mono n ConnectorKind.GUIDE_NEUTRAL)
    (attrMono_trans (alphaFill_mono _ 1) (easeFill_mono _ EaseType.LINEAR))

theorem getNote_modifyNote (s : St) (id : Nat) (f : Note → Note) (j : Nat) :
    (s.modifyNote id f).getNote j
      = if j = id then (s.getNote j).map f else s.getNote j := by
  unfold St.getNote St.modifyNote
  rw [St.lookup_modify]
  by_cases hj : j = id
  · rw [if_pos hj, if_pos hj]
    rcases s.lookup j with _ | o
    · rfl
    · rcases o with n | c | fr | ch <;> rfl
  · rw [if_neg hj, if_neg hj]

theorem get_anchor_wf (st : St) (abb : Abb) (out : List EntityRef)
    (r : AnchorReq) (hwf : StWF st) : StWF (get_anchor st abb out r).2.1 := by
  unfold get_anchor
  rcases findAnchor st (bucketGet abb r.beat) r with _ | id
  · exact hwf.alloc _
  · exact hwf.modify _ _

theorem getNote_lt_nextId {s : St} (hwf : StWF s) {j : Nat} {n : Note}
    (h : s.getNote j = some n) : j < s.nextId := by
  unfold St.getNote at h
  rcases hl : s.lookup j with _ | o
  · rw [hl] at h
    cases h
  · exact St.lookup_lt_nextId hwf hl

theorem getNote_alloc (s : St) (o : Obj) (j : Nat) (hwf : StWF s)
    (hj : j < s.nextId) : (s.alloc o).2.getNote j = s.getNote j := by
  unfold St.getNote
  rw [St.lookup_alloc s o j hwf, if_neg (by omega)]

theorem get_anchor_monoSt (st : St) (abb : Abb) (out : List EntityRef)
    (r : AnchorReq) (hwf : StWF st) : MonoSt st (get_anchor st abb out r).2.1 := by
  intro j n h
  unfold get_anchor
  rcases findAnchor st (bucketGet abb r.beat) r with _ | id
  · exact ⟨n, by
      rw [getNote_alloc st _ j hwf (getNote_lt_nextId hwf h)]
      exact h, attrMono_refl n⟩
  · by_cases hj : j = id
    · subst hj
      refine ⟨mergeInto n r, ?_, mergeInto_mono n r⟩
      rw [getNote_modifyNote, if_pos rfl, h]
      rfl
    · refine ⟨n, ?_, attrMono_refl n⟩
      rw [getNote_modifyNote, if_neg hj]
      exact h

theorem alloc_monoSt (st : St) (o : Obj) (hwf : StWF st) :
    MonoSt st (st.alloc o).2 := by
  intro j n h
  exact ⟨n, by
    rw [getNote_alloc st o j hwf (getNote_lt_nextId hwf h)]
    exact h, attrMono_refl n⟩

theorem convert_guides_loop_mono (tsm : List (Nat × Nat)) :
    ∀ (gs : List ExternalEntityData) (st : St) (abb : Abb)
      (out : List EntityRef) (r2 : St × Abb × List EntityRef),
      convert_guides_loop tsm gs st abb out = some r2 → StWF st →
      StWF r2.1 ∧ MonoSt st r2.1
  | [], st, abb, out, r2, h, hwf => by
    rw [convert_guides_loop] at h
    cases h
    exact ⟨hwf, monoSt_refl st⟩
  | e :: rest, st, abb, out, r2, h, hwf => by
    rw [convert_guides_loop] at h
    simp only [Option.bind_eq_bind, Option.bind_eq_some] at h
    obtain ⟨⟨rs, re, rh, rt⟩, hreq, h⟩ := h
    generalize hA1 : get_anchor st abb out rs = A1 at h
    have hwf1 : StWF A1.2.1 := hA1 ▸ get_anchor_wf st abb out rs hwf
    have hm1 : MonoSt st A1.2.1 := hA1 ▸ get_anchor_monoSt st abb out rs hwf
    generalize hA2 : get_anchor A1.2.1 A1.2.2.1 A1.2.2.2 re = A2 at h
    have hwf2 : StWF A2.2.1 := hA2 ▸ get_anchor_wf _ _ _ re hwf1
    have hm2 : MonoSt A1.2.1 A2.2.1 := hA2 ▸ get_anchor_monoSt _ _ _ re hwf1
    generalize hA3 : get_anchor A2.2.1 A2.2.2.1 A2.2.2.2 rh = A3 at h
    have hwf3 : StWF A3.2.1 := hA3 ▸ get_anchor_wf _ _ _ rh hwf2
    have hm3 : MonoSt A2.2.1 A3.2.1 := hA3 ▸ get_anchor_monoSt _ _ _ rh hwf2
    generalize hA4 : get_anchor A3.2.1 A3.2.2.1 A3.2.2.2 rt = A4 at h
    have hwf4 : StWF A4.2.1 := hA4 ▸ get_anchor_wf _ _ _ rt hwf3
    have hm4 : MonoSt A3.2.1 A4.2.1 := hA4 ▸ get_anchor_monoSt _ _ _ rt hwf3
    have hwf5 : StWF (A4.2.1.alloc (Obj.conn
        { head_ref := A3.1, tail_ref := A4.1, segment_head_ref := A1.1,
          segment_tail_ref := A2.1, active_head_ref := none,
          active_tail_ref := none })).2 := hwf4.alloc _
    have hm5 : MonoSt A4.2.1 (A4.2.1.alloc (Obj.conn
        { head_ref := A3.1, tail_ref := A4.1, segment_head_ref := A1.1,
          segment_tail_ref := A2.1, active_head_ref := none,
          active_tail_ref := none })).2 := alloc_monoSt A4.2.1 _ hwf4
    obtain ⟨hwfF, hmF⟩ :=
      convert_guides_loop_mono tsm rest _ _ _ r2 h hwf5
    exact ⟨hwfF, monoSt_trans (monoSt_trans (monoSt_trans (monoSt_trans
      (monoSt_trans hm1 hm2) hm3) hm4) hm5) hmF⟩

theorem fold_modifyNote_mono (g : Note → Note) (hg : ∀ n, AttrMono n (g n)) :
    ∀ (ids : List Nat) (st : St),
      MonoSt st (ids.foldl (fun s id => s.modifyNote id g) st)
  | [], st => monoSt_refl st
  | id :: ids, st => by
    rw [List.foldl_cons]
    refine monoSt_trans ?_ (fold_modifyNote_mono g hg ids (st.modifyNote id g))
    intro j n hn
    rw [getNote_modifyNote]
    by_cases hj : j = id
    · rw [if_pos hj, hn]
      exact ⟨g n, rfl, hg n⟩
    · rw [if_neg hj]
      exact ⟨n, hn, attrMono_refl n⟩

theorem apply_guide_defaults_mono :
    ∀ (abb : Abb) (st : St), MonoSt st (apply_guide_defaults st abb)
  | [], st => monoSt_refl st
  | p :: abb, st => by
    show MonoSt st (apply_guide_defaults
      (p.2.foldl (fun s id => s.modifyNote id defaultAnchor) st) abb)
    exact monoSt_trans (fold_modifyNote_mono defaultAnchor defaultAnchor_mono
      p.2 st) (apply_guide_defaults_mono abb _)

/-- C3 (corrected): the per-key uniqueness half of the claim is false
(see the counterexample); the merge half holds: from any state of the
guide pass, a note attribute among segment_kind, segment_alpha and
connector_ease that is set (not the sentinel `-1`) is never overwritten
through the rest of the pass including the defaults step, and the dedup
key fields are never mutated — first writer wins. -/
theorem guide_attrs_write_once (tsm : List (Nat × Nat)) :
    (∀ (gs : List ExternalEntityData) (st : St) (abb : Abb)
        (out : List EntityRef) (r2 : St × Abb × List EntityRef),
      convert_guides_loop tsm gs st abb out = some r2 → StWF st →
      ∀ j n, st.getNote j = some n →
        ∃ n2, (apply_guide_defaults r2.1 r2.2.1).getNote j = some n2
          ∧ AttrMono n n2)
    ∧ (∀ (ents : List ExternalEntityData) (st : St)
        (out2 : List EntityRef) (st2 : St),
      convert_guides ents tsm st = some (out2, st2) → StWF st →
      ∀ j n, st.getNote j = some n →
        ∃ n2, st2.getNote j = some n2 ∧ AttrMono n n2) := by
  constructor
  · intro gs st abb out r2 h hwf
    exact monoSt_trans (convert_guides_loop_mono tsm gs st abb out r2 h hwf).2
      (apply_guide_defaults_mono r2.2.1 r2.1)
  · intro ents st out2 st2 h hwf
    rw [convert_guides] at h
    simp only [Option.bind_eq_bind, Option.bind_eq_some] at h
    obtain ⟨⟨stL, abbL, outL⟩, hloop, hp⟩ := h
    cases hp
    exact monoSt_trans
      (convert_guides_loop_mono tsm _ st [] [] (stL, abbL, outL) hloop hwf).2
      (apply_guide_defaults_mono abbL stL)

theorem guide_attrs_write_once_witness :
    ∃ n2, (apply_guide_defaults exMidRes.1 exMidRes.2.1).getNote 2 = some n2
      ∧ AttrMono ⟨"AnchorNote", 0, 0, 1, 1, 2, 1, 2, some 0, none, none,
          false, none, none⟩ n2 :=
  (guide_attrs_write_once [(0, 0)]).1 [exG2] exMidSt exMidAbb exMidOut
    exMidRes (by decide) (by intro p hp; fin_cases hp <;> decide) 2
    ⟨"AnchorNote", 0, 0, 1, 1, 2, 1, 2, some 0, none, none, false, none,
      none⟩ (by decide)

/-- The per-key uniqueness half of C3 fails on `ex3`: the guide pass emits
the two distinct anchor entities 2 and 5, both `AnchorNote`s at key
`(beat 0, lane 0, size 1, group 0)`, because the second guide's color
conflicts with the first's. -/
theorem guide_anchor_collision_cex :
    convert_guides ex3 [(0, 0)] exPreSt = some (ex3GOut, ex3GSt)
    ∧ anchorsAtKey ex3GSt ex3GOut (0, 0, 1, 0) = [2, 5]
    ∧ (2 : Nat) ≠ 5
    ∧ (∃ n, ex3GSt.getNote 2 = some n ∧ n.cls = "AnchorNote"
        ∧ noteKeyIs n (0, 0, 1, 0) = true)
    ∧ (∃ n, ex3GSt.getNote 5 = some n ∧ n.cls = "AnchorNote"
        ∧ noteKeyIs n (0, 0, 1, 0) = true) := by
  refine ⟨by decide, by decide, by decide,
    ⟨⟨"AnchorNote", 0, 0, 1, 1, 2, 1, 2, some 0, none, none, false, none,
      none⟩, by decide, rfl, by decide⟩,
    ⟨⟨"AnchorNote", 0, 0, 1, 1, 3, 1, 2, some 0, none, none, false, none,
      none⟩, by decide, rfl, by decide⟩⟩

/-! Anchor deduplication: key observations, buckets, first-contribution. -/

theorem attrMono_key {n n2 : Note} (h : AttrMono n n2) (K : AnchorKey) :
    noteKeyIs n2 K = noteKeyIs n K := by
  obtain ⟨hb, hl, hs, ht, _, _, _⟩ := h
  unfold noteKeyIs
  rw [hb, hl, hs, ht]

theorem noteKeyIs_unique {n : Note} {K K2 : AnchorKey}
    (h1 : noteKeyIs n K = true) (h2 : noteKeyIs n K2 = true) : K = K2 := by
  obtain ⟨kb, kl, ks, kt⟩ := K
  obtain ⟨kb2, kl2, ks2, kt2⟩ := K2
  simp only [noteKeyIs, Bool.and_eq_true, decide_eq_true_eq] at h1 h2
  obtain ⟨⟨⟨hb1, hl1⟩, hs1⟩, ht1⟩ := h1
  obtain ⟨⟨⟨hb2, hl2⟩, hs2⟩, ht2⟩ := h2
  rw [ht1] at ht2
  simp only [Option.some.injEq] at ht2
  rw [← hb1, hb2, ← hl1, hl2, ← hs1, hs2, ht2]

theorem noteKeyIs_newAnchor (r : AnchorReq) (K : AnchorKey) :
    noteKeyIs (newAnchor r) K = true ↔ reqKey r = K := by
  obtain ⟨kb, kl, ks, kt⟩ := K
  simp [noteKeyIs, newAnchor, reqKey, Prod.ext_iff, and_assoc]

theorem mem_anchorsAtKey (st : St) (es : List EntityRef) (K : AnchorKey)
    (id : Nat) :
    id ∈ anchorsAtKey st es K
      ↔ EntityRef.obj id ∈ es
        ∧ ∃ n, st.getNote id = some n ∧ noteKeyIs n K = true := by
  unfold anchorsAtKey
  rw [List.mem_filterMap]
  constructor
  · rintro ⟨e, he, hfe⟩
    rcases e with _ | ⟨b, bpm⟩ | id2 | ⟨lf, rt⟩
    · cases hfe
    · cases hfe
    · rcases hg : st.getNote id2 with _ | n
      · simp only [hg] at hfe
        cases hfe
      · simp only [hg] at hfe
        by_cases hk : noteKeyIs n K = true
        · rw [if_pos hk] at hfe
          cases hfe
          exact ⟨he, n, hg, hk⟩
        · rw [if_neg hk] at hfe
          cases hfe
    · cases hfe
  · rintro ⟨he, n, hg, hk⟩
    refine ⟨EntityRef.obj id, he, ?_⟩
    simp only [hg]
    rw [if_pos hk]

theorem anchorsAtKey_append (st : St) (es es2 : List EntityRef)
    (K : AnchorKey) :
    anchorsAtKey st (es ++ es2) K
      = anchorsAtKey st es K ++ anchorsAtKey st es2 K :=
  List.filterMap_append _ _ _

theorem anchorsAtKey_single_obj (st : St) (id : Nat) (K : AnchorKey) :
    anchorsAtKey st [EntityRef.obj id] K
      = match st.getNote id with
        | some n => if noteKeyIs n K then [id] else []
        | none => [] := by
  unfold anchorsAtKey
  rcases hg : st.getNote id with _ | n
  · simp [List.filterMap_cons, hg]
  · by_cases hk : noteKeyIs n K = true <;>
      simp [List.filterMap_cons, hg, hk]

theorem anchorsAtKey_congr (st st2 : St) (K : AnchorKey)
    (es : List EntityRef)
    (h : ∀ id, EntityRef.obj id ∈ es →
      st2.getNote id = st.getNote id
      ∨ ∃ n n2, st.getNote id = some n ∧ st2.getNote id = some n2
          ∧ noteKeyIs n2 K = noteKeyIs n K) :
    anchorsAtKey st2 es K = anchorsAtKey st es K := by
  unfold anchorsAtKey
  refine filterMap_congr_fn _ _ es ?_
  intro e he
  rcases e with _ | ⟨b, bpm⟩ | id | ⟨lf, rt⟩
  · rfl
  · rfl
  · rcases h id he with heq | ⟨n, n2, h1, h2, hk⟩
    · simp only [heq]
    · simp only [h1, h2, hk]
  · rfl

theorem find?_map_of_pred {α : Type} (f : α → α) (p : α → Bool)
    (hf : ∀ x, p (f x) = p x) :
    ∀ l : List α, (l.map f).find? p = (l.find? p).map f
  | [] => rfl
  | a :: l => by
    rcases hp : p a with _ | _
    · rw [List.map_cons, List.find?_cons_of_neg _ (by rw [hf]; simp [hp]),
        List.find?_cons_of_neg _ (by simp [hp])]
      exact find?_map_of_pred f p hf l
    · rw [List.map_cons, List.find?_cons_of_pos _ (by rw [hf]; exact hp),
        List.find?_cons_of_pos _ hp]
      rfl

theorem bucketGet_bucketAdd (abb : Abb) (b : Rat) (id : Nat) (b2 : Rat) :
    bucketGet (bucketAdd abb b id) b2
      = if b2 = b then bucketGet abb b2 ++ [id] else bucketGet abb b2 := by
  unfold bucketAdd
  rcases hfind : abb.find? (fun p => p.1 = b) with _ | q
  · rw [if_neg (by simp [hfind])]
    unfold bucketGet
    rw [List.find?_append]
    rcases hf2 : abb.find? (fun p => p.1 = b2) with _ | q2
    · by_cases hb2 : b2 = b
      · subst hb2
        rw [if_pos rfl]
        rw [hf2] at hfind
        simp [List.find?, hfind, hf2]
      · rw [if_neg hb2]
        rw [hf2]
        simp only [List.find?, Option.none_or]
        rw [decide_eq_false (fun h : b = b2 => hb2 h.symm)]
    · have hq2 : q2.1 = b2 := by simpa using List.find?_some hf2
      by_cases hb2 : b2 = b
      · exfalso
        rw [hb2] at hf2
        rw [hfind] at hf2
        cases hf2
      · rw [if_neg hb2, hf2]
        rfl
  · rw [if_pos (by simp [hfind])]
    unfold bucketGet
    rw [find?_map_of_pred _ _ (fun x => by
      by_cases hx : x.1 = b <;> simp [hx]) abb]
    rcases hf2 : abb.find? (fun p => p.1 = b2) with _ | q2
    · have hneq : ¬b2 = b := by
        intro he
        rw [he] at hf2
        rw [hfind] at hf2
        cases hf2
      simp [hf2, hneq]
    · have hq2 : q2.1 = b2 := by simpa using List.find?_some hf2
      by_cases hb2 : b2 = b
      · subst hb2
        rw [if_pos rfl]
        simp [hf2, hq2]
      · rw [if_neg hb2]
        simp [hf2, hq2, hb2]

theorem firstContrib_cases {α : Type} (d : α) :
    ∀ l : List (Option α),
      firstContrib d l = d ∨ ∃ o ∈ l, o = some (firstContrib d l)
  | [] => Or.inl rfl
  | none :: l => by
    have he : firstContrib d (none :: l) = firstContrib d l := by
      simp [firstContrib, List.filterMap_cons]
    rw [he]
    rcases firstContrib_cases d l with h | ⟨o, ho, hoe⟩
    · exact Or.inl h
    · exact Or.inr ⟨o, by simp [ho], hoe⟩
  | some v :: l => by
    have he : firstContrib d (some v :: l) = v := by
      simp [firstContrib, List.filterMap_cons]
    rw [he]
    exact Or.inr ⟨some v, by simp, rfl⟩

theorem fill_firstContrib {α : Type} [DecidableEq α] (d : α)
    (f : AnchorReq → Option α)
    (P : List AnchorReq) (r : AnchorReq) (x : α)
    (hx : x = firstContrib d (P.map f))
    (hne : ∀ p ∈ P, ∀ v, f p = some v → v ≠ d) :
    (match f r with
      | some v => if x = d then v else x
      | none => x) = firstContrib d ((P ++ [r]).map f) := by
  rcases hfr : f r with _ | v
  · rw [hx]
    unfold firstContrib
    rw [List.map_append, List.filterMap_append]
    simp [hfr]
  · show (if x = d then v else x) = firstContrib d ((P ++ [r]).map f)
    by_cases hxd : x = d
    · rw [if_pos hxd]
      have hemp : (P.map f).filterMap id = [] := by
        rcases hl : (P.map f).filterMap id with _ | ⟨v0, rest⟩
        · rfl
        · exfalso
          have hv0 : v0 ∈ (P.map f).filterMap id := by
            rw [hl]
            simp
          have hsome : ∃ o ∈ P.map f, o = some v0 := by
            rcases List.mem_filterMap.mp hv0 with ⟨o, ho, hoe⟩
            exact ⟨o, ho, by simpa using hoe⟩
          obtain ⟨o, ho, rfl⟩ := hsome
          obtain ⟨p0, hp0, hfp0⟩ := List.mem_map.mp ho
          have hvne := hne p0 hp0 v0 hfp0
          have hxv : x = v0 := by
            rw [hx]
            unfold firstContrib
            rw [hl]
            rfl
          exact hvne (by rw [← hxv, hxd])
      unfold firstContrib
      rw [List.map_append, List.filterMap_append, hemp]
      simp [hfr]
    · rw [if_neg hxd]
      unfold firstContrib at hx ⊢
      rw [List.map_append, List.filterMap_append]
      rcases hl : (P.map f).filterMap id with _ | ⟨v0, rest⟩
      · rw [hl] at hx
        exact absurd hx hxd
      · rw [hl] at hx
        simpa using hx

theorem firstContrib_all {α : Type} (d : α) (f : AnchorReq → Option α)
    (hsym : ∀ p q, Compatible p q →
      ∀ v1 v2, f p = some v1 → f q = some v2 → v1 = v2) :
    ∀ (P : List AnchorReq), P.Pairwise Compatible →
      ∀ q ∈ P, ∀ k, f q = some k → firstContrib d (P.map f) = k
  | [], _, q, hq, k, hk => absurd hq (List.not_mem_nil q)
  | p :: P, hpair, q, hq, k, hk => by
    obtain ⟨hhead, htail⟩ := List.pairwise_cons.mp hpair
    rcases hfp : f p with _ | v0
    · have he : firstContrib d ((p :: P).map f) = firstContrib d (P.map f) := by
        simp [firstContrib, List.filterMap_cons, hfp]
      rw [he]
      rcases List.mem_cons.mp hq with rfl | hqP
      · rw [hfp] at hk
        cases hk
      · exact firstContrib_all d f hsym P htail q hqP k hk
    · have he : firstContrib d ((p :: P).map f) = v0 := by
        simp [firstContrib, List.filterMap_cons, hfp]
      rw [he]
      rcases List.mem_cons.mp hq with rfl | hqP
      · rw [hfp] at hk
        cases hk
        rfl
      · exact hsym p q (hhead q hqP) v0 k hfp hk

/-! Field characterisation of the merge step. -/

theorem kindFill_kind (m : Note) (k : Int) :
    (if m.segment_kind = -1 then { m with segment_kind := k }
      else m).segment_kind
      = if m.segment_kind = -1 then k else m.segment_kind := by
  by_cases h : m.segment_kind = -1 <;> simp [h]

theorem kindFill_alpha (m : Note) (k : Int) :
    (if m.segment_kind = -1 then { m with segment_kind := k }
      else m).segment_alpha = m.segment_alpha := by
  by_cases h : m.segment_kind = -1 <;> simp [h]

theorem kindFill_ease (m : Note) (k : Int) :
    (if m.segment_kind = -1 then { m with segment_kind := k }
      else m).connector_ease = m.connector_ease := by
  by_cases h : m.segment_kind = -1 <;> simp [h]

theorem alphaFill_kind (m : Note) (a : Rat) :
    (if m.segment_alpha = -1 then { m with segment_alpha := a }
      else m).segment_kind = m.segment_kind := by
  by_cases h : m.segment_alpha = -1 <;> simp [h]

theorem alphaFill_alpha (m : Note) (a : Rat) :
    (if m.segment_alpha = -1 then { m with segment_alpha := a }
      else m).segment_alpha
      = if m.segment_alpha = -1 then a else m.segment_alpha := by
  by_cases h : m.segment_alpha = -1 <;> simp [h]

theorem alphaFill_ease (m : Note) (a : Rat) :
    (if m.segment_alpha = -1 then { m with segment_alpha := a }
      else m).connector_ease = m.connector_ease := by
  by_cases h : m.segment_alpha = -1 <;> simp [h]

theorem easeFill_kind (m : Note) (z : Int) :
    (if m.connector_ease = -1 then { m with connector_ease := z }
      else m).segment_kind = m.segment_kind := by
  by_cases h : m.connector_ease = -1 <;> simp [h]

theorem easeFill_alpha (m : Note) (z : Int) :
    (if m.connector_ease = -1 then { m with connector_ease := z }
      else m).segment_alpha = m.segment_alpha := by
  by_cases h : m.connector_ease = -1 <;> simp [h]

theorem easeFill_ease (m : Note) (z : Int) :
    (if m.connector_ease = -1 then { m with connector_ease := z }
      else m).connector_ease
      = if m.connector_ease = -1 then z else m.connector_ease := by
  by_cases h : m.connector_ease = -1 <;> simp [h]

theorem mergeInto_kind (n : Note) (r : AnchorReq) :
    (mergeInto n r).segment_kind
      = match r.segment_kind with
        | some k => if n.segment_kind = -1 then k else n.segment_kind
        | none => n.segment_kind := by
  unfold mergeInto
  rcases r.segment_kind with _ | k <;> rcases r.segment_alpha with _ | a <;>
    rcases r.connector_ease with _ | z
  · rfl
  · rw [easeFill_kind]
  · rw [alphaFill_kind]
  · rw [easeFill_kind, alphaFill_kind]
  · rw [kindFill_kind]
  · rw [easeFill_kind, kindFill_kind]
  · rw [alphaFill_kind, kindFill_kind]
  · rw [easeFill_kind, alphaFill_kind, kindFill_kind]

theorem mergeInto_alpha (n : Note) (r : AnchorReq) :
    (mergeInto n r).segment_alpha
      = match r.segment_alpha with
        | some a => if n.segment_alpha = -1 then a else n.segment_alpha
        | none => n.segment_alpha := by
  unfold mergeInto
  rcases r.segment_kind with _ | k <;> rcases r.segment_alpha with _ | a <;>
    rcases r.connector_ease with _ | z
  · rfl
  · rw [easeFill_alpha]
  · rw [alphaFill_alpha]
  · rw [easeFill_alpha, alphaFill_alpha]
  · rw [kindFill_alpha]
  · rw [easeFill_alpha, kindFill_alpha]
  · rw [alphaFill_alpha, kindFill_alpha]
  · rw [easeFill_alpha, alphaFill_alpha, kindFill_alpha]

theorem mergeInto_ease (n : Note) (r : AnchorReq) :
    (mergeInto n r).connector_ease
      = match r.connector_ease with
        | some z => if n.connector_ease = -1 then z else n.connector_ease
        | none => n.connector_ease := by
  unfold mergeInto
  rcases r.segment_kind with _ | k <;> rcases r.segment_alpha with _ | a <;>
    rcases r.connector_ease with _ | z
  · rfl
  · rw [easeFill_ease]
  · rw [alphaFill_ease]
  · rw [easeFill_ease, alphaFill_ease]
  · rw [kindFill_ease]
  · rw [easeFill_ease, kindFill_ease]
  · rw [alphaFill_ease, kindFill_ease]
  · rw [easeFill_ease, alphaFill_ease, kindFill_ease]

theorem anchorMatches_true (n : Note) (r : AnchorReq)
    (h1 : n.lane = r.lane) (h2 : n.size = r.size)
    (h3 : n.timescale_group = some r.timescale_group)
    (h4 : ∀ k, r.segment_kind = some k →
      n.segment_kind = k ∨ n.segment_kind = -1)
    (h5 : ∀ a, r.segment_alpha = some a →
      n.segment_alpha = a ∨ n.segment_alpha = -1)
    (h6 : ∀ z, r.connector_ease = some z →
      n.connector_ease = z ∨ n.connector_ease = -1) :
    anchorMatches n r = true := by
  unfold anchorMatches
  rcases hk : r.segment_kind with _ | k <;>
    rcases ha : r.segment_alpha with _ | a <;>
      rcases hz : r.connector_ease with _ | z
  · simp [h1, h2, h3]
  · rcases h6 z hz with h | h <;> simp [h1, h2, h3, h]
  · rcases h5 a ha with h | h <;> simp [h1, h2, h3, h]
  · rcases h5 a ha with h | h <;> rcases h6 z hz with h' | h' <;>
      simp [h1, h2, h3, h, h']
  · rcases h4 k hk with h | h <;> simp [h1, h2, h3, h]
  · rcases h4 k hk with h | h <;> rcases h6 z hz with h' | h' <;>
      simp [h1, h2, h3, h, h']
  · rcases h4 k hk with h | h <;> rcases h5 a ha with h' | h' <;>
      simp [h1, h2, h3, h, h']
  · rcases h4 k hk with h | h <;> rcases h5 a ha with h' | h' <;>
      rcases h6 z hz with h'' | h'' <;> simp [h1, h2, h3, h, h', h'']

/-! The guide mapping tables never supply the sentinel. -/

theorem guide_kind_mapping_ne (v : Rat) (k : Int)
    (h : guide_kind_mapping v = some k) : k ≠ -1 := by
  unfold guide_kind_mapping at h
  split_ifs at h <;> cases h <;> decide

theorem ease_type_mapping_ne (v : Rat) (z : Int)
    (h : ease_type_mapping v = some z) : z ≠ -1 := by
  unfold ease_type_mapping at h
  split_ifs at h <;> cases h <;> decide

theorem fade_alpha_mapping_ne (v : Rat) (fa : Rat × Rat)
    (h : fade_alpha_mapping v = some fa) : fa.1 ≠ -1 ∧ fa.2 ≠ -1 := by
  unfold fade_alpha_mapping at h
  split_ifs at h <;> cases h <;> exact ⟨by decide, by decide⟩

theorem guideReqs_ok (tsm : List (Nat × Nat)) (e : ExternalEntityData)
    (rs re rh rt : AnchorReq)
    (h : guideReqs tsm e = some (rs, re, rh, rt)) :
    ReqOk rs ∧ ReqOk re ∧ ReqOk rh ∧ ReqOk rt := by
  unfold guideReqs at h
  simp only [Option.bind_eq_bind, Option.bind_eq_some] at h
  obtain ⟨s, hs, h2, hh2, t, ht, en, hen, eased, heased, fa, hfa, kind,
    hkind, hp⟩ := h
  cases hp
  refine ⟨⟨?_, ?_, ?_⟩, ⟨?_, ?_, ?_⟩, ⟨?_, ?_, ?_⟩, ⟨?_, ?_, ?_⟩⟩
  · intro k hk
    cases hk
    exact guide_kind_mapping_ne _ _ hkind
  · intro a ha
    cases ha
    exact (fade_alpha_mapping_ne _ _ hfa).1
  · intro z hz
    cases hz
  · intro k hk
    cases hk
  · intro a ha
    cases ha
    exact (fade_alpha_mapping_ne _ _ hfa).2
  · intro z hz
    cases hz
  · intro k hk
    cases hk
  · intro a ha
    cases ha
  · intro z hz
    cases hz
    exact ease_type_mapping_ne _ _ heased
  · intro k hk
    cases hk
  · intro a ha
    cases ha
  · intro z hz
    cases hz

theorem guideReqList_ok (tsm : List (Nat × Nat)) :
    ∀ (gs : List ExternalEntityData) (reqs : List AnchorReq),
      guideReqList tsm gs = some reqs → ∀ q ∈ reqs, ReqOk q
  | [], reqs, h => by
    rw [guideReqList] at h
    cases h
    intro q hq
    cases hq
  | e :: gs, reqs, h => by
    rw [guideReqList] at h
    simp only [Option.bind_eq_bind, Option.bind_eq_some] at h
    obtain ⟨⟨rs, re, rh, rt⟩, hre, l, hl, hp⟩ := h
    cases hp
    obtain ⟨o1, o2, o3, o4⟩ := guideReqs_ok tsm e rs re rh rt hre
    intro q hq
    simp only [List.mem_cons] at hq
    rcases hq with rfl | rfl | rfl | rfl | hq
    · exact o1
    · exact o2
    · exact o3
    · exact o4
    · exact guideReqList_ok tsm gs l hl q hq

/-! `GInv` and the basic steps that preserve it. -/

theorem ginv_init (K : AnchorKey) (st : St) : GInv K [] st [] [] := by
  refine ⟨?_, ?_, fun _ => rfl, fun h => absurd rfl h⟩
  · intro id hid
    cases hid
  · intro b id hid
    unfold bucketGet at hid
    simp [List.find?] at hid

theorem gInv_alloc_conn (K : AnchorKey) (P : List AnchorReq) (st : St)
    (abb : Abb) (out : List EntityRef) (c : Connector)
    (hwf : StWF st) (hinv : GInv K P st abb out) :
    GInv K P (st.alloc (Obj.conn c)).2 abb
      (out ++ [EntityRef.obj (st.alloc (Obj.conn c)).1]) := by
  obtain ⟨hi0, hi1, hi2, hi3⟩ := hinv
  have hgetO : ∀ j, j < st.nextId →
      (st.alloc (Obj.conn c)).2.getNote j = st.getNote j :=
    fun j hj => getNote_alloc st _ j hwf hj
  have hgetN : (st.alloc (Obj.conn c)).2.getNote st.nextId = none := by
    unfold St.getNote
    rw [St.lookup_alloc st _ _ hwf, if_pos rfl]
  have hA : ∀ K2, anchorsAtKey (st.alloc (Obj.conn c)).2
      (out ++ [EntityRef.obj st.nextId]) K2 = anchorsAtKey st out K2 := by
    intro K2
    rw [anchorsAtKey_append, anchorsAtKey_single_obj]
    rw [hgetN]
    rw [List.append_nil]
    refine anchorsAtKey_congr st _ K2 out ?_
    intro id hid
    exact Or.inl (hgetO id (hi0 id hid))
  refine ⟨?_, ?_, ?_, ?_⟩
  · intro id hid
    rcases List.mem_append.mp hid with h1 | h1
    · have := hi0 id h1
      show id < st.nextId + 1
      omega
    · rw [List.mem_singleton] at h1
      cases h1
      show st.nextId < st.nextId + 1
      omega
  · intro b id hid
    obtain ⟨n, hg, hb, ho⟩ := hi1 b id hid
    exact ⟨n, by rw [hgetO id (getNote_lt_nextId hwf hg)]; exact hg, hb,
      List.mem_append.mpr (Or.inl ho)⟩
  · intro hP
    show anchorsAtKey (st.alloc (Obj.conn c)).2
      (out ++ [EntityRef.obj st.nextId]) K = []
    rw [hA K]
    exact hi2 hP
  · intro hP
    obtain ⟨aid, n, hAk, hbk, hgn, hkey, hk1, hk2, hk3⟩ := hi3 hP
    exact ⟨aid, n, by
      show anchorsAtKey (st.alloc (Obj.conn c)).2
        (out ++ [EntityRef.obj st.nextId]) K = [aid]
      rw [hA K]
      exact hAk, hbk,
      by rw [hgetO aid (getNote_lt_nextId hwf hgn)]; exact hgn,
      hkey, hk1, hk2, hk3⟩

theorem fold_modifyNote_none (g : Note → Note) :
    ∀ (ids : List Nat) (st : St) (j : Nat), st.getNote j = none →
      (ids.foldl (fun s id => s.modifyNote id g) st).getNote j = none
  | [], st, j, h => h
  | id :: ids, st, j, h => by
    rw [List.foldl_cons]
    refine fold_modifyNote_none g ids _ j ?_
    rw [getNote_modifyNote]
    by_cases hj : j = id
    · rw [if_pos hj, h]
      rfl
    · rw [if_neg hj]
      exact h

theorem apply_guide_defaults_none :
    ∀ (abb : Abb) (st : St) (j : Nat), st.getNote j = none →
      (apply_guide_defaults st abb).getNote j = none
  | [], st, j, h => h
  | p :: abb, st, j, h => by
    show (apply_guide_defaults
      (p.2.foldl (fun s id => s.modifyNote id defaultAnchor) st) abb).getNote j
      = none
    exact apply_guide_defaults_none abb _ j
      (fold_modifyNote_none defaultAnchor p.2 st j h)

/-- One `get_anchor` call preserves the single-key invariant, recording the
request when it is at the key: a compatible request merges into the unique
anchor (filling only sentinels), an incompatible or first request allocates
a fresh anchor. -/
theorem get_anchor_inv (K : AnchorKey) (P : List AnchorReq) (st : St)
    (abb : Abb) (out : List EntityRef) (r : AnchorReq)
    (hwf : StWF st) (hinv : GInv K P st abb out)
    (hPok : ∀ p ∈ P, ReqOk p)
    (hcompat : reqKey r = K → ∀ p ∈ P, Compatible p r) :
    StWF (get_anchor st abb out r).2.1
    ∧ GInv K (if reqKey r = K then P ++ [r] else P)
        (get_anchor st abb out r).2.1 (get_anchor st abb out r).2.2.1
        (get_anchor st abb out r).2.2.2 := by
  obtain ⟨hi0, hi1, hi2, hi3⟩ := hinv
  unfold get_anchor
  rcases hfind : findAnchor st (bucketGet abb r.beat) r with _ | id
  · -- no compatible anchor in the bucket: a fresh anchor is allocated
    show StWF (st.alloc (Obj.note (newAnchor r))).2
      ∧ GInv K (if reqKey r = K then P ++ [r] else P)
          (st.alloc (Obj.note (newAnchor r))).2
          (bucketAdd abb r.beat st.nextId)
          (out ++ [EntityRef.obj st.nextId])
    have hgetN : (st.alloc (Obj.note (newAnchor r))).2.getNote st.nextId
        = some (newAnchor r) := by
      unfold St.getNote
      rw [St.lookup_alloc st _ _ hwf, if_pos rfl]
    have hgetO : ∀ j, j < st.nextId →
        (st.alloc (Obj.note (newAnchor r))).2.getNote j = st.getNote j :=
      fun j hj => getNote_alloc st _ j hwf hj
    have hwf2 : StWF (st.alloc (Obj.note (newAnchor r))).2 := hwf.alloc _
    have hAold : ∀ K2, anchorsAtKey (st.alloc (Obj.note (newAnchor r))).2
        out K2 = anchorsAtKey st out K2 := by
      intro K2
      refine anchorsAtKey_congr st _ K2 out ?_
      intro id2 hid2
      exact Or.inl (hgetO id2 (hi0 id2 hid2))
    have hAnew : ∀ K2, anchorsAtKey (st.alloc (Obj.note (newAnchor r))).2
        (out ++ [EntityRef.obj st.nextId]) K2
        = anchorsAtKey st out K2
          ++ if reqKey r = K2 then [st.nextId] else [] := by
      intro K2
      rw [anchorsAtKey_append, anchorsAtKey_single_obj, hAold K2]
      simp only [hgetN]
      by_cases hK2 : reqKey r = K2
      · rw [if_pos ((noteKeyIs_newAnchor r K2).mpr hK2), if_pos hK2]
      · rw [if_neg (fun h => hK2 ((noteKeyIs_newAnchor r K2).mp h)),
          if_neg hK2]
    refine ⟨hwf2, ?_, ?_, ?_, ?_⟩
    · intro id2 hid2
      rcases List.mem_append.mp hid2 with h1 | h1
      · have := hi0 id2 h1
        show id2 < st.nextId + 1
        omega
      · rw [List.mem_singleton] at h1
        cases h1
        show st.nextId < st.nextId + 1
        omega
    · intro b id2 hid2
      rw [bucketGet_bucketAdd] at hid2
      by_cases hb : b = r.beat
      · rw [if_pos hb] at hid2
        rcases List.mem_append.mp hid2 with h1 | h1
        · obtain ⟨n, hg, hbeat, ho⟩ := hi1 b id2 h1
          exact ⟨n, by rw [hgetO id2 (getNote_lt_nextId hwf hg)]; exact hg,
            hbeat, List.mem_append.mpr (Or.inl ho)⟩
        · rw [List.mem_singleton] at h1
          cases h1
          refine ⟨newAnchor r, hgetN, ?_,
            List.mem_append.mpr (Or.inr (by simp))⟩
          rw [hb]
          rfl
      · rw [if_neg hb] at hid2
        obtain ⟨n, hg, hbeat, ho⟩ := hi1 b id2 hid2
        exact ⟨n, by rw [hgetO id2 (getNote_lt_nextId hwf hg)]; exact hg,
          hbeat, List.mem_append.mpr (Or.inl ho)⟩
    · intro hP'
      by_cases hK : reqKey r = K
      · rw [if_pos hK] at hP'
        exact absurd hP' (by simp)
      · rw [if_neg hK] at hP'
        simp [hAnew K, hi2 hP', hK]
    · intro hP'
      by_cases hK : reqKey r = K
      · subst hK
        have hPnil : P = [] := by
          by_contra hPne
          obtain ⟨aid, n, hAk, hbk, hgn, hkey, hk1, hk2, hk3⟩ := hi3 hPne
          have hkc : n.beat = r.beat ∧ n.lane = r.lane ∧ n.size = r.size
              ∧ n.timescale_group = some r.timescale_group := by
            have h := hkey
            simp only [noteKeyIs, reqKey, Bool.and_eq_true,
              decide_eq_true_eq] at h
            exact ⟨h.1.1.1, h.1.1.2, h.1.2, h.2⟩
          have hmatch : anchorMatches n r = true := by
            refine anchorMatches_true n r hkc.2.1 hkc.2.2.1 hkc.2.2.2
              ?_ ?_ ?_
            · intro k hk
              rcases firstContrib_cases (-1)
                  (P.map (fun q => q.segment_kind)) with hc | ⟨o, ho, hoe⟩
              · rw [hk1]
                exact Or.inr hc
              · obtain ⟨p0, hp0, hfp0⟩ := List.mem_map.mp ho
                rw [hoe] at hfp0
                rw [← hk1] at hfp0
                exact Or.inl ((hcompat rfl p0 hp0).1 n.segment_kind k hfp0 hk)
            · intro a ha
              rcases firstContrib_cases (-1)
                  (P.map (fun q => q.segment_alpha)) with hc | ⟨o, ho, hoe⟩
              · rw [hk2]
                exact Or.inr hc
              · obtain ⟨p0, hp0, hfp0⟩ := List.mem_map.mp ho
                rw [hoe] at hfp0
                rw [← hk2] at hfp0
                exact Or.inl ((hcompat rfl p0 hp0).2.1 n.segment_alpha a
                  hfp0 ha)
            · intro z hz
              rcases firstContrib_cases (-1)
                  (P.map (fun q => q.connector_ease)) with hc | ⟨o, ho, hoe⟩
              · rw [hk3]
                exact Or.inr hc
              · obtain ⟨p0, hp0, hfp0⟩ := List.mem_map.mp ho
                rw [hoe] at hfp0
                rw [← hk3] at hfp0
                exact Or.inl ((hcompat rfl p0 hp0).2.2 n.connector_ease z
                  hfp0 hz)
          have hnone := hfind
          unfold findAnchor at hnone
          rw [List.find?_eq_none] at hnone
          refine hnone aid hbk ?_
          show (match st.getNote aid with
            | some n0 => anchorMatches n0 r
            | none => false) = true
          simp only [hgn]
          exact hmatch
        subst hPnil
        rw [if_pos rfl]
        refine ⟨st.nextId, newAnchor r, ?_, ?_, hgetN,
          (noteKeyIs_newAnchor r _).mpr rfl, ?_, ?_, ?_⟩
        · simp [hAnew (reqKey r), hi2 rfl]
        · rw [bucketGet_bucketAdd,
            if_pos (show (reqKey r).1 = r.beat from rfl)]
          simp
        · rcases hrk : r.segment_kind with _ | k <;>
            simp [firstContrib, newAnchor, hrk]
        · rcases hra : r.segment_alpha with _ | a <;>
            simp [firstContrib, newAnchor, hra]
        · rcases hrz : r.connector_ease with _ | z <;>
            simp [firstContrib, newAnchor, hrz]
      · rw [if_neg hK] at hP' ⊢
        obtain ⟨aid, n, hAk, hbk, hgn, hkey, hk1, hk2, hk3⟩ := hi3 hP'
        refine ⟨aid, n, ?_, ?_, ?_, hkey, hk1, hk2, hk3⟩
        · simp [hAnew K, hAk, hK]
        · rw [bucketGet_bucketAdd]
          by_cases hb : K.1 = r.beat
          · rw [if_pos hb]
            exact List.mem_append.mpr (Or.inl hbk)
          · rw [if_neg hb]
            exact hbk
        · rw [hgetO aid (getNote_lt_nextId hwf hgn)]
          exact hgn
  · -- the scan found a compatible anchor: merge into it
    show StWF (st.modifyNote id (fun n => mergeInto n r))
      ∧ GInv K (if reqKey r = K then P ++ [r] else P)
          (st.modifyNote id (fun n => mergeInto n r)) abb out
    have h' := hfind
    unfold findAnchor at h'
    have hidmem : id ∈ bucketGet abb r.beat := List.mem_of_find?_eq_some h'
    have hpred := List.find?_some h'
    rcases hg0 : st.getNote id with _ | n0
    · simp only [hg0] at hpred
      cases hpred
    · simp only [hg0] at hpred
      obtain ⟨n0', hg0', hbeat0, hout0⟩ := hi1 r.beat id hidmem
      rw [hg0] at hg0'
      cases hg0'
      have hm := hpred
      simp only [anchorMatches, Bool.and_eq_true, decide_eq_true_eq] at hm
      obtain ⟨⟨⟨⟨⟨hml, hms⟩, hmt⟩, hm1⟩, hm2⟩, hm3⟩ := hm
      have hwf2 : StWF (st.modifyNote id (fun n => mergeInto n r)) :=
        hwf.modify _ _
      have hgid : (st.modifyNote id (fun n => mergeInto n r)).getNote id
          = some (mergeInto n0 r) := by
        rw [getNote_modifyNote, if_pos rfl, hg0]
        rfl
      have hgother : ∀ j, j ≠ id →
          (st.modifyNote id (fun n => mergeInto n r)).getNote j
            = st.getNote j := by
        intro j hj
        rw [getNote_modifyNote, if_neg hj]
      have hApres : ∀ K2,
          anchorsAtKey (st.modifyNote id (fun n => mergeInto n r)) out K2
            = anchorsAtKey st out K2 := by
        intro K2
        refine anchorsAtKey_congr st _ K2 out ?_
        intro id2 hid2
        by_cases hj : id2 = id
        · subst hj
          exact Or.inr ⟨n0, mergeInto n0 r, hg0, hgid,
            attrMono_key (mergeInto_mono n0 r) K2⟩
        · exact Or.inl (hgother id2 hj)
      have hkeyn0 : noteKeyIs n0 (reqKey r) = true := by
        simp only [noteKeyIs, reqKey, Bool.and_eq_true, decide_eq_true_eq]
        exact ⟨⟨⟨hbeat0, hml⟩, hms⟩, hmt⟩
      refine ⟨hwf2, ?_, ?_, ?_, ?_⟩
      · intro id2 hid2
        exact hi0 id2 hid2
      · intro b id2 hid2
        obtain ⟨n1, hg1, hb1, ho1⟩ := hi1 b id2 hid2
        by_cases hj : id2 = id
        · subst hj
          rw [hg0] at hg1
          cases hg1
          refine ⟨mergeInto n0 r, hgid, ?_, ho1⟩
          rw [(mergeInto_mono n0 r).1]
          exact hb1
        · exact ⟨n1, by rw [hgother id2 hj]; exact hg1, hb1, ho1⟩
      · intro hP'
        by_cases hK : reqKey r = K
        · rw [if_pos hK] at hP'
          exact absurd hP' (by simp)
        · rw [if_neg hK] at hP'
          rw [hApres K]
          exact hi2 hP'
      · intro hP'
        by_cases hK : reqKey r = K
        · subst hK
          have hPne : P ≠ [] := by
            intro hPnil
            have hmem : id ∈ anchorsAtKey st out (reqKey r) :=
              (mem_anchorsAtKey st out _ id).mpr ⟨hout0, n0, hg0, hkeyn0⟩
            rw [hi2 hPnil] at hmem
            cases hmem
          obtain ⟨aid, n, hAk, hbk, hgn, hkey, hk1, hk2, hk3⟩ := hi3 hPne
          have hida : id = aid := by
            have hmem : id ∈ anchorsAtKey st out (reqKey r) :=
              (mem_anchorsAtKey st out _ id).mpr ⟨hout0, n0, hg0, hkeyn0⟩
            rw [hAk] at hmem
            exact List.mem_singleton.mp hmem
          subst hida
          rw [hg0] at hgn
          cases hgn
          rw [if_pos rfl]
          refine ⟨id, mergeInto n0 r, ?_, hbk, hgid, ?_, ?_, ?_, ?_⟩
          · rw [hApres (reqKey r)]
            exact hAk
          · rw [attrMono_key (mergeInto_mono n0 r) (reqKey r)]
            exact hkeyn0
          · have hfill := fill_firstContrib (-1) (fun q => q.segment_kind)
              P r n0.segment_kind hk1 (fun p hp v hv => (hPok p hp).1 v hv)
            rw [mergeInto_kind]
            rcases hfr : r.segment_kind with _ | k <;> simp only [hfr] at hfill <;>
              exact hfill
          · have hfill := fill_firstContrib (-1) (fun q => q.segment_alpha)
              P r n0.segment_alpha hk2 (fun p hp v hv => (hPok p hp).2.1 v hv)
            rw [mergeInto_alpha]
            rcases hfr : r.segment_alpha with _ | a <;> simp only [hfr] at hfill <;>
              exact hfill
          · have hfill := fill_firstContrib (-1) (fun q => q.connector_ease)
              P r n0.connector_ease hk3 (fun p hp v hv => (hPok p hp).2.2 v hv)
            rw [mergeInto_ease]
            rcases hfr : r.connector_ease with _ | z <;> simp only [hfr] at hfill <;>
              exact hfill
        · rw [if_neg hK] at hP' ⊢
          obtain ⟨aid, n, hAk, hbk, hgn, hkey, hk1, hk2, hk3⟩ := hi3 hP'
          have haidne : aid ≠ id := by
            intro he
            subst he
            rw [hg0] at hgn
            cases hgn
            exact hK (noteKeyIs_unique hkeyn0 hkey)
          refine ⟨aid, n, ?_, hbk, ?_, hkey, hk1, hk2, hk3⟩
          · rw [hApres K]
            exact hAk
          · rw [hgother aid haidne]
            exact hgn

/-- Processing a request list preserves the single-key invariant,
accumulating the requests at the key. -/
theorem processReqs_ginv (K : AnchorKey) :
    ∀ (rl : List AnchorReq) (P : List AnchorReq) (st : St) (abb : Abb)
      (out : List EntityRef),
      StWF st → GInv K P st abb out →
      (∀ p ∈ P, ReqOk p) → (∀ q ∈ rl, ReqOk q) →
      (∀ p ∈ P, ∀ q ∈ rl, reqKey q = K → Compatible p q) →
      (rl.filter (fun q => reqKey q = K)).Pairwise Compatible →
      StWF (processReqs rl st abb out).1
      ∧ GInv K (P ++ rl.filter (fun q => reqKey q = K))
          (processReqs rl st abb out).1 (processReqs rl st abb out).2.1
          (processReqs rl st abb out).2.2
      ∧ (∀ p ∈ P ++ rl.filter (fun q => reqKey q = K), ReqOk p)
  | [], P, st, abb, out, hwf, hinv, hPok, _, _, _ => by
    simp only [processReqs, List.filter_nil, List.append_nil]
    exact ⟨hwf, hinv, hPok⟩
  | r :: rl, P, st, abb, out, hwf, hinv, hPok, hrlok, hPcom, hpair => by
    obtain ⟨hwf2, hinv2⟩ := get_anchor_inv K P st abb out r hwf hinv hPok
      (fun hK p hp => hPcom p hp r (by simp) hK)
    have hokr : ReqOk r := hrlok r (by simp)
    have hPok2 : ∀ p ∈ (if reqKey r = K then P ++ [r] else P), ReqOk p := by
      by_cases hK : reqKey r = K
      · rw [if_pos hK]
        intro p hp
        rcases List.mem_append.mp hp with h1 | h1
        · exact hPok p h1
        · rw [List.mem_singleton] at h1
          subst h1
          exact hokr
      · rw [if_neg hK]
        exact hPok
    have hPcom2 : ∀ p ∈ (if reqKey r = K then P ++ [r] else P),
        ∀ q ∈ rl, reqKey q = K → Compatible p q := by
      by_cases hK : reqKey r = K
      · rw [if_pos hK]
        intro p hp q hq hqK
        rcases List.mem_append.mp hp with h1 | h1
        · exact hPcom p h1 q (by simp [hq]) hqK
        · rw [List.mem_singleton] at h1
          rw [h1]
          have hfil : (r :: rl).filter (fun q => reqKey q = K)
              = r :: rl.filter (fun q => reqKey q = K) := by
            rw [List.filter_cons, if_pos (by simp [hK])]
          rw [hfil] at hpair
          exact (List.pairwise_cons.mp hpair).1 q
            (List.mem_filter.mpr ⟨hq, by simp [hqK]⟩)
      · rw [if_neg hK]
        intro p hp q hq hqK
        exact hPcom p hp q (by simp [hq]) hqK
    have hpair2 : (rl.filter (fun q => reqKey q = K)).Pairwise Compatible := by
      by_cases hK : reqKey r = K
      · have hfil : (r :: rl).filter (fun q => reqKey q = K)
            = r :: rl.filter (fun q => reqKey q = K) := by
          rw [List.filter_cons, if_pos (by simp [hK])]
        rw [hfil] at hpair
        exact (List.pairwise_cons.mp hpair).2
      · have hfil : (r :: rl).filter (fun q => reqKey q = K)
            = rl.filter (fun q => reqKey q = K) := by
          rw [List.filter_cons, if_neg (by simp [hK])]
        rw [hfil] at hpair
        exact hpair
    have hrlok2 : ∀ q ∈ rl, ReqOk q := fun q hq => hrlok q (by simp [hq])
    obtain ⟨hwfF, hinvF, hPokF⟩ := processReqs_ginv K rl
      (if reqKey r = K then P ++ [r] else P)
      (get_anchor st abb out r).2.1 (get_anchor st abb out r).2.2.1
      (get_anchor st abb out r).2.2.2 hwf2 hinv2 hPok2 hrlok2 hPcom2 hpair2
    have heq : processReqs (r :: rl) st abb out
        = processReqs rl (get_anchor st abb out r).2.1
            (get_anchor st abb out r).2.2.1
            (get_anchor st abb out r).2.2.2 := rfl
    rw [heq]
    have hlist : (if reqKey r = K then P ++ [r] else P)
        ++ rl.filter (fun q => reqKey q = K)
        = P ++ (r :: rl).filter (fun q => reqKey q = K) := by
      by_cases hK : reqKey r = K
      · rw [if_pos hK, List.filter_cons, if_pos (by simp [hK]),
          List.append_assoc]
        rfl
      · rw [if_neg hK, List.filter_cons, if_neg (by simp [hK])]
    rw [hlist] at hinvF hPokF
    exact ⟨hwfF, hinvF, hPokF⟩

/-- The guide loop preserves the single-key invariant: per guide, its four
control points are processed in order, then the connector allocation leaves
the anchors untouched. -/
theorem convert_guides_loop_ginv (tsm : List (Nat × Nat)) (K : AnchorKey) :
    ∀ (gs : List ExternalEntityData) (st : St) (abb : Abb)
      (out : List EntityRef) (P : List AnchorReq) (reqs : List AnchorReq)
      (r2 : St × Abb × List EntityRef),
      convert_guides_loop tsm gs st abb out = some r2 →
      guideReqList tsm gs = some reqs →
      StWF st → GInv K P st abb out → (∀ p ∈ P, ReqOk p) →
      (∀ p ∈ P, ∀ q ∈ reqs, reqKey q = K → Compatible p q) →
      (reqs.filter (fun q => reqKey q = K)).Pairwise Compatible →
      StWF r2.1
      ∧ GInv K (P ++ reqs.filter (fun q => reqKey q = K)) r2.1 r2.2.1 r2.2.2
  | [], st, abb, out, P, reqs, r2, h, hr, hwf, hinv, hPok, hPcom, hpair => by
    rw [convert_guides_loop] at h
    cases h
    rw [guideReqList] at hr
    cases hr
    simp only [List.filter_nil, List.append_nil]
    exact ⟨hwf, hinv⟩
  | e :: gs, st, abb, out, P, reqs, r2, h, hr, hwf, hinv, hPok, hPcom,
      hpair => by
    rw [convert_guides_loop] at h
    rw [guideReqList] at hr
    simp only [Option.bind_eq_bind, Option.bind_eq_some] at h hr
    obtain ⟨⟨rs, re, rh, rt⟩, hreq, h⟩ := h
    obtain ⟨⟨rs', re', rh', rt'⟩, hreq', l, hl, hp⟩ := hr
    rw [hreq] at hreq'
    simp only [Option.some.injEq, Prod.mk.injEq] at hreq'
    obtain ⟨rfl, rfl, rfl, rfl⟩ := hreq'
    cases hp
    have hfil : (rs :: re :: rh :: rt :: l).filter (fun q => reqKey q = K)
        = [rs, re, rh, rt].filter (fun q => reqKey q = K)
          ++ l.filter (fun q => reqKey q = K) := by
      rw [show (rs :: re :: rh :: rt :: l) = [rs, re, rh, rt] ++ l from rfl,
        List.filter_append]
    rw [hfil] at hpair
    obtain ⟨hp4, hpl, hcross⟩ := List.pairwise_append.mp hpair
    obtain ⟨ok1, ok2, ok3, ok4⟩ := guideReqs_ok tsm e rs re rh rt hreq
    have hok4 : ∀ q ∈ [rs, re, rh, rt], ReqOk q := by
      intro q hq
      simp only [List.mem_cons] at hq
      rcases hq with rfl | rfl | rfl | rfl | hq
      · exact ok1
      · exact ok2
      · exact ok3
      · exact ok4
      · cases hq
    have hPcom4 : ∀ p ∈ P, ∀ q ∈ [rs, re, rh, rt],
        reqKey q = K → Compatible p q := by
      intro p hp q hq hqK
      refine hPcom p hp q ?_ hqK
      simp only [List.mem_cons] at hq ⊢
      tauto
    obtain ⟨hwf4, hinv4, hok4'⟩ := processReqs_ginv K [rs, re, rh, rt] P
      st abb out hwf hinv hPok hok4 hPcom4 hp4
    generalize hA1 : get_anchor st abb out rs = A1 at h
    generalize hA2 : get_anchor A1.2.1 A1.2.2.1 A1.2.2.2 re = A2 at h
    generalize hA3 : get_anchor A2.2.1 A2.2.2.1 A2.2.2.2 rh = A3 at h
    generalize hA4 : get_anchor A3.2.1 A3.2.2.1 A3.2.2.2 rt = A4 at h
    have hPR : processReqs [rs, re, rh, rt] st abb out
        = (A4.2.1, A4.2.2.1, A4.2.2.2) := by
      simp only [processReqs]
      rw [hA1, hA2, hA3, hA4]
    rw [hPR] at hwf4 hinv4
    have hwf5 := hwf4.alloc (Obj.conn ⟨A3.1, A4.1, A1.1, A2.1, none, none⟩)
    have hinv5 := gInv_alloc_conn K
      (P ++ [rs, re, rh, rt].filter (fun q => reqKey q = K))
      A4.2.1 A4.2.2.1 A4.2.2.2
      ⟨A3.1, A4.1, A1.1, A2.1, none, none⟩ hwf4 hinv4
    have hPcom5 : ∀ p ∈ P ++ [rs, re, rh, rt].filter (fun q => reqKey q = K),
        ∀ q ∈ l, reqKey q = K → Compatible p q := by
      intro p hp q hq hqK
      rcases List.mem_append.mp hp with h1 | h1
      · exact hPcom p h1 q (by simp [hq]) hqK
      · exact hcross p h1 q (List.mem_filter.mpr ⟨hq, by simp [hqK]⟩)
    obtain ⟨hwfF, hinvF⟩ := convert_guides_loop_ginv tsm K gs _ _ _
      (P ++ [rs, re, rh, rt].filter (fun q => reqKey q = K)) l r2
      h hl hwf5 hinv5 hok4' hPcom5 hpl
    rw [List.append_assoc, ← hfil] at hinvF
    exact ⟨hwfF, hinvF⟩

/-- C1: for every key whose control points contribute pairwise-compatible
attributes, the guide builder's output has exactly one anchor entity at
that key, carrying every contributed attribute (none dropped, none
overwritten); and whenever no compatible anchor exists in the bucket — in
particular on an attribute conflict — `get_anchor` allocates a fresh,
distinct anchor entity instead of mutating an existing one. -/
theorem anchor_dedup_soundness (ents : List ExternalEntityData)
    (tsm : List (Nat × Nat)) (st : St) (out2 : List EntityRef) (st2 : St)
    (reqs : List AnchorReq) (K : AnchorKey)
    (h : convert_guides ents tsm st = some (out2, st2))
    (hwf : StWF st)
    (hreqs : guideReqList tsm
      ((byArchetype ents "Guide").map (fun p => p.2)) = some reqs)
    (hpair : (reqs.filter (fun q => reqKey q = K)).Pairwise Compatible) :
    (reqs.filter (fun q => reqKey q = K) = [] →
      anchorsAtKey st2 out2 K = [])
    ∧ (reqs.filter (fun q => reqKey q = K) ≠ [] →
      ∃ aid n, anchorsAtKey st2 out2 K = [aid]
        ∧ st2.getNote aid = some n ∧ noteKeyIs n K = true
        ∧ (∀ q ∈ reqs.filter (fun q => reqKey q = K),
            (∀ k, q.segment_kind = some k → n.segment_kind = k)
            ∧ (∀ a, q.segment_alpha = some a → n.segment_alpha = a)
            ∧ (∀ z, q.connector_ease = some z → n.connector_ease = z)))
    ∧ (∀ (stx : St) (abbx : Abb) (outx : List EntityRef) (rx : AnchorReq),
        StWF stx →
        findAnchor stx (bucketGet abbx rx.beat) rx = none →
        stx.lookup (get_anchor stx abbx outx rx).1 = none
        ∧ (get_anchor stx abbx outx rx).2.1.getNote
            (get_anchor stx abbx outx rx).1 = some (newAnchor rx)
        ∧ (∀ j n, stx.getNote j = some n →
            j ≠ (get_anchor stx abbx outx rx).1
            ∧ (get_anchor stx abbx outx rx).2.1.getNote j = some n)
        ∧ (get_anchor stx abbx outx rx).2.2.2
            = outx ++ [EntityRef.obj (get_anchor stx abbx outx rx).1]) := by
  rw [convert_guides] at h
  simp only [Option.bind_eq_bind, Option.bind_eq_some] at h
  obtain ⟨⟨stL, abbL, outL⟩, hloop, hp⟩ := h
  cases hp
  obtain ⟨hwfL, hinvL⟩ := convert_guides_loop_ginv tsm K
    ((byArchetype ents "Guide").map (fun p => p.2)) st [] [] [] reqs
    (stL, abbL, outL) hloop hreqs hwf (ginv_init K st)
    (fun p hp => absurd hp (List.not_mem_nil p))
    (fun p hp => absurd hp (List.not_mem_nil p)) hpair
  obtain ⟨_, _, hi2, hi3⟩ := hinvL
  have hcong : anchorsAtKey (apply_guide_defaults stL abbL) outL K
      = anchorsAtKey stL outL K := by
    refine anchorsAtKey_congr stL _ K outL ?_
    intro id hid
    rcases hg : stL.getNote id with _ | n
    · exact Or.inl (apply_guide_defaults_none abbL stL id hg)
    · obtain ⟨n2, hn2, hmono⟩ := apply_guide_defaults_mono abbL stL id n hg
      exact Or.inr ⟨n, n2, rfl, hn2, attrMono_key hmono K⟩
  refine ⟨?_, ?_, ?_⟩
  · intro hF
    rw [hcong]
    exact hi2 (by simp [hF])
  · intro hF
    obtain ⟨aid, n, hAk, _, hgn, hkey, hk1, hk2, hk3⟩ :=
      hi3 (by simpa using hF)
    obtain ⟨n2, hn2, hmono⟩ := apply_guide_defaults_mono abbL stL aid n hgn
    obtain ⟨mb, ml, ms, mt, mk, ma, mz⟩ := hmono
    refine ⟨aid, n2, by rw [hcong]; exact hAk, hn2, ?_, ?_⟩
    · rw [attrMono_key ⟨mb, ml, ms, mt, mk, ma, mz⟩ K]
      exact hkey
    · intro q hq
      have hqok := guideReqList_ok tsm _ reqs hreqs q
        (List.mem_filter.mp hq).1
      refine ⟨?_, ?_, ?_⟩
      · intro k hkq
        have hfc : firstContrib (-1)
            ((reqs.filter (fun q => reqKey q = K)).map
              (fun q => q.segment_kind)) = k :=
          firstContrib_all (-1) (fun q => q.segment_kind)
            (fun p q hc => hc.1) _ hpair q hq k hkq
        have hnk : n.segment_kind = k := by
          rw [hk1]
          exact hfc
        rw [mk (by rw [hnk]; exact hqok.1 k hkq), hnk]
      · intro a haq
        have hfc : firstContrib (-1)
            ((reqs.filter (fun q => reqKey q = K)).map
              (fun q => q.segment_alpha)) = a :=
          firstContrib_all (-1) (fun q => q.segment_alpha)
            (fun p q hc => hc.2.1) _ hpair q hq a haq
        have hna : n.segment_alpha = a := by
          rw [hk2]
          exact hfc
        rw [ma (by rw [hna]; exact hqok.2.1 a haq), hna]
      · intro z hzq
        have hfc : firstContrib (-1)
            ((reqs.filter (fun q => reqKey q = K)).map
              (fun q => q.connector_ease)) = z :=
          firstContrib_all (-1) (fun q => q.connector_ease)
            (fun p q hc => hc.2.2) _ hpair q hq z hzq
        have hnz : n.connector_ease = z := by
          rw [hk3]
          exact hfc
        rw [mz (by rw [hnz]; exact hqok.2.2 z hzq), hnz]
  · intro stx abbx outx rx hwfx hfx
    have hlookN : stx.lookup stx.nextId = none := by
      unfold St.lookup
      have hf : stx.heap.find? (fun p => p.1 = stx.nextId) = none :=
        List.find?_eq_none.mpr (fun p hp => by
          simp only [decide_eq_true_eq]
          have := hwfx p hp
          omega)
      rw [hf]
      rfl
    unfold get_anchor
    rw [hfx]
    refine ⟨hlookN, ?_, ?_, ?_⟩
    · show (stx.alloc (Obj.note (newAnchor rx))).2.getNote stx.nextId
        = some (newAnchor rx)
      unfold St.getNote
      rw [St.lookup_alloc stx _ _ hwfx, if_pos rfl]
    · intro j n hjn
      have hlt := getNote_lt_nextId hwfx hjn
      refine ⟨show j ≠ stx.nextId by omega, ?_⟩
      show (stx.alloc (Obj.note (newAnchor rx))).2.getNote j = some n
      rw [getNote_alloc stx _ j hwfx hlt]
      exact hjn
    · rfl

theorem anchor_dedup_soundness_witness :
    (exReqs.filter (fun q => reqKey q = (0, 0, 1, 0)) = [] →
      anchorsAtKey ex2St [EntityRef.obj 2, EntityRef.obj 3, EntityRef.obj 4]
        (0, 0, 1, 0) = [])
    ∧ (exReqs.filter (fun q => reqKey q = (0, 0, 1, 0)) ≠ [] →
      ∃ aid n, anchorsAtKey ex2St
          [EntityRef.obj 2, EntityRef.obj 3, EntityRef.obj 4] (0, 0, 1, 0)
          = [aid]
        ∧ ex2St.getNote aid = some n ∧ noteKeyIs n (0, 0, 1, 0) = true
        ∧ (∀ q ∈ exReqs.filter (fun q => reqKey q = (0, 0, 1, 0)),
            (∀ k, q.segment_kind = some k → n.segment_kind = k)
            ∧ (∀ a, q.segment_alpha = some a → n.segment_alpha = a)
            ∧ (∀ z, q.connector_ease = some z → n.connector_ease = z)))
    ∧ (∀ (stx : St) (abbx : Abb) (outx : List EntityRef) (rx : AnchorReq),
        StWF stx →
        findAnchor stx (bucketGet abbx rx.beat) rx = none →
        stx.lookup (get_anchor stx abbx outx rx).1 = none
        ∧ (get_anchor stx abbx outx rx).2.1.getNote
            (get_anchor stx abbx outx rx).1 = some (newAnchor rx)
        ∧ (∀ j n, stx.getNote j = some n →
            j ≠ (get_anchor stx abbx outx rx).1
            ∧ (get_anchor stx abbx outx rx).2.1.getNote j = some n)
        ∧ (get_anchor stx abbx outx rx).2.2.2
            = outx ++ [EntityRef.obj (get_anchor stx abbx outx rx).1]) :=
  anchor_dedup_soundness ex2 [(0, 0)] exPreSt
    [EntityRef.obj 2, EntityRef.obj 3, EntityRef.obj 4] ex2St exReqs
    (0, 0, 1, 0) (by decide)
    (by intro p hp; fin_cases hp <;> decide) (by decide)
    (by
      have hfe : exReqs.filter (fun q => reqKey q = (0, 0, 1, 0))
          = [⟨0, 0, 1, 0, some 2, some 1, none⟩,
             ⟨0, 0, 1, 0, none, none, some 2⟩] := by decide
      rw [hfe]
      refine List.Pairwise.cons ?_ (List.pairwise_singleton _ _)
      intro b hb
      rw [List.mem_singleton] at hb
      subst hb
      exact ⟨fun k1 k2 h1 h2 => (by cases h2),
        fun a1 a2 h1 h2 => (by cases h2),
        fun z1 z2 h1 h2 => (by cases h1)⟩)

end Converter
